import Mathlib

/-!
# Dense matrix library: embedding and verified properties

Shallow embedding of `MatrixLibrary.cpp` / `library.cpp`.

* `int` is a 32-bit two's-complement integer.  Values are mathematical integers (`Int`);
  the results of `int` products and sums are reduced with `wrapInt32`.
* `std::size_t` is 64 bits wide; `toSizeT` is the conversion `int → size_t`.
* A `Matrix` object is the triple `rows_`, `columns_`, `data_` of the class.  `data_` is the
  `std::unique_ptr<float[]>`: `none` is the null pointer, `some d` an owned buffer whose
  cells are the list `d`.
* Elements are taken from an arbitrary type `α` with the operations each function needs
  (exact arithmetic); the order in which every loop combines them is the source's order.
* Matrices passed by reference live in a `Store`, addressed by `Ref`; two parameters denote the
  same object exactly when their references are equal (`&result == &first`).
* Where the ownership of the arrays is itself the subject (copy construction), objects are
  modelled one level down, in `Memory`: `data_` holds an address, the arrays live on a heap,
  and two objects that hold the same address share their cells.
* An access outside the owned buffer is undefined behaviour in C++.  Element reads and writes
  therefore return an `Option`, and a function whose execution reaches such an access has the
  result `undefined`.
-/

namespace MatrixLibrary

/-! ## Machine integers -/

/-- Largest value of `int`. -/
def INT_MAX : Int := 2147483647

/-- Reduction of a mathematical integer to the 32-bit two's-complement range of `int`. -/
def wrapInt32 (x : Int) : Int := (x + 2147483648) % 4294967296 - 2147483648

/-- The `int` product `a * b`. -/
def mulInt32 (a b : Int) : Int := wrapInt32 (a * b)

/-- The `int` sum `a + b`. -/
def addInt32 (a b : Int) : Int := wrapInt32 (a + b)

/-- Conversion of an `int` to the 64-bit unsigned `std::size_t`. -/
def toSizeT (x : Int) : Nat := (x % 18446744073709551616).toNat

/-- Largest value of `std::size_t`. -/
def SIZE_MAX : Nat := 18446744073709551615

/-- Size in bytes of one `float`. -/
def sizeofFloat : Nat := 4

/-! ## Exceptions and results -/

/-- Exceptions raised by the library: `std::invalid_argument` thrown by the library's own
checks, and `std::bad_alloc` (which includes `std::bad_array_new_length`) thrown by an array
allocation whose size cannot be represented. -/
inductive Exn where
  | invalid_argument
  | bad_alloc
deriving DecidableEq, Repr

/-- Result of a call that produces a value and changes no existing object. -/
inductive Outcome (β : Type) where
  | ok (v : β)
  | throw (e : Exn)
  | undefined
deriving DecidableEq, Repr

/-- Result of a call that works on objects passed by reference: the state of those objects
when the call returns, or when the exception leaves the function. -/
inductive Effect (σ : Type) where
  | returned (s : σ)
  | thrown (e : Exn) (s : σ)
  | undefined

/-- A loop nest that ran to completion returns normally; one that reached an out-of-range
access is undefined. -/
def Effect.ofOption {σ : Type} : Option σ → Effect σ
  | some s => Effect.returned s
  | none => Effect.undefined

/-! ## The Matrix class -/

/-- The data members of `class Matrix`. -/
structure Matrix (α : Type) where
  rows_ : Int
  columns_ : Int
  data_ : Option (List α)
deriving DecidableEq, Repr

variable {α : Type}

/-- `std::make_unique<float[]>(n)`: `new float[n]()`.  The array new-expression throws when
`n * sizeof(float)` is not representable in `std::size_t`; otherwise it yields `n`
value-initialised (zero) cells.  Exhaustion of memory is not modelled. -/
def make_unique [Zero α] (n : Nat) : Outcome (List α) :=
  if SIZE_MAX < n * sizeofFloat then Outcome.throw Exn.bad_alloc
  else Outcome.ok (List.replicate n 0)

/-- `std::fill(p, p + count, value)` on the buffer starting at `p`: writes `value` into the
first `count` cells; a range that leaves the buffer is undefined. -/
def fill (d : List α) (count : Int) (value : α) : Option (List α) :=
  if 0 ≤ count ∧ count.toNat ≤ d.length then
    some (List.replicate count.toNat value ++ d.drop count.toNat)
  else none

/-- `Matrix::Matrix(int rows, int columns)`.  The member initialisers run first, in
declaration order: `rows_(rows)`, `columns_(columns)`,
`data_(std::make_unique<float[]>(rows * columns))`, where `rows * columns` is an `int` product
converted to `std::size_t`.  Only then does the body test the dimensions and fill. -/
def Matrix.create [Zero α] (rows columns : Int) : Outcome (Matrix α) :=
  match (make_unique (toSizeT (mulInt32 rows columns)) : Outcome (List α)) with
  | Outcome.throw e => Outcome.throw e
  | Outcome.undefined => Outcome.undefined
  | Outcome.ok d =>
    if rows ≤ 0 ∨ columns ≤ 0 then Outcome.throw Exn.invalid_argument
    else
      match fill d (mulInt32 rows columns) 0 with
      | none => Outcome.undefined
      | some d' => Outcome.ok { rows_ := rows, columns_ := columns, data_ := some d' }

/-- `Matrix::Matrix(int rows, int columns, float value)`: as the two-argument constructor,
filling with `value`. -/
def Matrix.create_value [Zero α] (rows columns : Int) (value : α) : Outcome (Matrix α) :=
  match (make_unique (toSizeT (mulInt32 rows columns)) : Outcome (List α)) with
  | Outcome.throw e => Outcome.throw e
  | Outcome.undefined => Outcome.undefined
  | Outcome.ok d =>
    if rows ≤ 0 ∨ columns ≤ 0 then Outcome.throw Exn.invalid_argument
    else
      match fill d (mulInt32 rows columns) value with
      | none => Outcome.undefined
      | some d' => Outcome.ok { rows_ := rows, columns_ := columns, data_ := some d' }

/-- `Matrix::rows()`. -/
def Matrix.rows (m : Matrix α) : Int := m.rows_

/-- `Matrix::columns()`. -/
def Matrix.columns (m : Matrix α) : Int := m.columns_

/-- The subscript `row * columns_ + column` of `operator()`: an `int` expression, converted to
`std::size_t` by `data_[...]`. -/
def Matrix.index (m : Matrix α) (row column : Int) : Nat :=
  toSizeT (addInt32 (mulInt32 row m.columns_) column)

/-- Number of cells of the owned buffer; a null `data_` owns none. -/
def Matrix.size (m : Matrix α) : Nat :=
  match m.data_ with
  | none => 0
  | some d => d.length

/-- Reading through `Matrix::operator()(row, column) const`: the cell
`data_[row * columns_ + column]`, `none` when that cell is outside the buffer. -/
def Matrix.element (m : Matrix α) (row column : Int) : Option α :=
  match m.data_ with
  | none => none
  | some d => d[m.index row column]?

/-- Assigning `value` through the reference returned by `Matrix::operator()(row, column)`:
`data_[row * columns_ + column] = value`, `none` when that cell is outside the buffer. -/
def Matrix.element_assign (m : Matrix α) (row column : Int) (value : α) : Option (Matrix α) :=
  match m.data_ with
  | none => none
  | some d =>
    if m.index row column < d.length then
      some { m with data_ := some (d.set (m.index row column) value) }
    else none

/-- Value read at `(row, column)`, with `0` standing in where the read is out of range. -/
def Matrix.entry [Zero α] (m : Matrix α) (row column : Int) : α :=
  (m.element row column).getD 0

/-- The class invariant of a usable matrix of shape `rows_ × columns_`: positive dimensions
whose product is an `int`, and an owned buffer of exactly `rows_ * columns_` cells. -/
def Matrix.Valid (m : Matrix α) : Prop :=
  1 ≤ m.rows_ ∧ 1 ≤ m.columns_ ∧ m.rows_ * m.columns_ ≤ INT_MAX ∧
    (m.size : Int) = m.rows_ * m.columns_

instance (m : Matrix α) : Decidable m.Valid := by
  unfold Matrix.Valid; infer_instance

/-! ## Objects and references -/

/-- Address of a `Matrix` object. -/
abbrev Ref := Nat

/-- The matrices that exist during a call, by address. -/
abbrev Store (α : Type) := Ref → Matrix α

/-- The statement `m(row, column) = value` for the object at `r`. -/
def Store.assign (s : Store α) (r : Ref) (row column : Int) (value : α) : Option (Store α) :=
  match (s r).element_assign row column value with
  | none => none
  | some m => some (Function.update s r m)

/-- The loop `for (int i = 0; i < n; ++i) body`, threading the state; `none` as soon as an
iteration is undefined.  `n` is the value of the bound on entry: the loops of this library
only assign cells, which changes no `rows_` or `columns_`, so the bound re-read by each
iteration is that same value. -/
def forLoop {σ : Type} (n : Int) (body : Int → σ → Option σ) (s : σ) : Option σ :=
  List.foldlM (fun (st : σ) (i : Nat) => body (i : Int) st) s (List.range n.toNat)

/-- The `int` remainder `a % b` (truncated toward zero); undefined when `b` is zero and when
the quotient `INT_MIN / -1` is not an `int`. -/
def remInt32 (a b : Int) : Option Int :=
  if b = 0 ∨ (a = -2147483648 ∧ b = -1) then none else some (Int.tmod a b)

/-! ## Core operations (`MatrixLibrary.cpp`) -/

/-- `void Matrix_Multiply(Matrix& result, const Matrix& first, const Matrix& second)`. -/
def Matrix_Multiply [Zero α] [Add α] [Mul α] (s : Store α) (result first second : Ref) :
    Effect (Store α) :=
  if result = first ∨ result = second then Effect.thrown Exn.invalid_argument s
  else if (s first).columns ≠ (s second).rows then Effect.thrown Exn.invalid_argument s
  else if (s result).rows ≠ (s first).rows ∨ (s result).columns ≠ (s second).columns then
    Effect.thrown Exn.invalid_argument s
  else
    Effect.ofOption <|
      forLoop (s first).rows (fun i st =>
        forLoop (st second).columns (fun j st =>
          match forLoop (st first).columns (fun k sum =>
              match (st first).element i k, (st second).element k j with
              | some a, some b => some (sum + a * b)
              | _, _ => none) (0 : α) with
          | none => none
          | some sum => st.assign result i j sum) st) s

/-- `void Matrix_Add(Matrix& result, const Matrix& matrix1, const Matrix& matrix2)`. -/
def Matrix_Add [Add α] (s : Store α) (result matrix1 matrix2 : Ref) : Effect (Store α) :=
  if result = matrix1 ∨ result = matrix2 then Effect.thrown Exn.invalid_argument s
  else if (s matrix1).rows ≠ (s matrix2).rows ∨ (s matrix1).columns ≠ (s matrix2).columns then
    Effect.thrown Exn.invalid_argument s
  else if (s result).rows ≠ (s matrix1).rows ∨ (s result).columns ≠ (s matrix1).columns then
    Effect.thrown Exn.invalid_argument s
  else
    Effect.ofOption <|
      forLoop (s matrix1).rows (fun i st =>
        forLoop (st matrix1).columns (fun j st =>
          match (st matrix1).element i j, (st matrix2).element i j with
          | some a, some b => st.assign result i j (a + b)
          | _, _ => none) st) s

/-- `void Matrix_Subtract(Matrix& result, const Matrix& matrix1, const Matrix& matrix2)`. -/
def Matrix_Subtract [Sub α] (s : Store α) (result matrix1 matrix2 : Ref) : Effect (Store α) :=
  if result = matrix1 ∨ result = matrix2 then Effect.thrown Exn.invalid_argument s
  else if (s matrix1).rows ≠ (s matrix2).rows ∨ (s matrix1).columns ≠ (s matrix2).columns then
    Effect.thrown Exn.invalid_argument s
  else if (s result).rows ≠ (s matrix1).rows ∨ (s result).columns ≠ (s matrix1).columns then
    Effect.thrown Exn.invalid_argument s
  else
    Effect.ofOption <|
      forLoop (s matrix1).rows (fun i st =>
        forLoop (st matrix1).columns (fun j st =>
          match (st matrix1).element i j, (st matrix2).element i j with
          | some a, some b => st.assign result i j (a - b)
          | _, _ => none) st) s

/-- `void Matrix_Transpose(Matrix& final, const Matrix& original)`.  There is no identity
check: `final` and `original` may be the same object. -/
def Matrix_Transpose (s : Store α) (final original : Ref) : Effect (Store α) :=
  if (s final).rows ≠ (s original).columns ∨ (s final).columns ≠ (s original).rows then
    Effect.thrown Exn.invalid_argument s
  else
    Effect.ofOption <|
      forLoop (s original).rows (fun i st =>
        forLoop (st original).columns (fun j st =>
          match (st original).element i j with
          | some a => st.assign final j i a
          | none => none) st) s

/-! ## Operations for neural networks (`MatrixLibrary.cpp`) -/

/-- `void Matrix_Hadamard_Product(Matrix& result, const Matrix& a, const Matrix& b)`. -/
def Matrix_Hadamard_Product [Mul α] (s : Store α) (result a b : Ref) : Effect (Store α) :=
  if result = a ∨ result = b then Effect.thrown Exn.invalid_argument s
  else if (s a).rows ≠ (s b).rows ∨ (s a).columns ≠ (s b).columns then
    Effect.thrown Exn.invalid_argument s
  else if (s result).rows ≠ (s a).rows ∨ (s result).columns ≠ (s a).columns then
    Effect.thrown Exn.invalid_argument s
  else
    Effect.ofOption <|
      forLoop (s a).rows (fun i st =>
        forLoop (st a).columns (fun j st =>
          match (st a).element i j, (st b).element i j with
          | some x, some y => st.assign result i j (x * y)
          | _, _ => none) st) s

/-- `void Matrix_Broadcast(Matrix& result, const Matrix& original, int newRows,
int newColumns)`.  The test `newRows % original.rows() != 0 || newColumns %
original.columns() != 0` evaluates its second operand only when the first is false. -/
def Matrix_Broadcast (s : Store α) (result original : Ref) (newRows newColumns : Int) :
    Effect (Store α) :=
  if result = original then Effect.thrown Exn.invalid_argument s
  else
    match remInt32 newRows (s original).rows with
    | none => Effect.undefined
    | some r1 =>
      if r1 ≠ 0 then Effect.thrown Exn.invalid_argument s
      else
        match remInt32 newColumns (s original).columns with
        | none => Effect.undefined
        | some r2 =>
          if r2 ≠ 0 then Effect.thrown Exn.invalid_argument s
          else if (s result).rows ≠ newRows ∨ (s result).columns ≠ newColumns then
            Effect.thrown Exn.invalid_argument s
          else
            Effect.ofOption <|
              forLoop newRows (fun i st =>
                forLoop newColumns (fun j st =>
                  match remInt32 i (st original).rows, remInt32 j (st original).columns with
                  | some originalRow, some originalColumn =>
                    match (st original).element originalRow originalColumn with
                    | some a => st.assign result i j a
                    | none => none
                  | _, _ => none) st) s

/-- `void Matrix_Absolute(Matrix& result, const Matrix& original)`. -/
def Matrix_Absolute [Lattice α] [AddGroup α] (s : Store α) (result original : Ref) :
    Effect (Store α) :=
  if result = original then Effect.thrown Exn.invalid_argument s
  else if (s result).rows ≠ (s original).rows ∨ (s result).columns ≠ (s original).columns then
    Effect.thrown Exn.invalid_argument s
  else
    Effect.ofOption <|
      forLoop (s original).rows (fun i st =>
        forLoop (st original).columns (fun j st =>
          match (st original).element i j with
          | some a => st.assign result i j |a|
          | none => none) st) s

/-- `void Matrix_Sum_Columns(Matrix& dest, const Matrix& src)`. -/
def Matrix_Sum_Columns [Zero α] [Add α] (s : Store α) (dest src : Ref) : Effect (Store α) :=
  if dest = src then Effect.thrown Exn.invalid_argument s
  else if (s dest).columns ≠ (s src).columns then Effect.thrown Exn.invalid_argument s
  else
    Effect.ofOption <|
      forLoop (s src).columns (fun col st =>
        match forLoop (st src).rows (fun row column_sum =>
            match (st src).element row col with
            | some a => some (column_sum + a)
            | none => none) (0 : α) with
        | none => none
        | some column_sum =>
          forLoop (st dest).rows (fun row st => st.assign dest row col column_sum) st) s

/-! ## Copying and moving -/

/-- `std::copy(p, p + count, out)`, where `p` is `get()` of a `unique_ptr` (`none`: the null
pointer) and `out` the start of the buffer `dst`: the first `count` cells of the source
replace the first `count` cells of `dst`.  A range that leaves either buffer is undefined; the
empty range is always defined. -/
def std_copy (src : Option (List α)) (count : Int) (dst : List α) : Option (List α) :=
  match src with
  | none => if count = 0 then some dst else none
  | some d =>
    if 0 ≤ count ∧ count.toNat ≤ d.length ∧ count.toNat ≤ dst.length then
      some (d.take count.toNat ++ dst.drop count.toNat)
    else none

/-- `Matrix::Matrix(const Matrix& other)`, constructing the object at `self`: the member
initialisers copy the dimensions and allocate `other.rows_ * other.columns_` cells, the body
copies that many cells from `other`.  (The line written to `std::cout` is not modelled.) -/
def Matrix.copy_construct [Zero α] (s : Store α) (self other : Ref) : Effect (Store α) :=
  match (make_unique (toSizeT (mulInt32 (s other).rows_ (s other).columns_)) :
      Outcome (List α)) with
  | Outcome.throw e => Effect.thrown e s
  | Outcome.undefined => Effect.undefined
  | Outcome.ok d =>
    match std_copy (s other).data_ (mulInt32 (s other).rows_ (s other).columns_) d with
    | none => Effect.undefined
    | some d' =>
      Effect.returned (Function.update s self
        { rows_ := (s other).rows_, columns_ := (s other).columns_, data_ := some d' })

/-- `Matrix::Matrix(Matrix&& other) noexcept`, constructing the object at `self`: the
initialisers take the dimensions and the buffer (`std::move` leaves `other.data_` null), the
body sets `other.rows_` and `other.columns_` to 0. -/
def Matrix.move_construct (s : Store α) (self other : Ref) : Effect (Store α) :=
  let s1 := Function.update s self
    { rows_ := (s other).rows_, columns_ := (s other).columns_, data_ := (s other).data_ }
  let s2 := Function.update s1 other { s1 other with data_ := none }
  let s3 := Function.update s2 other { s2 other with rows_ := 0 }
  Effect.returned (Function.update s3 other { s3 other with columns_ := 0 })

/-- `Matrix& Matrix::operator=(const Matrix& other)` on the object at `self`. -/
def Matrix.copy_assign [Zero α] (s : Store α) (self other : Ref) : Effect (Store α) :=
  if self ≠ other then
    if (s self).rows_ ≠ (s other).rows_ ∨ (s self).columns_ ≠ (s other).columns_ then
      Effect.thrown Exn.invalid_argument s
    else
      match (make_unique (toSizeT (mulInt32 (s other).rows_ (s other).columns_)) :
          Outcome (List α)) with
      | Outcome.throw e => Effect.thrown e s
      | Outcome.undefined => Effect.undefined
      | Outcome.ok d =>
        let s1 := Function.update s self { s self with data_ := some d }
        match std_copy (s1 other).data_ (mulInt32 (s1 other).rows_ (s1 other).columns_) d with
        | none => Effect.undefined
        | some d' => Effect.returned (Function.update s1 self { s1 self with data_ := some d' })
  else Effect.returned s

/-- `Matrix& Matrix::operator=(Matrix&& other) noexcept` on the object at `self`. -/
def Matrix.move_assign (s : Store α) (self other : Ref) : Effect (Store α) :=
  if self ≠ other then
    let s1 := Function.update s self { s self with rows_ := (s other).rows_ }
    let s2 := Function.update s1 self { s1 self with columns_ := (s1 other).columns_ }
    let s3 := Function.update s2 self { s2 self with data_ := (s2 other).data_ }
    let s4 := Function.update s3 other { s3 other with data_ := none }
    let s5 := Function.update s4 other { s4 other with rows_ := 0 }
    Effect.returned (Function.update s5 other { s5 other with columns_ := 0 })
  else Effect.returned s

/-! ## Copy construction at the level of pointers -/

/-- Address of a heap array `float[]`. -/
abbrev Addr := Nat

/-- The data members of `class Matrix` as they lie in memory: `data_` holds the address of the
array the `std::unique_ptr<float[]>` owns, `none` being the null pointer. -/
structure MatrixRep where
  rows_ : Int
  columns_ : Int
  data_ : Option Addr
deriving DecidableEq, Repr

/-- Memory at the level of pointers: the `Matrix` objects by address, the heap arrays by
address (`none` where no array lives), and `next`, the address the next array new-expression
returns.  Two objects whose `data_` hold the same address share their cells. -/
structure Memory (α : Type) where
  object : Ref → MatrixRep
  array : Addr → Option (List α)
  next : Addr

/-- `std::make_unique<float[]>(n)` on the heap: it throws as `make_unique` does, and otherwise
places `n` zero cells at the address `next` and returns that address. -/
def Memory.allocate [Zero α] (m : Memory α) (n : Nat) : Outcome (Addr × Memory α) :=
  match (make_unique n : Outcome (List α)) with
  | Outcome.throw e => Outcome.throw e
  | Outcome.undefined => Outcome.undefined
  | Outcome.ok d =>
    Outcome.ok (m.next,
      { m with array := Function.update m.array m.next (some d), next := m.next + 1 })

/-- The cells behind a pointer held by `data_`: `none` for the null pointer and for an address
where no array lives. -/
def Memory.deref (m : Memory α) (p : Option Addr) : Option (List α) := p.bind m.array

/-- The object at `r` together with the cells of the array its `data_` points to: what the
member functions of the object see. -/
def Memory.value (m : Memory α) (r : Ref) : Matrix α :=
  { rows_ := (m.object r).rows_, columns_ := (m.object r).columns_,
    data_ := m.deref (m.object r).data_ }

/-- `std::copy(p, p + count, out)` for a source pointer `p` and the address `out` of the
destination array: the first `count` cells behind `p` replace the first `count` cells of the
array at `out`. -/
def Memory.copy (m : Memory α) (p : Option Addr) (count : Int) (out : Addr) :
    Option (Memory α) :=
  match m.array out with
  | none => none
  | some dst =>
    match std_copy (m.deref p) count dst with
    | none => none
    | some d => some { m with array := Function.update m.array out (some d) }

/-- `Matrix::Matrix(const Matrix& other)` at the level of pointers, constructing the object at
`self`: the member initialisers copy `other.rows_` and `other.columns_` and set `data_` to the
address of a new array of `other.rows_ * other.columns_` cells; the body copies that many
cells from the array of `other` into the new one.  (The line written to `std::cout` is not
modelled.) -/
def Memory.copy_construct [Zero α] (m : Memory α) (self other : Ref) : Effect (Memory α) :=
  match m.allocate (toSizeT (mulInt32 (m.object other).rows_ (m.object other).columns_)) with
  | Outcome.throw e => Effect.thrown e m
  | Outcome.undefined => Effect.undefined
  | Outcome.ok (p, m1) =>
    let self_ : MatrixRep :=
      { rows_ := (m1.object other).rows_, columns_ := (m1.object other).columns_,
        data_ := some p }
    let m2 : Memory α := { m1 with object := Function.update m1.object self self_ }
    match m2.copy (m2.object other).data_
        (mulInt32 (m2.object other).rows_ (m2.object other).columns_) p with
    | none => Effect.undefined
    | some m3 => Effect.returned m3

/-- Reading through `Matrix::operator()(row, column) const` on the object at `r`: the cell
`data_[row * columns_ + column]` of the array `data_` points to. -/
def Memory.element (m : Memory α) (r : Ref) (row column : Int) : Option α :=
  match (m.object r).data_ with
  | none => none
  | some a =>
    match m.array a with
    | none => none
    | some d => d[toSizeT (addInt32 (mulInt32 row (m.object r).columns_) column)]?

/-- The statement `M(row, column) = value` for the object at `r`: the cell
`data_[row * columns_ + column]` of the array `data_` points to is overwritten; no member of
any object is. -/
def Memory.element_assign (m : Memory α) (r : Ref) (row column : Int) (value : α) :
    Option (Memory α) :=
  match (m.object r).data_ with
  | none => none
  | some a =>
    match m.array a with
    | none => none
    | some d =>
      let index := toSizeT (addInt32 (mulInt32 row (m.object r).columns_) column)
      if index < d.length then
        some { m with array := Function.update m.array a (some (d.set index value)) }
      else none

/-! ## More loops -/

/-- The `int` difference `a - b`. -/
def subInt32 (a b : Int) : Int := wrapInt32 (a - b)

/-- The loop `for (int j = start; j < bound; ++j) body`. -/
def forLoopFrom {σ : Type} (start bound : Int) (body : Int → σ → Option σ) (s : σ) :
    Option σ :=
  List.foldlM (fun (st : σ) (k : Nat) => body (start + (k : Int)) st) s
    (List.range (bound - start).toNat)

/-- Iterations `i`, `i + 1`, ... of `forLoopCond`; `fuel` bounds their number. -/
def forLoopCond.go {σ : Type} (cond : Int → Bool) (body : Int → σ → Option σ) :
    Nat → Nat → σ → Option σ
  | 0, _, s => some s
  | fuel + 1, i, s =>
    if cond (i : Int) then
      match body (i : Int) s with
      | none => none
      | some s' => forLoopCond.go cond body fuel (i + 1) s'
    else some s

/-- The loop `for (int i = 0; i < n && cond(i); ++i) body`: it ends at the first `i` with
`i >= n` or `cond(i)` false, so it runs at most `n` iterations. -/
def forLoopCond {σ : Type} (n : Int) (cond : Int → Bool) (body : Int → σ → Option σ) (s : σ) :
    Option σ :=
  forLoopCond.go cond body n.toNat 0 s

/-- `v[i]` on a `std::vector`, the `int` subscript converted to `std::size_t`; `none` outside
the vector. -/
def vectorAt {β : Type} (v : List β) (i : Int) : Option β := v[toSizeT i]?

/-! ## Remaining operations (`MatrixLibrary.cpp`) -/

/-- `Matrix Matrix_AutoCreate(const Matrix& first, const Matrix& second)`. -/
def Matrix_AutoCreate [Zero α] (first second : Matrix α) : Outcome (Matrix α) :=
  if first.columns ≠ second.rows then Outcome.throw Exn.invalid_argument
  else Matrix.create first.rows second.columns

/-- `void Matrix_Scalar_Multiply(Matrix& matrix, float scalar)`. -/
def Matrix_Scalar_Multiply [Mul α] (s : Store α) (matrix : Ref) (scalar : α) :
    Effect (Store α) :=
  Effect.ofOption <|
    forLoop (s matrix).rows (fun i st =>
      forLoop (st matrix).columns (fun j st =>
        match (st matrix).element i j with
        | some a => st.assign matrix i j (a * scalar)
        | none => none) st) s

/-- `float Matrix_Sum_All_Elements(const Matrix& matrix)`: the parameter is read only, so the
call is a function of the object's value. -/
def Matrix_Sum_All_Elements [Zero α] [Add α] (matrix : Matrix α) : Outcome α :=
  match forLoop matrix.rows (fun i totalSum =>
      forLoop matrix.columns (fun j totalSum =>
        match matrix.element i j with
        | some a => some (totalSum + a)
        | none => none) totalSum) (0 : α) with
  | none => Outcome.undefined
  | some totalSum => Outcome.ok totalSum

/-- `void Matrix_Power(Matrix& matrix, float power)`; `pow` stands for `std::pow`. -/
def Matrix_Power (pow : α → α → α) (s : Store α) (matrix : Ref) (power : α) :
    Effect (Store α) :=
  Effect.ofOption <|
    forLoop (s matrix).rows (fun i st =>
      forLoop (st matrix).columns (fun j st =>
        match (st matrix).element i j with
        | some a => st.assign matrix i j (pow a power)
        | none => none) st) s

/-- `void Matrix_Randomize(Matrix& matrix, float range)`.  The engine is seeded from
`std::random_device` and `range` only sets the interval of the distribution; `draw i j`
stands for the value `dist(gen)` yields in iteration `(i, j)`. -/
def Matrix_Randomize (draw : Int → Int → α) (s : Store α) (matrix : Ref) : Effect (Store α) :=
  Effect.ofOption <|
    forLoop (s matrix).rows (fun i st =>
      forLoop (st matrix).columns (fun j st => st.assign matrix i j (draw i j)) st) s

/-- `void Matrix_Xavier_Uniform(Matrix& matrix)`: `rows` and `columns` are read once, before
the loops; `draw i j` stands for the value `dist(gen)` yields in iteration `(i, j)`. -/
def Matrix_Xavier_Uniform (draw : Int → Int → α) (s : Store α) (matrix : Ref) :
    Effect (Store α) :=
  Effect.ofOption <|
    forLoop (s matrix).rows (fun i st =>
      forLoop (s matrix).columns (fun j st => st.assign matrix i j (draw i j)) st) s

/-- `Matrix Matrix_Data_Preprocessor(int desiredRows, int desiredColumns, int stride,
int step, const std::vector<std::vector<float>>& data)`.  `data[0]` on an empty vector is
undefined; the sizes are converted from `std::size_t` to `int`. -/
def Matrix_Data_Preprocessor [Zero α] (desiredRows desiredColumns stride step : Int)
    (data : List (List α)) : Outcome (Matrix α) :=
  match data[0]? with
  | none => Outcome.undefined
  | some row0 =>
    let totalColumns := wrapInt32 row0.length
    let totalRows := wrapInt32 data.length
    if addInt32 desiredRows step > totalRows ∨
        addInt32 desiredColumns stride > totalColumns then
      Outcome.throw Exn.invalid_argument
    else
      match (Matrix.create desiredRows desiredColumns : Outcome (Matrix α)) with
      | Outcome.throw e => Outcome.throw e
      | Outcome.undefined => Outcome.undefined
      | Outcome.ok result =>
        match forLoopCond desiredRows (fun i => decide (addInt32 i step < totalRows))
            (fun i result =>
              forLoopFrom stride (addInt32 desiredColumns stride) (fun j result =>
                if j < totalColumns then
                  match vectorAt data (addInt32 i step) with
                  | none => none
                  | some row =>
                    match vectorAt row j with
                    | none => none
                    | some x => result.element_assign i (subInt32 j stride) x
                else result.element_assign i (subInt32 j stride) 0) result) result with
        | none => Outcome.undefined
        | some result => Outcome.ok result

/-! ## The second copy of the library (`library.cpp`) -/

/-- `void Matrix_Multiply(const Matrix& first, const Matrix& second, Matrix& result)` of
`library.cpp`: the destination is the last parameter. -/
def library.Matrix_Multiply [Zero α] [Add α] [Mul α] (s : Store α) (first second result : Ref) :
    Effect (Store α) :=
  if result = first ∨ result = second then Effect.thrown Exn.invalid_argument s
  else if (s first).columns ≠ (s second).rows then Effect.thrown Exn.invalid_argument s
  else if (s result).rows ≠ (s first).rows ∨ (s result).columns ≠ (s second).columns then
    Effect.thrown Exn.invalid_argument s
  else
    Effect.ofOption <|
      forLoop (s first).rows (fun i st =>
        forLoop (st second).columns (fun j st =>
          match forLoop (st first).columns (fun k sum =>
              match (st first).element i k, (st second).element k j with
              | some a, some b => some (sum + a * b)
              | _, _ => none) (0 : α) with
          | none => none
          | some sum => st.assign result i j sum) st) s

/-- `void Matrix_Broadcast(Matrix& result, const Matrix& original, int newRows,
int newColumns)` of `library.cpp`: the function starts with the test of the multiples; it has
no test `&result == &original`. -/
def library.Matrix_Broadcast (s : Store α) (result original : Ref) (newRows newColumns : Int) :
    Effect (Store α) :=
  match remInt32 newRows (s original).rows with
  | none => Effect.undefined
  | some r1 =>
    if r1 ≠ 0 then Effect.thrown Exn.invalid_argument s
    else
      match remInt32 newColumns (s original).columns with
      | none => Effect.undefined
      | some r2 =>
        if r2 ≠ 0 then Effect.thrown Exn.invalid_argument s
        else if (s result).rows ≠ newRows ∨ (s result).columns ≠ newColumns then
          Effect.thrown Exn.invalid_argument s
        else
          Effect.ofOption <|
            forLoop newRows (fun i st =>
              forLoop newColumns (fun j st =>
                match remInt32 i (st original).rows, remInt32 j (st original).columns with
                | some originalRow, some originalColumn =>
                  match (st original).element originalRow originalColumn with
                  | some a => st.assign result i j a
                  | none => none
                | _, _ => none) st) s


/-- `void Matrix_Transpose(Matrix& final, const Matrix& original)` of `library.cpp`: the test
of the dimensions, then `final(j, i) = original(i, j)` for every `i`, `j`. -/
def library.Matrix_Transpose (s : Store α) (final original : Ref) : Effect (Store α) :=
  if (s final).rows ≠ (s original).columns ∨ (s final).columns ≠ (s original).rows then
    Effect.thrown Exn.invalid_argument s
  else
    Effect.ofOption <|
      forLoop (s original).rows (fun i st =>
        forLoop (st original).columns (fun j st =>
          match (st original).element i j with
          | some a => st.assign final j i a
          | none => none) st) s

/-- `Matrix CreateMatrixWithStride(int maxColumns, int totalRows, int desiredRows,
int desiredColumns, int stride, int step, const std::vector<float>& data)` of `library.cpp`:
the result is constructed first; row `i` is visited while `i < desiredRows` and
`i + step < totalRows`; a column `j < maxColumns` is read at the flat `int` index
`baseRow * maxColumns + j`, the other columns are set to `0`.  The function has no test of
its arguments. -/
def library.CreateMatrixWithStride [Zero α]
    (maxColumns totalRows desiredRows desiredColumns stride step : Int) (data : List α) :
    Outcome (Matrix α) :=
  match (Matrix.create desiredRows desiredColumns : Outcome (Matrix α)) with
  | Outcome.throw e => Outcome.throw e
  | Outcome.undefined => Outcome.undefined
  | Outcome.ok result =>
    match forLoopCond desiredRows (fun i => decide (addInt32 i step < totalRows))
        (fun i result =>
          let baseRow := addInt32 i step
          forLoopFrom stride (addInt32 desiredColumns stride) (fun j result =>
            if j < maxColumns then
              let dataIndex := addInt32 (mulInt32 baseRow maxColumns) j
              match vectorAt data dataIndex with
              | none => none
              | some x => result.element_assign i (subInt32 j stride) x
            else result.element_assign i (subInt32 j stride) 0) result) result with
    | none => Outcome.undefined
    | some result => Outcome.ok result

/-! ## Predicates used in the proofs -/

/-- Everything but the object at `r` is the same in `s'` as in `s`. -/
def Store.FrameExcept (r : Ref) (s s' : Store α) : Prop := ∀ q, q ≠ r → s' q = s q

/-- State of a loop nest that stores `v i j` at position `(pr i j, pc i j)` of the object at
`result`, once the source positions in `P` are done: nothing else has changed, the shape and
the invariant of `result` are kept, and the cells of the positions done hold their values. -/
def FillInv (s : Store α) (result : Ref) (pr pc : Int → Int → Int) (v : Int → Int → α)
    (P : Int → Int → Prop) (st : Store α) : Prop :=
  Store.FrameExcept result s st ∧ (st result).rows_ = (s result).rows_ ∧
    (st result).columns_ = (s result).columns_ ∧ (st result).Valid ∧
    ∀ i j, P i j → (st result).element (pr i j) (pc i j) = some (v i j)

/-- The invariant `rowCount ≥ 1`, `columnCount ≥ 1`. -/
def Matrix.PositiveDims (m : Matrix α) : Prop := 1 ≤ m.rows_ ∧ 1 ≤ m.columns_

instance (m : Matrix α) : Decidable m.PositiveDims := by
  unfold Matrix.PositiveDims; infer_instance

/-- The invariant "the owned buffer holds exactly `rowCount * columnCount` cells" for
dimensions whose product is a non-negative `int`; a null buffer counts as empty. -/
def Matrix.Sized (m : Matrix α) : Prop :=
  0 ≤ m.rows_ * m.columns_ ∧ m.rows_ * m.columns_ ≤ INT_MAX ∧
    (m.size : Int) = m.rows_ * m.columns_

instance (m : Matrix α) : Decidable m.Sized := by
  unfold Matrix.Sized; infer_instance

/-- The state of every object the library can produce: the owned buffer holds as many cells
as the `int` product `rows_ * columns_` computes (a null buffer counting as empty).  It is
`Sized` without the bound on the mathematical product. -/
def Matrix.Allocated (m : Matrix α) : Prop :=
  0 ≤ mulInt32 m.rows_ m.columns_ ∧ (m.size : Int) = mulInt32 m.rows_ m.columns_

instance (m : Matrix α) : Decidable m.Allocated := by
  unfold Matrix.Allocated; infer_instance

/-- Every object has in `s'` the dimensions it has in `s`. -/
def Store.SameDims (s s' : Store α) : Prop :=
  ∀ q, (s' q).rows_ = (s q).rows_ ∧ (s' q).columns_ = (s q).columns_

/-- State of a loop nest that stores `v i j` at position `(pr i j, pc i j)` of the matrix
`obj st` of its state `st`, once the source positions in `P` are done: the side condition
`Fr` on the rest of the state holds, the shape and the invariant of the matrix are those of
the start `s`, and the cells of the positions done hold their values. -/
def NestInv {σ : Type} (obj : σ → Matrix α) (Fr : σ → Prop) (s : σ) (pr pc : Int → Int → Int)
    (v : Int → Int → α) (P : Int → Int → Prop) (st : σ) : Prop :=
  Fr st ∧ (obj st).rows_ = (obj s).rows_ ∧ (obj st).columns_ = (obj s).columns_ ∧
    (obj st).Valid ∧ ∀ i j, P i j → (obj st).element (pr i j) (pc i j) = some (v i j)

/-- What a cell assignment `asg` on states does to the matrix `obj st`, wherever `Fr` holds:
at an in-range position of a valid matrix it is defined, keeps `Fr`, the shape and the
invariant, stores the value and leaves the other in-range cells as they were. -/
def AssignSpec {σ : Type} (obj : σ → Matrix α) (asg : σ → Int → Int → α → Option σ)
    (Fr : σ → Prop) : Prop :=
  ∀ st row column v, Fr st → (obj st).Valid → 0 ≤ row → row < (obj st).rows_ → 0 ≤ column →
    column < (obj st).columns_ →
    ∃ st', asg st row column v = some st' ∧ Fr st' ∧ (obj st').rows_ = (obj st).rows_ ∧
      (obj st').columns_ = (obj st).columns_ ∧ (obj st').Valid ∧
      (obj st').element row column = some v ∧
      ∀ row' column', 0 ≤ row' → row' < (obj st).rows_ → 0 ≤ column' →
        column' < (obj st).columns_ → (row' ≠ row ∨ column' ≠ column) →
        (obj st').element row' column' = (obj st).element row' column'

/-- The value the accumulator `sum` of a loop `for k < n: sum += f k` ends with, starting
from `0` and adding in increasing `k`. -/
def accumulate [Zero α] [Add α] (n : Int) (f : Int → α) : α :=
  List.foldl (fun (acc : α) (k : Nat) => acc + f (k : Int)) 0 (List.range n.toNat)

/-- The object at `r` after a call that returned normally. -/
def Effect.object (e : Effect (Store α)) (r : Ref) : Option (Matrix α) :=
  match e with
  | Effect.returned s => some (s r)
  | _ => none

/-- The value the accumulator `totalSum` of a nest `for i < R: for j < C: totalSum += f i j`
ends with, starting from `0`: the terms are added in row-major order. -/
def rowMajorSum [Zero α] [Add α] (R C : Int) (f : Int → Int → α) : α :=
  List.foldl (fun (acc : α) (i : Nat) =>
    List.foldl (fun (acc : α) (j : Nat) => acc + f (i : Int) (j : Int)) acc
      (List.range C.toNat)) 0 (List.range R.toNat)

/-- The state a call leaves behind, whether it returned or threw. -/
def Effect.final {σ : Type} (e : Effect σ) : Option σ :=
  match e with
  | Effect.returned s => some s
  | Effect.thrown _ s => some s
  | Effect.undefined => none

/-- The exception a call threw, if any. -/
def Effect.exception {σ : Type} (e : Effect σ) : Option Exn :=
  match e with
  | Effect.thrown x _ => some x
  | _ => none

/-- State of the loops of a transposition whose destination is its source `M`, a square
matrix, once the lower cells in `done` have been written: the other objects and the shape are
those of the start `s`, the cells on and above the diagonal hold their first value, a lower
cell in `done` holds the first value of its mirror cell, the other lower cells their own. -/
def AliasInv (s : Store α) (M : Ref) (done : Int → Int → Prop) (st : Store α) : Prop :=
  Store.FrameExcept M s st ∧ (st M).rows_ = (s M).rows_ ∧ (st M).columns_ = (s M).columns_ ∧
    (st M).Valid ∧
    ∀ r c, 0 ≤ r → r < (s M).rows_ → 0 ≤ c → c < (s M).rows_ →
      (r ≤ c → (st M).element r c = (s M).element r c) ∧
      (c < r → done r c → (st M).element r c = (s M).element c r) ∧
      (c < r → ¬ done r c → (st M).element r c = (s M).element r c)

/-- The row-major flattening of a two-dimensional source: its rows one after the other. -/
def flattening {β : Type} (data : List (List β)) : List β := data.flatten

/-! ## Concrete matrices used in the examples -/

/-- Example operands: a 3×2 destination at address 0 and `[[1,2],[3,4]]` at every other
address. -/
def exampleColumns : Store Int :=
  fun r =>
    match r with
    | 0 => { rows_ := 3, columns_ := 2, data_ := some [9, 9, 9, 9, 9, 9] }
    | _ => { rows_ := 2, columns_ := 2, data_ := some [1, 2, 3, 4] }

/-- Example operands for a product and its transposes: `A = [[1,2,3],[4,5,6]]` at address 0,
`B = [[1],[0],[2]]` at address 1, and destinations of shapes 2×1, 1×2, 1×3, 3×2 and 1×2 at
addresses 2 to 6. -/
def exampleChain : Store Int :=
  fun r =>
    match r with
    | 0 => { rows_ := 2, columns_ := 3, data_ := some [1, 2, 3, 4, 5, 6] }
    | 1 => { rows_ := 3, columns_ := 1, data_ := some [1, 0, 2] }
    | 2 => { rows_ := 2, columns_ := 1, data_ := some [0, 0] }
    | 3 => { rows_ := 1, columns_ := 2, data_ := some [0, 0] }
    | 4 => { rows_ := 1, columns_ := 3, data_ := some [0, 0, 0] }
    | 5 => { rows_ := 3, columns_ := 2, data_ := some [0, 0, 0, 0, 0, 0] }
    | _ => { rows_ := 1, columns_ := 2, data_ := some [0, 0] }

/-- Example operands: `[[1,2],[3,4]]` at address 0, `[[10,20],[30,40]]` at address 1, and 2×2
destinations at addresses 2 and above. -/
def exampleSum : Store Int :=
  fun r =>
    match r with
    | 0 => { rows_ := 2, columns_ := 2, data_ := some [1, 2, 3, 4] }
    | 1 => { rows_ := 2, columns_ := 2, data_ := some [10, 20, 30, 40] }
    | _ => { rows_ := 2, columns_ := 2, data_ := some [7, 7, 7, 7] }

/-- Example operands: a 2×4 destination at address 0 and the 1×2 matrix `[[1,2]]` at every
other address. -/
def exampleBroadcast : Store Int :=
  fun r =>
    match r with
    | 0 => { rows_ := 2, columns_ := 4, data_ := some [9, 9, 9, 9, 9, 9, 9, 9] }
    | _ => { rows_ := 1, columns_ := 2, data_ := some [1, 2] }

/-- Example operands: a 2×2 destination at address 0, `[[1,2,3],[4,5,6]]` at address 1 and
`[[1,0],[0,1],[1,1]]` at address 2. -/
def exampleProduct : Store Int :=
  fun r =>
    match r with
    | 0 => { rows_ := 2, columns_ := 2, data_ := some [9, 9, 9, 9] }
    | 1 => { rows_ := 2, columns_ := 3, data_ := some [1, 2, 3, 4, 5, 6] }
    | _ => { rows_ := 3, columns_ := 2, data_ := some [1, 0, 0, 1, 1, 1] }


/-- A flat source of two rows and three columns. -/
def exampleFlat : List Int := [1, 2, 3, 4, 5, 6]

/-- A two-dimensional source of two rows and three columns. -/
def exampleSource : List (List Int) := [[1, 2, 3], [4, 5, 6]]

/-- A memory with one matrix, `[[1,2],[3,4]]` at object address 0, its array at heap
address 0; the other objects are empty and own no array. -/
def exampleMemory : Memory Int :=
  { object := fun r =>
      if r = 0 then { rows_ := 2, columns_ := 2, data_ := some 0 }
      else { rows_ := 0, columns_ := 0, data_ := none }
    array := fun a => if a = 0 then some [1, 2, 3, 4] else none
    next := 1 }

end MatrixLibrary

namespace MatrixLibrary

variable {α : Type}

/-! ## Machine integers: facts -/

theorem wrapInt32_eq {x : Int} (h0 : -2147483648 ≤ x) (h1 : x ≤ 2147483647) :
    wrapInt32 x = x := by
  unfold wrapInt32; omega

theorem toSizeT_eq {x : Int} (h0 : 0 ≤ x) (h1 : x ≤ 2147483647) : toSizeT x = x.toNat := by
  unfold toSizeT
  congr 1
  omega

theorem remInt32_pos (a : Int) {b : Int} (hb : 0 < b) : remInt32 a b = some (Int.tmod a b) := by
  unfold remInt32
  rw [if_neg (by omega)]

/-- Row-major offsets of in-range positions stay below `rows * columns`. -/
theorem offset_lt {R C row column : Int} (hr0 : 0 ≤ row) (hr : row < R) (hc0 : 0 ≤ column)
    (hc : column < C) : 0 ≤ row * C + column ∧ row * C + column < R * C := by
  have h1 : 0 ≤ row * C := mul_nonneg hr0 (by omega)
  have h2 : (row + 1) * C ≤ R * C := mul_le_mul_of_nonneg_right (by omega) (by omega)
  have h3 : (row + 1) * C = row * C + C := by ring
  constructor <;> omega

/-- Distinct in-range positions have distinct row-major offsets. -/
theorem offset_inj {C row column row' column' : Int} (hc0 : 0 ≤ column) (hc : column < C)
    (hc0' : 0 ≤ column') (hc' : column' < C)
    (h : row * C + column = row' * C + column') : row = row' ∧ column = column' := by
  have key : ∀ a b x y : Int, x < C → 0 ≤ y → a < b → a * C + x ≠ b * C + y := by
    intro a b x y hx hy hab heq
    have h2 : (a + 1) * C ≤ b * C := mul_le_mul_of_nonneg_right (by omega) (by omega)
    have h3 : (a + 1) * C = a * C + C := by ring
    omega
  rcases lt_trichotomy row row' with hlt | heq | hgt
  · exact absurd h (key _ _ _ _ hc hc0' hlt)
  · subst heq
    exact ⟨rfl, by omega⟩
  · exact absurd h.symm (key _ _ _ _ hc' hc0 hgt)

/-! ## Element access on a valid matrix -/

theorem Matrix.index_eq {m : Matrix α} (hv : m.Valid) {row column : Int} (hr0 : 0 ≤ row)
    (hr : row < m.rows_) (hc0 : 0 ≤ column) (hc : column < m.columns_) :
    m.index row column = (row * m.columns_ + column).toNat := by
  obtain ⟨_, _, hmax, _⟩ := hv
  obtain ⟨h0, h1⟩ := offset_lt hr0 hr hc0 hc
  have hp : 0 ≤ row * m.columns_ := mul_nonneg hr0 (by omega)
  unfold INT_MAX at hmax
  unfold Matrix.index addInt32 mulInt32
  rw [@wrapInt32_eq (row * m.columns_) (by omega) (by omega),
    wrapInt32_eq (by omega) (by omega), toSizeT_eq h0 (by omega)]

theorem Matrix.index_lt_size {m : Matrix α} (hv : m.Valid) {row column : Int} (hr0 : 0 ≤ row)
    (hr : row < m.rows_) (hc0 : 0 ≤ column) (hc : column < m.columns_) :
    m.index row column < m.size := by
  rw [Matrix.index_eq hv hr0 hr hc0 hc]
  obtain ⟨_, _, _, hsz⟩ := hv
  obtain ⟨h0, h1⟩ := offset_lt hr0 hr hc0 hc
  omega

theorem Matrix.index_ne {m : Matrix α} (hv : m.Valid) {row column row' column' : Int}
    (hr0 : 0 ≤ row) (hr : row < m.rows_) (hc0 : 0 ≤ column) (hc : column < m.columns_)
    (hr0' : 0 ≤ row') (hr' : row' < m.rows_) (hc0' : 0 ≤ column') (hc' : column' < m.columns_)
    (hne : row' ≠ row ∨ column' ≠ column) : m.index row column ≠ m.index row' column' := by
  rw [Matrix.index_eq hv hr0 hr hc0 hc, Matrix.index_eq hv hr0' hr' hc0' hc']
  obtain ⟨h0, _⟩ := offset_lt hr0 hr hc0 hc
  obtain ⟨h0', _⟩ := offset_lt hr0' hr' hc0' hc'
  intro h
  have h' : row * m.columns_ + column = row' * m.columns_ + column' := by omega
  obtain ⟨e1, e2⟩ := offset_inj hc0 hc hc0' hc' h'
  rcases hne with hne | hne
  · exact hne e1.symm
  · exact hne e2.symm

/-- A read at an in-range position of a valid matrix is defined. -/
theorem Matrix.element_defined {m : Matrix α} (hv : m.Valid) {row column : Int} (hr0 : 0 ≤ row)
    (hr : row < m.rows_) (hc0 : 0 ≤ column) (hc : column < m.columns_) :
    ∃ x, m.element row column = some x := by
  have hlt := Matrix.index_lt_size hv hr0 hr hc0 hc
  unfold Matrix.size at hlt
  unfold Matrix.element
  cases hd : m.data_ with
  | none => rw [hd] at hlt; exact absurd hlt (Nat.not_lt_zero _)
  | some d =>
    rw [hd] at hlt
    exact ⟨d[m.index row column], List.getElem?_eq_getElem hlt⟩

theorem Matrix.element_eq_entry [Zero α] {m : Matrix α} (hv : m.Valid) {row column : Int}
    (hr0 : 0 ≤ row) (hr : row < m.rows_) (hc0 : 0 ≤ column) (hc : column < m.columns_) :
    m.element row column = some (m.entry row column) := by
  obtain ⟨x, hx⟩ := Matrix.element_defined hv hr0 hr hc0 hc
  simp [Matrix.entry, hx]

/-- A write at an in-range position of a valid matrix is defined, keeps the shape and the
invariant, stores the value, and leaves every other in-range cell as it was. -/
theorem Matrix.element_assign_spec {m : Matrix α} (hv : m.Valid) {row column : Int}
    (hr0 : 0 ≤ row) (hr : row < m.rows_) (hc0 : 0 ≤ column) (hc : column < m.columns_)
    (v : α) :
    ∃ m', m.element_assign row column v = some m' ∧ m'.rows_ = m.rows_ ∧
      m'.columns_ = m.columns_ ∧ m'.Valid ∧ m'.element row column = some v ∧
      ∀ row' column', 0 ≤ row' → row' < m.rows_ → 0 ≤ column' → column' < m.columns_ →
        (row' ≠ row ∨ column' ≠ column) → m'.element row' column' = m.element row' column' := by
  have hlt := Matrix.index_lt_size hv hr0 hr hc0 hc
  cases hd : m.data_ with
  | none => simp [Matrix.size, hd] at hlt
  | some d =>
    have hlt' : m.index row column < d.length := by simpa [Matrix.size, hd] using hlt
    refine ⟨{ m with data_ := some (d.set (m.index row column) v) }, ?_, rfl, rfl, ?_, ?_, ?_⟩
    · simp [Matrix.element_assign, hd, hlt']
    · obtain ⟨a, b, c, e⟩ := hv
      refine ⟨a, b, c, ?_⟩
      simpa [Matrix.size, hd] using e
    · show (d.set (m.index row column) v)[m.index row column]? = some v
      rw [List.getElem?_set]
      simp [hlt']
    · intro row' column' a b c e hne
      have hidx := Matrix.index_ne hv hr0 hr hc0 hc a b c e hne
      simp only [Matrix.element, hd]
      exact List.getElem?_set_ne hidx

/-! ## Writes through a reference -/

theorem Store.assign_spec {s : Store α} {r : Ref} (hv : (s r).Valid) {row column : Int}
    (hr0 : 0 ≤ row) (hr : row < (s r).rows_) (hc0 : 0 ≤ column) (hc : column < (s r).columns_)
    (v : α) :
    ∃ s', s.assign r row column v = some s' ∧ Store.FrameExcept r s s' ∧
      (s' r).rows_ = (s r).rows_ ∧ (s' r).columns_ = (s r).columns_ ∧ (s' r).Valid ∧
      (s' r).element row column = some v ∧
      ∀ row' column', 0 ≤ row' → row' < (s r).rows_ → 0 ≤ column' → column' < (s r).columns_ →
        (row' ≠ row ∨ column' ≠ column) →
        (s' r).element row' column' = (s r).element row' column' := by
  obtain ⟨m', h1, h2, h3, h4, h5, h6⟩ := Matrix.element_assign_spec hv hr0 hr hc0 hc v
  refine ⟨Function.update s r m', ?_, ?_, ?_⟩
  · simp [Store.assign, h1]
  · intro q hq
    exact Function.update_noteq hq _ _
  · rw [Function.update_same]
    exact ⟨h2, h3, h4, h5, h6⟩

/-! ## Loops -/

theorem forLoop_foldlM_snoc {σ : Type} (f : σ → Nat → Option σ) (s : σ) (n : Nat) :
    (List.range (n + 1)).foldlM f s = ((List.range n).foldlM f s).bind (fun st => f st n) := by
  rw [List.range_succ, List.foldlM_append]
  cases (List.range n).foldlM f s <;> simp [List.foldlM]

/-- Invariant rule for `forLoop`: an invariant that holds on entry and is re-established by
every defined iteration holds on exit, and the loop is defined. -/
theorem forLoop_inv {σ : Type} (n : Int) (body : Int → σ → Option σ) (I : Nat → σ → Prop)
    (s : σ) (h0 : I 0 s)
    (hstep : ∀ (k : Nat) (st : σ), (k : Int) < n → I k st →
      ∃ st', body (k : Int) st = some st' ∧ I (k + 1) st') :
    ∃ st', forLoop n body s = some st' ∧ I n.toNat st' := by
  unfold forLoop
  have key : ∀ m : Nat, m ≤ n.toNat →
      ∃ st', List.foldlM (fun (st : σ) (i : Nat) => body (i : Int) st) s (List.range m) = some st'
        ∧ I m st' := by
    intro m
    induction m with
    | zero => intro _; exact ⟨s, rfl, h0⟩
    | succ m ih =>
      intro hm
      obtain ⟨st, hst, hI⟩ := ih (by omega)
      obtain ⟨st', hb, hI'⟩ := hstep m st (by omega) hI
      refine ⟨st', ?_, hI'⟩
      rw [forLoop_foldlM_snoc, hst]
      exact hb
  exact key n.toNat le_rfl

/-! ## Loop nests that fill a destination -/

theorem FillInv.mono {s : Store α} {result : Ref} {pr pc : Int → Int → Int} {v : Int → Int → α}
    {P Q : Int → Int → Prop} {st : Store α} (h : FillInv s result pr pc v P st)
    (hQ : ∀ i j, Q i j → P i j) : FillInv s result pr pc v Q st := by
  obtain ⟨a, b, c, d, e⟩ := h
  exact ⟨a, b, c, d, fun i j hq => e i j (hQ i j hq)⟩

/-- One more store `result(pr i j, pc i j) = v i j` extends the set of positions done. -/
theorem FillInv.step {s : Store α} {result : Ref} {pr pc : Int → Int → Int} {v : Int → Int → α}
    {P : Int → Int → Prop} {st : Store α} (h : FillInv s result pr pc v P st) (i j : Int)
    (hin : 0 ≤ pr i j ∧ pr i j < (s result).rows_ ∧ 0 ≤ pc i j ∧ pc i j < (s result).columns_)
    (hP : ∀ i' j', P i' j' →
      (0 ≤ pr i' j' ∧ pr i' j' < (s result).rows_ ∧ 0 ≤ pc i' j' ∧
        pc i' j' < (s result).columns_) ∧ (pr i' j' ≠ pr i j ∨ pc i' j' ≠ pc i j)) :
    ∃ st', st.assign result (pr i j) (pc i j) (v i j) = some st' ∧
      FillInv s result pr pc v (fun i' j' => P i' j' ∨ (i' = i ∧ j' = j)) st' := by
  obtain ⟨hf, hr, hc, hv, hcells⟩ := h
  obtain ⟨h1, h2, h3, h4⟩ := hin
  obtain ⟨st', e, f1, f2, f3, f4, f5, f6⟩ :=
    Store.assign_spec hv
      h1 (by rw [hr]; exact h2) h3 (by rw [hc]; exact h4) (v i j)
  refine ⟨st', e, ?_, by rw [f2, hr], by rw [f3, hc], f4, ?_⟩
  · intro q hq
    rw [f1 q hq, hf q hq]
  · intro i' j' hp
    rcases hp with hp | ⟨rfl, rfl⟩
    · obtain ⟨⟨g1, g2, g3, g4⟩, hne⟩ := hP i' j' hp
      rw [f6 _ _ g1 (by rw [hr]; exact g2) g3 (by rw [hc]; exact g4) hne]
      exact hcells i' j' hp
    · exact f5

/-- The nest `for i < R: for j < C: result(pr i j, pc i j) = v i j`, whose body reads only
objects other than `result`: it runs to completion, changes nothing but the cells of `result`,
and leaves `v i j` at `(pr i j, pc i j)` for every `i < R`, `j < C`. -/
theorem fill_loop (s : Store α) (result : Ref) (R : Int) (Cf : Store α → Int) (C : Int)
    (body : Int → Int → Store α → Option (Store α)) (pr pc : Int → Int → Int)
    (v : Int → Int → α) (hv : (s result).Valid)
    (hC : ∀ st, Store.FrameExcept result s st → Cf st = C)
    (hbody : ∀ st i j, Store.FrameExcept result s st → 0 ≤ i → i < R → 0 ≤ j → j < C →
      body i j st = st.assign result (pr i j) (pc i j) (v i j))
    (hpos : ∀ i j, 0 ≤ i → i < R → 0 ≤ j → j < C →
      0 ≤ pr i j ∧ pr i j < (s result).rows_ ∧ 0 ≤ pc i j ∧ pc i j < (s result).columns_)
    (hinj : ∀ i j i' j', 0 ≤ i → i < R → 0 ≤ j → j < C → 0 ≤ i' → i' < R → 0 ≤ j' → j' < C →
      (i' ≠ i ∨ j' ≠ j) → (pr i' j' ≠ pr i j ∨ pc i' j' ≠ pc i j)) :
    ∃ s', forLoop R (fun i st => forLoop (Cf st) (fun j st' => body i j st') st) s = some s' ∧
      Store.FrameExcept result s s' ∧ (s' result).rows_ = (s result).rows_ ∧
      (s' result).columns_ = (s result).columns_ ∧ (s' result).Valid ∧
      ∀ i j, 0 ≤ i → i < R → 0 ≤ j → j < C →
        (s' result).element (pr i j) (pc i j) = some (v i j) := by
  obtain ⟨s', hs', hI⟩ := forLoop_inv R
    (fun i st => forLoop (Cf st) (fun j st' => body i j st') st)
    (fun a st => FillInv s result pr pc v
      (fun i' j' => 0 ≤ i' ∧ i' < (a : Int) ∧ 0 ≤ j' ∧ j' < C) st) s
    ⟨fun _ _ => rfl, rfl, rfl, hv, fun i j h => by omega⟩
    (by
      intro a st ha hI
      have hi0 : (0 : Int) ≤ (a : Int) := Int.ofNat_nonneg a
      show ∃ st', forLoop (Cf st) (fun j st' => body (a : Int) j st') st = some st' ∧
        FillInv s result pr pc v
          (fun i' j' => 0 ≤ i' ∧ i' < ((a + 1 : Nat) : Int) ∧ 0 ≤ j' ∧ j' < C) st'
      rw [hC st hI.1]
      obtain ⟨st', hst', hI'⟩ := forLoop_inv C (fun j st' => body (a : Int) j st')
        (fun b st' => FillInv s result pr pc v
          (fun i' j' => (0 ≤ i' ∧ i' < (a : Int) ∧ 0 ≤ j' ∧ j' < C) ∨
            (i' = (a : Int) ∧ 0 ≤ j' ∧ j' < (b : Int))) st') st
        (hI.mono (fun i j h => by omega))
        (by
          intro b st' hb hJ
          have hj0 : (0 : Int) ≤ (b : Int) := Int.ofNat_nonneg b
          show ∃ st'', body (a : Int) (b : Int) st' = some st'' ∧
            FillInv s result pr pc v
              (fun i' j' => (0 ≤ i' ∧ i' < (a : Int) ∧ 0 ≤ j' ∧ j' < C) ∨
                (i' = (a : Int) ∧ 0 ≤ j' ∧ j' < ((b + 1 : Nat) : Int))) st''
          rw [hbody st' a b hJ.1 hi0 ha hj0 hb]
          obtain ⟨st'', e, hJ'⟩ := hJ.step (a : Int) (b : Int) (hpos a b hi0 ha hj0 hb)
            (by
              intro i' j' hp
              rcases hp with ⟨p1, p2, p3, p4⟩ | ⟨p1, p2, p3⟩
              · exact ⟨hpos i' j' p1 (by omega) p3 p4,
                  hinj a b i' j' hi0 ha hj0 hb p1 (by omega) p3 p4 (Or.inl (by omega))⟩
              · exact ⟨hpos i' j' (by omega) (by omega) p2 (by omega),
                  hinj a b i' j' hi0 ha hj0 hb (by omega) (by omega) p2 (by omega)
                    (Or.inr (by omega))⟩)
          refine ⟨st'', e, hJ'.mono ?_⟩
          intro i j h
          push_cast at h
          by_cases hij : i = (a : Int) ∧ j = (b : Int)
          · exact Or.inr hij
          · left
            omega)
      refine ⟨st', hst', hI'.mono ?_⟩
      intro i j h
      push_cast at h
      by_cases hia : i = (a : Int)
      · right
        omega
      · left
        omega)
  refine ⟨s', hs', hI.1, hI.2.1, hI.2.2.1, hI.2.2.2.1, ?_⟩
  intro i j h1 h2 h3 h4
  exact hI.2.2.2.2 i j (by omega)

/-! ## Accumulating loops -/

/-- A loop `for k < n: sum += f k` is defined and ends with `accumulate n f`. -/
theorem sum_loop [Zero α] [Add α] (n : Int) (body : Int → α → Option α) (f : Int → α)
    (hbody : ∀ k acc, 0 ≤ k → k < n → body k acc = some (acc + f k)) :
    forLoop n body 0 = some (accumulate n f) := by
  obtain ⟨r, hr, hI⟩ := forLoop_inv n body
    (fun m acc => acc = List.foldl (fun (acc : α) (k : Nat) => acc + f (k : Int)) 0
      (List.range m)) 0 rfl
    (by
      intro k acc hk hacc
      refine ⟨acc + f k, hbody k acc (Int.ofNat_nonneg k) hk, ?_⟩
      show acc + f k = List.foldl (fun (acc : α) (k : Nat) => acc + f (k : Int)) 0
        (List.range (k + 1))
      rw [List.range_succ, List.foldl_append, ← hacc]
      rfl)
  rw [hr, hI]
  rfl

/-- In a commutative monoid the accumulated value is the sum over `k < n`. -/
theorem accumulate_eq_sum [AddCommMonoid α] (n : Int) (f : Int → α) :
    accumulate n f = ∑ k in Finset.range n.toNat, f (k : Int) := by
  unfold accumulate
  induction n.toNat with
  | zero => rfl
  | succ m ih => rw [List.range_succ, List.foldl_append, ih, Finset.sum_range_succ]; rfl

/-- The accumulated value depends only on the terms with `0 ≤ k < n`. -/
theorem accumulate_congr [Zero α] [Add α] (n : Int) (f g : Int → α)
    (h : ∀ k, 0 ≤ k → k < n → f k = g k) : accumulate n f = accumulate n g := by
  unfold accumulate
  have key : ∀ m : Nat, m ≤ n.toNat →
      List.foldl (fun (acc : α) (k : Nat) => acc + f (k : Int)) 0 (List.range m) =
        List.foldl (fun (acc : α) (k : Nat) => acc + g (k : Int)) 0 (List.range m) := by
    intro m
    induction m with
    | zero => intro _; rfl
    | succ m ih =>
      intro hm
      rw [List.range_succ, List.foldl_append, List.foldl_append, ih (by omega)]
      simp only [List.foldl_cons, List.foldl_nil]
      rw [h m (by omega) (by omega)]
  exact key _ le_rfl

/-! ## Matrix_Multiply -/

/-- The loop nest of `Matrix_Multiply` on valid, compatible operands and a distinct
destination. -/
theorem Matrix_Multiply_loops [Zero α] [Add α] [Mul α] (s : Store α) (result first second : Ref)
    (hr : (s result).Valid) (hf : (s first).Valid) (hs : (s second).Valid)
    (hne1 : result ≠ first) (hne2 : result ≠ second)
    (hinner : (s first).columns_ = (s second).rows_)
    (hrows : (s result).rows_ = (s first).rows_)
    (hcols : (s result).columns_ = (s second).columns_) :
    ∃ s', forLoop (s first).rows (fun i st =>
        forLoop (st second).columns (fun j st =>
          match forLoop (st first).columns (fun k sum =>
              match (st first).element i k, (st second).element k j with
              | some a, some b => some (sum + a * b)
              | _, _ => none) (0 : α) with
          | none => none
          | some sum => st.assign result i j sum) st) s = some s' ∧
      Store.FrameExcept result s s' ∧ (s' result).rows_ = (s result).rows_ ∧
      (s' result).columns_ = (s result).columns_ ∧ (s' result).Valid ∧
      ∀ i j, 0 ≤ i → i < (s first).rows_ → 0 ≤ j → j < (s second).columns_ →
        (s' result).element i j = some (accumulate (s first).columns_
          (fun k => (s first).entry i k * (s second).entry k j)) := by
  refine fill_loop s result (s first).rows (fun st => (st second).columns) (s second).columns_ _
    (fun i _ => i) (fun _ j => j)
    (fun i j => accumulate (s first).columns_
      (fun k => (s first).entry i k * (s second).entry k j)) hr ?_ ?_ ?_ ?_
  · intro st hfr
    show (st second).columns_ = (s second).columns_
    rw [hfr second (Ne.symm hne2)]
  · intro st i j hfr hi0 hi hj0 hj
    simp only [Matrix.rows, Matrix.columns] at hi ⊢
    rw [hfr first (Ne.symm hne1), hfr second (Ne.symm hne2)]
    rw [sum_loop (s first).columns_ _
      (fun k => (s first).entry i k * (s second).entry k j)]
    intro k acc hk0 hk
    rw [Matrix.element_eq_entry hf hi0 hi hk0 hk,
      Matrix.element_eq_entry hs hk0 (by rw [← hinner]; exact hk) hj0 hj]
  · intro i j hi0 hi hj0 hj
    simp only [Matrix.rows] at hi
    exact ⟨hi0, by rw [hrows]; exact hi, hj0, by rw [hcols]; exact hj⟩
  · intro i j i' j' _ _ _ _ _ _ _ _ h
    exact h

theorem Effect.ofOption_ne_thrown {σ : Type} (o : Option σ) (e : Exn) (s : σ) :
    Effect.ofOption o ≠ Effect.thrown e s := by
  cases o <;> simp [Effect.ofOption]

/-- C1: for valid matrices `first` (m×n), `second` (n×p) and a valid destination (m×p) that
is a distinct object from both, `Matrix_Multiply` (in `MatrixLibrary.cpp` and in
`library.cpp`) returns normally; afterwards `result(i, j)` is the sum over `k < n` of
`first(i, k) * second(k, j)`, the terms added to `0` in increasing `k` with the addition and
multiplication of the element type (of which nothing else is assumed, so the statement holds
for `float`), for every `i < m`, `j < p`, whatever `result` held before, and `first`,
`second` and the shape of `result` are unchanged.  Where the addition is associative and
commutative with neutral `0`, that value is the sum `∑ k < n`. -/
theorem Matrix_Multiply_correct [Zero α] [Add α] [Mul α] (s : Store α)
    (result first second : Ref)
    (hr : (s result).Valid) (hf : (s first).Valid) (hs : (s second).Valid)
    (hne1 : result ≠ first) (hne2 : result ≠ second)
    (hinner : (s first).columns = (s second).rows)
    (hrows : (s result).rows = (s first).rows)
    (hcols : (s result).columns = (s second).columns) :
    ∃ s', Matrix_Multiply s result first second = Effect.returned s' ∧
      library.Matrix_Multiply s first second result = Effect.returned s' ∧
      (∀ i j, 0 ≤ i → i < (s first).rows → 0 ≤ j → j < (s second).columns →
        (s' result).element i j =
          some (accumulate (s first).columns
            (fun k => (s first).entry i k * (s second).entry k j))) ∧
      s' first = s first ∧ s' second = s second ∧
      (s' result).rows = (s result).rows ∧ (s' result).columns = (s result).columns ∧
      (∀ (β : Type) [AddCommMonoid β] (n : Int) (f : Int → β),
        accumulate n f = ∑ k in Finset.range n.toNat, f (k : Int)) := by
  obtain ⟨s', hloop, hfr, hro, hco, _, hcells⟩ :=
    Matrix_Multiply_loops s result first second hr hf hs hne1 hne2 hinner hrows hcols
  have hcond : ¬(result = first ∨ result = second) := by
    rintro (h | h)
    · exact hne1 h
    · exact hne2 h
  have hcond3 : ¬((s result).rows ≠ (s first).rows ∨
      (s result).columns ≠ (s second).columns) := by
    rintro (h | h)
    · exact h hrows
    · exact h hcols
  refine ⟨s', ?_, ?_, ?_, hfr first (Ne.symm hne1), hfr second (Ne.symm hne2), hro, hco,
    fun β _ n f => @accumulate_eq_sum β _ n f⟩
  · unfold Matrix_Multiply
    rw [if_neg hcond, if_neg (not_not.mpr hinner), if_neg hcond3, hloop]
    rfl
  · unfold library.Matrix_Multiply
    rw [if_neg hcond, if_neg (not_not.mpr hinner), if_neg hcond3, hloop]
    rfl
  · intro i j hi0 hi hj0 hj
    exact hcells i j hi0 hi hj0 hj

/-- C1, at concrete operands: `[[1,2,3],[4,5,6]] * [[1,0],[0,1],[1,1]]` into a 2×2
destination. -/
theorem Matrix_Multiply_correct_witness :
    ∃ s', Matrix_Multiply exampleProduct 0 1 2 = Effect.returned s' ∧
      library.Matrix_Multiply exampleProduct 1 2 0 = Effect.returned s' ∧
      (∀ i j, 0 ≤ i → i < (exampleProduct 1).rows → 0 ≤ j → j < (exampleProduct 2).columns →
        (s' 0).element i j =
          some (accumulate (exampleProduct 1).columns
            (fun k => (exampleProduct 1).entry i k * (exampleProduct 2).entry k j))) ∧
      s' 1 = exampleProduct 1 ∧ s' 2 = exampleProduct 2 ∧
      (s' 0).rows = (exampleProduct 0).rows ∧ (s' 0).columns = (exampleProduct 0).columns ∧
      (∀ (β : Type) [AddCommMonoid β] (n : Int) (f : Int → β),
        accumulate n f = ∑ k in Finset.range n.toNat, f (k : Int)) :=
  Matrix_Multiply_correct exampleProduct 0 1 2 (by decide) (by decide) (by decide)
    (by decide) (by decide) (by decide) (by decide) (by decide)

/-- C2: `Matrix_Multiply` throws `std::invalid_argument` if and only if `result` is the same
object as `first` or as `second`, or `first.columns() != second.rows()`, or
`result.rows() != first.rows()`, or `result.columns() != second.columns()`; it throws nothing
else, and on valid matrices it returns normally in every other case. -/
theorem Matrix_Multiply_fails_iff [Zero α] [Add α] [Mul α] (s : Store α)
    (result first second : Ref) :
    ((∃ s', Matrix_Multiply s result first second = Effect.thrown Exn.invalid_argument s') ↔
      (result = first ∨ result = second ∨ (s first).columns ≠ (s second).rows ∨
        (s result).rows ≠ (s first).rows ∨ (s result).columns ≠ (s second).columns)) ∧
    (∀ e s', Matrix_Multiply s result first second = Effect.thrown e s' →
      e = Exn.invalid_argument) ∧
    ((s result).Valid → (s first).Valid → (s second).Valid →
      ¬(result = first ∨ result = second ∨ (s first).columns ≠ (s second).rows ∨
        (s result).rows ≠ (s first).rows ∨ (s result).columns ≠ (s second).columns) →
      ∃ s', Matrix_Multiply s result first second = Effect.returned s') := by
  refine ⟨⟨?_, ?_⟩, ?_, ?_⟩
  · rintro ⟨s', h⟩
    by_contra hc
    simp only [not_or, not_not] at hc
    obtain ⟨h1, h2, h3, h4, h5⟩ := hc
    unfold Matrix_Multiply at h
    rw [if_neg (by simp [h1, h2]), if_neg (by simp [h3]), if_neg (by simp [h4, h5])] at h
    exact Effect.ofOption_ne_thrown _ _ _ h
  · intro h
    refine ⟨s, ?_⟩
    unfold Matrix_Multiply
    by_cases h1 : result = first ∨ result = second
    · rw [if_pos h1]
    · rw [if_neg h1]
      by_cases h2 : (s first).columns ≠ (s second).rows
      · rw [if_pos h2]
      · rw [if_neg h2, if_pos]
        rcases h with h | h | h | h | h
        · exact absurd (Or.inl h) h1
        · exact absurd (Or.inr h) h1
        · exact absurd h h2
        · exact Or.inl h
        · exact Or.inr h
  · intro e s' h
    unfold Matrix_Multiply at h
    split_ifs at h
    · cases h; rfl
    · cases h; rfl
    · cases h; rfl
    · exact absurd h (Effect.ofOption_ne_thrown _ _ _)
  · intro hr hf hs hc
    simp only [not_or, not_not] at hc
    obtain ⟨h1, h2, h3, h4, h5⟩ := hc
    obtain ⟨s', hloop, _⟩ := Matrix_Multiply_loops s result first second hr hf hs h1 h2 h3 h4 h5
    refine ⟨s', ?_⟩
    unfold Matrix_Multiply
    rw [if_neg (by simp [h1, h2]), if_neg (by simp [h3]), if_neg (by simp [h4, h5]), hloop]
    rfl

/-- C2, at concrete operands: a compatible call returns, and the iff is instantiated. -/
theorem Matrix_Multiply_fails_iff_witness :
    (∃ s', Matrix_Multiply exampleProduct 0 1 2 = Effect.returned s') ∧
      ∃ s', Matrix_Multiply exampleProduct 1 1 2 = Effect.thrown Exn.invalid_argument s' :=
  ⟨(Matrix_Multiply_fails_iff exampleProduct 0 1 2).2.2 (by decide) (by decide) (by decide)
      (by decide),
    (Matrix_Multiply_fails_iff exampleProduct 1 1 2).1.2 (Or.inl rfl)⟩

/-! ## Failures are raised before any write -/

theorem Matrix_Multiply_thrown [Zero α] [Add α] [Mul α] {s s' : Store α}
    {result first second : Ref} {e : Exn}
    (h : Matrix_Multiply s result first second = Effect.thrown e s') :
    s' = s ∧ e = Exn.invalid_argument := by
  unfold Matrix_Multiply at h
  split_ifs at h <;>
    first
    | (cases h; exact ⟨rfl, rfl⟩)
    | exact absurd h (Effect.ofOption_ne_thrown _ _ _)

theorem Matrix_Add_thrown [Add α] {s s' : Store α} {result matrix1 matrix2 : Ref} {e : Exn}
    (h : Matrix_Add s result matrix1 matrix2 = Effect.thrown e s') :
    s' = s ∧ e = Exn.invalid_argument := by
  unfold Matrix_Add at h
  split_ifs at h <;>
    first
    | (cases h; exact ⟨rfl, rfl⟩)
    | exact absurd h (Effect.ofOption_ne_thrown _ _ _)

theorem Matrix_Subtract_thrown [Sub α] {s s' : Store α} {result matrix1 matrix2 : Ref}
    {e : Exn} (h : Matrix_Subtract s result matrix1 matrix2 = Effect.thrown e s') :
    s' = s ∧ e = Exn.invalid_argument := by
  unfold Matrix_Subtract at h
  split_ifs at h <;>
    first
    | (cases h; exact ⟨rfl, rfl⟩)
    | exact absurd h (Effect.ofOption_ne_thrown _ _ _)

theorem Matrix_Transpose_thrown {s s' : Store α} {final original : Ref} {e : Exn}
    (h : Matrix_Transpose s final original = Effect.thrown e s') :
    s' = s ∧ e = Exn.invalid_argument := by
  unfold Matrix_Transpose at h
  split_ifs at h <;>
    first
    | (cases h; exact ⟨rfl, rfl⟩)
    | exact absurd h (Effect.ofOption_ne_thrown _ _ _)

theorem Matrix_Hadamard_Product_thrown [Mul α] {s s' : Store α} {result a b : Ref} {e : Exn}
    (h : Matrix_Hadamard_Product s result a b = Effect.thrown e s') :
    s' = s ∧ e = Exn.invalid_argument := by
  unfold Matrix_Hadamard_Product at h
  split_ifs at h <;>
    first
    | (cases h; exact ⟨rfl, rfl⟩)
    | exact absurd h (Effect.ofOption_ne_thrown _ _ _)

theorem Matrix_Broadcast_thrown {s s' : Store α} {result original : Ref}
    {newRows newColumns : Int} {e : Exn}
    (h : Matrix_Broadcast s result original newRows newColumns = Effect.thrown e s') :
    s' = s ∧ e = Exn.invalid_argument := by
  unfold Matrix_Broadcast at h
  repeat' split at h
  all_goals
    first
    | (cases h; exact ⟨rfl, rfl⟩)
    | exact absurd h (Effect.ofOption_ne_thrown _ _ _)
    | cases h

theorem Matrix_Absolute_thrown [Lattice α] [AddGroup α] {s s' : Store α}
    {result original : Ref} {e : Exn}
    (h : Matrix_Absolute s result original = Effect.thrown e s') :
    s' = s ∧ e = Exn.invalid_argument := by
  unfold Matrix_Absolute at h
  split_ifs at h <;>
    first
    | (cases h; exact ⟨rfl, rfl⟩)
    | exact absurd h (Effect.ofOption_ne_thrown _ _ _)

theorem Matrix_Sum_Columns_thrown [Zero α] [Add α] {s s' : Store α} {dest src : Ref} {e : Exn}
    (h : Matrix_Sum_Columns s dest src = Effect.thrown e s') :
    s' = s ∧ e = Exn.invalid_argument := by
  unfold Matrix_Sum_Columns at h
  split_ifs at h <;>
    first
    | (cases h; exact ⟨rfl, rfl⟩)
    | exact absurd h (Effect.ofOption_ne_thrown _ _ _)

/-- C3: whenever `Matrix_Multiply`, `Matrix_Add`, `Matrix_Subtract`, `Matrix_Transpose`,
`Matrix_Hadamard_Product`, `Matrix_Broadcast`, `Matrix_Absolute` or `Matrix_Sum_Columns`
throws, the state of every matrix at the throw is the state before the call: the destination
has the same dimensions and the same buffer, so no element was written. -/
theorem failure_writes_nothing [Lattice α] [AddGroup α] [Mul α] (s s' : Store α) (e : Exn) :
    (∀ result first second,
      Matrix_Multiply s result first second = Effect.thrown e s' → s' = s) ∧
    (∀ result matrix1 matrix2,
      Matrix_Add s result matrix1 matrix2 = Effect.thrown e s' → s' = s) ∧
    (∀ result matrix1 matrix2,
      Matrix_Subtract s result matrix1 matrix2 = Effect.thrown e s' → s' = s) ∧
    (∀ final original, Matrix_Transpose s final original = Effect.thrown e s' → s' = s) ∧
    (∀ result a b, Matrix_Hadamard_Product s result a b = Effect.thrown e s' → s' = s) ∧
    (∀ result original newRows newColumns,
      Matrix_Broadcast s result original newRows newColumns = Effect.thrown e s' → s' = s) ∧
    (∀ result original, Matrix_Absolute s result original = Effect.thrown e s' → s' = s) ∧
    (∀ dest src, Matrix_Sum_Columns s dest src = Effect.thrown e s' → s' = s) :=
  ⟨fun _ _ _ h => (Matrix_Multiply_thrown h).1, fun _ _ _ h => (Matrix_Add_thrown h).1,
    fun _ _ _ h => (Matrix_Subtract_thrown h).1, fun _ _ h => (Matrix_Transpose_thrown h).1,
    fun _ _ _ h => (Matrix_Hadamard_Product_thrown h).1,
    fun _ _ _ _ h => (Matrix_Broadcast_thrown h).1, fun _ _ h => (Matrix_Absolute_thrown h).1,
    fun _ _ h => (Matrix_Sum_Columns_thrown h).1⟩

/-- C3, at concrete calls that fail: an aliased `Matrix_Add` and a `Matrix_Transpose` into a
destination of the wrong shape both leave the destination as it was. -/
theorem failure_writes_nothing_witness :
    (∃ s', Matrix_Add exampleProduct 1 1 2 = Effect.thrown Exn.invalid_argument s' ∧
      s' 1 = exampleProduct 1) ∧
    (∃ s', Matrix_Transpose exampleProduct 0 1 = Effect.thrown Exn.invalid_argument s' ∧
      s' 0 = exampleProduct 0) :=
  ⟨⟨exampleProduct, rfl, congrFun
      ((failure_writes_nothing exampleProduct exampleProduct Exn.invalid_argument).2.1
        1 1 2 rfl) 1⟩,
    ⟨exampleProduct, rfl, congrFun
      ((failure_writes_nothing exampleProduct exampleProduct
        Exn.invalid_argument).2.2.2.1 0 1 rfl) 0⟩⟩

/-! ## Constructors -/

theorem fill_replicate [Zero α] (n : Nat) (value : α) :
    fill (List.replicate n (0 : α)) (n : Int) value = some (List.replicate n value) := by
  simp [fill]

/-- The constructors on dimensions whose `int` product is a non-negative `int`: the
allocation succeeds and the body decides. -/
theorem Matrix.create_value_eq [Zero α] (rows columns : Int) (value : α)
    (h0 : 0 ≤ rows * columns) (h1 : rows * columns ≤ INT_MAX) :
    Matrix.create_value rows columns value =
      if rows ≤ 0 ∨ columns ≤ 0 then Outcome.throw Exn.invalid_argument
      else Outcome.ok { rows_ := rows, columns_ := columns,
                        data_ := some (List.replicate (rows * columns).toNat value) } := by
  unfold INT_MAX at h1
  have hp : mulInt32 rows columns = rows * columns := wrapInt32_eq (by omega) h1
  have hn : toSizeT (rows * columns) = (rows * columns).toNat := toSizeT_eq h0 h1
  have hsz : ¬ SIZE_MAX < (rows * columns).toNat * sizeofFloat := by
    unfold SIZE_MAX sizeofFloat
    omega
  have hcast : (((rows * columns).toNat : Nat) : Int) = rows * columns := Int.toNat_of_nonneg h0
  unfold Matrix.create_value make_unique
  rw [hp, hn, if_neg hsz]
  simp only
  by_cases hc : rows ≤ 0 ∨ columns ≤ 0
  · rw [if_pos hc, if_pos hc]
  · rw [if_neg hc, if_neg hc]
    have := fill_replicate (rows * columns).toNat value
    rw [hcast] at this
    rw [this]

theorem Matrix.create_eq_create_value [Zero α] (rows columns : Int) :
    (Matrix.create rows columns : Outcome (Matrix α)) = Matrix.create_value rows columns 0 :=
  rfl

/-- A matrix whose buffer is `rows * columns` copies of one value. -/
theorem Matrix.constant_spec (rows columns : Int) (value : α) (hr : 1 ≤ rows)
    (hc : 1 ≤ columns) (hp : rows * columns ≤ INT_MAX) :
    let m : Matrix α := { rows_ := rows, columns_ := columns,
                          data_ := some (List.replicate (rows * columns).toNat value) }
    m.Valid ∧ ∀ i j, 0 ≤ i → i < rows → 0 ≤ j → j < columns → m.element i j = some value := by
  intro m
  have h0 : 0 ≤ rows * columns := mul_nonneg (by omega) (by omega)
  have hv : m.Valid := by
    refine ⟨hr, hc, hp, ?_⟩
    show (((List.replicate (rows * columns).toNat value).length : Nat) : Int) = rows * columns
    rw [List.length_replicate]
    exact Int.toNat_of_nonneg h0
  refine ⟨hv, ?_⟩
  intro i j hi0 hi hj0 hj
  have hlt := Matrix.index_lt_size hv hi0 hi hj0 hj
  have hlt' : m.index i j < (rows * columns).toNat := by
    simpa [Matrix.size, m] using hlt
  show (List.replicate (rows * columns).toNat value)[m.index i j]? = some value
  rw [List.getElem?_replicate, if_pos hlt']

/-- C4 as stated fails: `Matrix(65536, 65536)` has positive dimensions, but the `int`
product `rows * columns` wraps to 0, so the constructor returns an object with an empty
buffer and the read of element (0, 0) is outside it. -/
theorem Matrix_create_overflow_counterexample :
    (1 : Int) ≤ 65536 ∧ (65536 : Int) ≤ INT_MAX ∧
      ¬ ∃ m : Matrix Int, Matrix.create 65536 65536 = Outcome.ok m ∧
        m.element 0 0 = some 0 := by
  refine ⟨by decide, by decide, ?_⟩
  rintro ⟨m, hm, he⟩
  have h : (Matrix.create 65536 65536 : Outcome (Matrix Int)) =
      Outcome.ok { rows_ := 65536, columns_ := 65536, data_ := some [] } := by decide
  rw [h] at hm
  cases hm
  simp [Matrix.element] at he

/-- C4 (amended): for every `rows ≥ 1` and `columns ≥ 1` whose product does not exceed
`INT_MAX`, `Matrix(rows, columns)` yields a matrix with `rows() == rows`,
`columns() == columns` and every element `(i, j)`, `0 ≤ i < rows`, `0 ≤ j < columns`, equal to
`0`; `Matrix(rows, columns, v)` yields the same dimensions with every such element equal to
`v`.  Both objects satisfy the class invariant. -/
theorem Matrix_create_correct [Zero α] (rows columns : Int) (v : α) (hr : 1 ≤ rows)
    (hc : 1 ≤ columns) (hp : rows * columns ≤ INT_MAX) :
    (∃ m : Matrix α, Matrix.create rows columns = Outcome.ok m ∧ m.rows = rows ∧
      m.columns = columns ∧ m.Valid ∧
      ∀ i j, 0 ≤ i → i < rows → 0 ≤ j → j < columns → m.element i j = some 0) ∧
    (∃ m : Matrix α, Matrix.create_value rows columns v = Outcome.ok m ∧ m.rows = rows ∧
      m.columns = columns ∧ m.Valid ∧
      ∀ i j, 0 ≤ i → i < rows → 0 ≤ j → j < columns → m.element i j = some v) := by
  have h0 : 0 ≤ rows * columns := mul_nonneg (by omega) (by omega)
  have hn : ¬(rows ≤ 0 ∨ columns ≤ 0) := by omega
  have key : ∀ w : α, ∃ m : Matrix α, Matrix.create_value rows columns w = Outcome.ok m ∧
      m.rows = rows ∧ m.columns = columns ∧ m.Valid ∧
      ∀ i j, 0 ≤ i → i < rows → 0 ≤ j → j < columns → m.element i j = some w := by
    intro w
    obtain ⟨hv, hcells⟩ := Matrix.constant_spec rows columns w hr hc hp
    refine ⟨{ rows_ := rows, columns_ := columns,
              data_ := some (List.replicate (rows * columns).toNat w) }, ?_, rfl, rfl, hv,
      hcells⟩
    rw [Matrix.create_value_eq rows columns w h0 hp, if_neg hn]
  exact ⟨by rw [Matrix.create_eq_create_value]; exact key 0, key v⟩

/-- C4 (amended), at `Matrix(2, 3)` and `Matrix(2, 3, 7)`. -/
theorem Matrix_create_correct_witness :
    (∃ m : Matrix Int, Matrix.create 2 3 = Outcome.ok m ∧ m.rows = 2 ∧
      m.columns = 3 ∧ m.Valid ∧
      ∀ i j, 0 ≤ i → i < 2 → 0 ≤ j → j < 3 → m.element i j = some 0) ∧
    (∃ m : Matrix Int, Matrix.create_value 2 3 7 = Outcome.ok m ∧ m.rows = 2 ∧
      m.columns = 3 ∧ m.Valid ∧
      ∀ i j, 0 ≤ i → i < 2 → 0 ≤ j → j < 3 → m.element i j = some 7) :=
  Matrix_create_correct 2 3 7 (by decide) (by decide) (by decide)

/-- C5 as stated fails: `Matrix(-1, 3)` does not throw `std::invalid_argument`.  The member
initialiser allocates `(size_t)(-3)` floats before the body tests the dimensions, and that
allocation throws `std::bad_alloc`; the three-argument constructor does the same.  And
`Matrix(50000, 50000)`, with positive dimensions, fails: the `int` product wraps to a negative
value and the allocation throws. -/
theorem Matrix_create_negative_counterexample :
    ((-1 : Int) ≤ 0 ∨ (3 : Int) ≤ 0) ∧
      (Matrix.create (-1) 3 : Outcome (Matrix Int)) = Outcome.throw Exn.bad_alloc ∧
      (Matrix.create_value (-1) 3 7 : Outcome (Matrix Int)) = Outcome.throw Exn.bad_alloc ∧
      (Matrix.create (-1) 3 : Outcome (Matrix Int)) ≠ Outcome.throw Exn.invalid_argument ∧
      ((1 : Int) ≤ 50000 ∧ (50000 : Int) ≤ INT_MAX ∧
        (Matrix.create 50000 50000 : Outcome (Matrix Int)) = Outcome.throw Exn.bad_alloc) := by
  decide

/-- C5 (amended): for every pair `(rows, columns)` with `rows ≤ 0` or `columns ≤ 0` whose
product lies in `[0, INT_MAX]`, both constructors throw `std::invalid_argument` and produce
no matrix; in particular `Matrix(0, 5)` and `Matrix(5, 0)` do.  For `rows ≥ 1` and
`columns ≥ 1` with `rows * columns ≤ INT_MAX` neither constructor fails. -/
theorem Matrix_create_fails [Zero α] (rows columns : Int) (v : α) :
    ((rows ≤ 0 ∨ columns ≤ 0) → 0 ≤ rows * columns → rows * columns ≤ INT_MAX →
      (Matrix.create rows columns : Outcome (Matrix α)) = Outcome.throw Exn.invalid_argument ∧
      Matrix.create_value rows columns v = Outcome.throw Exn.invalid_argument) ∧
    ((Matrix.create 0 5 : Outcome (Matrix α)) = Outcome.throw Exn.invalid_argument ∧
      (Matrix.create 5 0 : Outcome (Matrix α)) = Outcome.throw Exn.invalid_argument ∧
      Matrix.create_value 0 5 v = Outcome.throw Exn.invalid_argument ∧
      Matrix.create_value 5 0 v = Outcome.throw Exn.invalid_argument) ∧
    (1 ≤ rows → 1 ≤ columns → rows * columns ≤ INT_MAX →
      (∃ m : Matrix α, Matrix.create rows columns = Outcome.ok m) ∧
      ∃ m : Matrix α, Matrix.create_value rows columns v = Outcome.ok m) := by
  have key : ∀ (r c : Int) (w : α), (r ≤ 0 ∨ c ≤ 0) → 0 ≤ r * c → r * c ≤ INT_MAX →
      Matrix.create_value r c w = Outcome.throw Exn.invalid_argument := by
    intro r c w h h0 h1
    rw [Matrix.create_value_eq r c w h0 h1, if_pos h]
  have pos : ∀ (w : α), 1 ≤ rows → 1 ≤ columns → rows * columns ≤ INT_MAX →
      ∃ m : Matrix α, Matrix.create_value rows columns w = Outcome.ok m := by
    intro w hr hc hp
    have h0 : 0 ≤ rows * columns := mul_nonneg (by omega) (by omega)
    have hn : ¬(rows ≤ 0 ∨ columns ≤ 0) := by omega
    exact ⟨_, by rw [Matrix.create_value_eq rows columns w h0 hp, if_neg hn]⟩
  refine ⟨fun h h0 h1 => ⟨?_, key rows columns v h h0 h1⟩, ⟨?_, ?_, ?_, ?_⟩,
    fun hr hc hp => ⟨?_, pos v hr hc hp⟩⟩
  · rw [Matrix.create_eq_create_value]; exact key rows columns 0 h h0 h1
  · rw [Matrix.create_eq_create_value]
    exact key 0 5 0 (Or.inl le_rfl) (by decide) (by decide)
  · rw [Matrix.create_eq_create_value]
    exact key 5 0 0 (Or.inr le_rfl) (by decide) (by decide)
  · exact key 0 5 v (Or.inl le_rfl) (by decide) (by decide)
  · exact key 5 0 v (Or.inr le_rfl) (by decide) (by decide)
  · rw [Matrix.create_eq_create_value]; exact pos 0 hr hc hp

/-- C5 (amended), at `Matrix(-2, -3)`, which throws `std::invalid_argument`, and at
`Matrix(2, 3)`, which does not fail. -/
theorem Matrix_create_fails_witness :
    ((Matrix.create (-2) (-3) : Outcome (Matrix Int)) = Outcome.throw Exn.invalid_argument ∧
      (Matrix.create_value (-2) (-3) 7 : Outcome (Matrix Int)) =
        Outcome.throw Exn.invalid_argument) ∧
    ((∃ m : Matrix Int, Matrix.create 2 3 = Outcome.ok m) ∧
      ∃ m : Matrix Int, Matrix.create_value 2 3 7 = Outcome.ok m) :=
  ⟨(Matrix_create_fails (-2) (-3) 7).1 (by decide) (by decide) (by decide),
    (Matrix_create_fails 2 3 7).2.2 (by decide) (by decide) (by decide)⟩

/-! ## Elementwise loop nests -/

/-- The nest `for i, j: result(i, j) = op (a(i, j)) (b(i, j))` shared by `Matrix_Add`,
`Matrix_Subtract` and `Matrix_Hadamard_Product`, on valid operands of one shape and a distinct
destination of that shape. -/
theorem zip_loops (op : α → α → α) (s : Store α) (result a b : Ref)
    (hr : (s result).Valid) (ha : (s a).Valid) (hb : (s b).Valid)
    (hne1 : result ≠ a) (hne2 : result ≠ b)
    (hrows : (s a).rows_ = (s b).rows_) (hcols : (s a).columns_ = (s b).columns_)
    (hrrows : (s result).rows_ = (s a).rows_) (hrcols : (s result).columns_ = (s a).columns_) :
    ∃ s', forLoop (s a).rows (fun i st =>
        forLoop (st a).columns (fun j st =>
          match (st a).element i j, (st b).element i j with
          | some x, some y => st.assign result i j (op x y)
          | _, _ => none) st) s = some s' ∧
      Store.FrameExcept result s s' ∧ (s' result).rows_ = (s result).rows_ ∧
      (s' result).columns_ = (s result).columns_ ∧ (s' result).Valid ∧
      ∀ i j, 0 ≤ i → i < (s a).rows_ → 0 ≤ j → j < (s a).columns_ →
        ∃ x y, (s a).element i j = some x ∧ (s b).element i j = some y ∧
          (s' result).element i j = some (op x y) := by
  obtain ⟨x0, _⟩ := Matrix.element_defined ha (le_refl (0 : Int))
    (by have := ha.1; omega) (le_refl (0 : Int)) (by have := ha.2.1; omega)
  obtain ⟨s', h1, h2, h3, h4, h5, h6⟩ := fill_loop s result (s a).rows
    (fun st => (st a).columns) (s a).columns_
    (fun i j st =>
      match (st a).element i j, (st b).element i j with
      | some x, some y => st.assign result i j (op x y)
      | _, _ => none)
    (fun i _ => i) (fun _ j => j)
    (fun i j => op (((s a).element i j).getD x0) (((s b).element i j).getD x0)) hr
    (by
      intro st hfr
      show (st a).columns_ = (s a).columns_
      rw [hfr a (Ne.symm hne1)])
    (by
      intro st i j hfr hi0 hi hj0 hj
      simp only [Matrix.rows] at hi
      obtain ⟨x, hx⟩ := Matrix.element_defined ha hi0 hi hj0 hj
      obtain ⟨y, hy⟩ := Matrix.element_defined hb hi0 (by rw [← hrows]; exact hi) hj0
        (by rw [← hcols]; exact hj)
      simp only [hfr a (Ne.symm hne1), hfr b (Ne.symm hne2), hx, hy, Option.getD_some])
    (by
      intro i j hi0 hi hj0 hj
      simp only [Matrix.rows] at hi
      exact ⟨hi0, by rw [hrrows]; exact hi, hj0, by rw [hrcols]; exact hj⟩)
    (by
      intro i j i' j' _ _ _ _ _ _ _ _ h
      exact h)
  refine ⟨s', h1, h2, h3, h4, h5, ?_⟩
  intro i j hi0 hi hj0 hj
  obtain ⟨x, hx⟩ := Matrix.element_defined ha hi0 hi hj0 hj
  obtain ⟨y, hy⟩ := Matrix.element_defined hb hi0 (by rw [← hrows]; exact hi) hj0
    (by rw [← hcols]; exact hj)
  refine ⟨x, y, hx, hy, ?_⟩
  rw [h6 i j hi0 hi hj0 hj, hx, hy]
  rfl

/-- The nest of `Matrix_Transpose` on a valid source and a distinct valid destination of
the transposed shape. -/
theorem Matrix_Transpose_loops (s : Store α) (final original : Ref)
    (hf : (s final).Valid) (ho : (s original).Valid) (hne : final ≠ original)
    (hrows : (s final).rows_ = (s original).columns_)
    (hcols : (s final).columns_ = (s original).rows_) :
    ∃ s', forLoop (s original).rows (fun i st =>
        forLoop (st original).columns (fun j st =>
          match (st original).element i j with
          | some a => st.assign final j i a
          | none => none) st) s = some s' ∧
      Store.FrameExcept final s s' ∧ (s' final).rows_ = (s final).rows_ ∧
      (s' final).columns_ = (s final).columns_ ∧ (s' final).Valid ∧
      ∀ i j, 0 ≤ i → i < (s original).rows_ → 0 ≤ j → j < (s original).columns_ →
        ∃ x, (s original).element i j = some x ∧ (s' final).element j i = some x := by
  obtain ⟨x0, _⟩ := Matrix.element_defined ho (le_refl (0 : Int))
    (by have := ho.1; omega) (le_refl (0 : Int)) (by have := ho.2.1; omega)
  obtain ⟨s', h1, h2, h3, h4, h5, h6⟩ := fill_loop s final
    (s original).rows (fun st => (st original).columns) (s original).columns_
    (fun i j st =>
      match (st original).element i j with
      | some a => st.assign final j i a
      | none => none)
    (fun _ j => j) (fun i _ => i)
    (fun i j => ((s original).element i j).getD x0) hf
    (by
      intro st hfr
      show (st original).columns_ = (s original).columns_
      rw [hfr original (Ne.symm hne)])
    (by
      intro st i j hfr hi0 hi hj0 hj
      simp only [Matrix.rows] at hi
      obtain ⟨x, hx⟩ := Matrix.element_defined ho hi0 hi hj0 hj
      simp only [hfr original (Ne.symm hne), hx, Option.getD_some])
    (by
      intro i j hi0 hi hj0 hj
      simp only [Matrix.rows] at hi
      exact ⟨hj0, by rw [hrows]; exact hj, hi0, by rw [hcols]; exact hi⟩)
    (by
      intro i j i' j' _ _ _ _ _ _ _ _ h
      exact h.symm)
  refine ⟨s', h1, h2, h3, h4, h5, ?_⟩
  intro i j hi0 hi hj0 hj
  obtain ⟨x, hx⟩ := Matrix.element_defined ho hi0 hi hj0 hj
  refine ⟨x, hx, ?_⟩
  rw [h6 i j hi0 hi hj0 hj, hx]
  rfl

/-- The nest of `Matrix_Broadcast` on a valid source and a distinct valid destination of
shape `newRows × newColumns`. -/
theorem Matrix_Broadcast_loops (s : Store α) (result original : Ref) (newRows newColumns : Int)
    (hr : (s result).Valid) (ho : (s original).Valid) (hne : result ≠ original)
    (hrows : (s result).rows_ = newRows) (hcols : (s result).columns_ = newColumns) :
    ∃ s', forLoop newRows (fun i st =>
        forLoop newColumns (fun j st =>
          match remInt32 i (st original).rows, remInt32 j (st original).columns with
          | some originalRow, some originalColumn =>
            match (st original).element originalRow originalColumn with
            | some a => st.assign result i j a
            | none => none
          | _, _ => none) st) s = some s' ∧
      Store.FrameExcept result s s' ∧ (s' result).rows_ = (s result).rows_ ∧
      (s' result).columns_ = (s result).columns_ ∧ (s' result).Valid ∧
      ∀ i j, 0 ≤ i → i < newRows → 0 ≤ j → j < newColumns →
        ∃ x, (s original).element (i % (s original).rows_) (j % (s original).columns_) = some x ∧
          (s' result).element i j = some x := by
  have hR : 0 < (s original).rows_ := by have := ho.1; omega
  have hC : 0 < (s original).columns_ := by have := ho.2.1; omega
  have hsrc : ∀ i j : Int, ∃ x,
      (s original).element (i % (s original).rows_) (j % (s original).columns_) = some x :=
    fun i j => Matrix.element_defined ho (Int.emod_nonneg i (by omega))
      (Int.emod_lt_of_pos i hR) (Int.emod_nonneg j (by omega)) (Int.emod_lt_of_pos j hC)
  obtain ⟨x0, _⟩ := hsrc 0 0
  obtain ⟨s', h1, h2, h3, h4, h5, h6⟩ := fill_loop s result newRows
    (fun _ => newColumns) newColumns
    (fun i j st =>
      match remInt32 i (st original).rows, remInt32 j (st original).columns with
      | some originalRow, some originalColumn =>
        match (st original).element originalRow originalColumn with
        | some a => st.assign result i j a
        | none => none
      | _, _ => none)
    (fun i _ => i) (fun _ j => j)
    (fun i j =>
      ((s original).element (i % (s original).rows_) (j % (s original).columns_)).getD x0) hr
    (fun _ _ => rfl)
    (by
      intro st i j hfr hi0 hi hj0 hj
      obtain ⟨x, hx⟩ := hsrc i j
      have e1 : remInt32 i (s original).rows = some (i % (s original).rows_) := by
        unfold remInt32 Matrix.rows
        rw [if_neg (by omega), Int.tmod_eq_emod hi0 (by omega)]
      have e2 : remInt32 j (s original).columns = some (j % (s original).columns_) := by
        unfold remInt32 Matrix.columns
        rw [if_neg (by omega), Int.tmod_eq_emod hj0 (by omega)]
      simp only [hfr original (Ne.symm hne), e1, e2, hx, Option.getD_some])
    (by
      intro i j hi0 hi hj0 hj
      exact ⟨hi0, by rw [hrows]; exact hi, hj0, by rw [hcols]; exact hj⟩)
    (by
      intro i j i' j' _ _ _ _ _ _ _ _ h
      exact h)
  refine ⟨s', h1, h2, h3, h4, h5, ?_⟩
  intro i j hi0 hi hj0 hj
  obtain ⟨x, hx⟩ := hsrc i j
  refine ⟨x, hx, ?_⟩
  rw [h6 i j hi0 hi hj0 hj, hx]
  rfl

/-! ## Calls that return normally -/

theorem Matrix.entry_of_element [Zero α] {m : Matrix α} {row column : Int} {x : α}
    (h : m.element row column = some x) : m.entry row column = x := by
  simp [Matrix.entry, h]

theorem Matrix_Multiply_returns [Zero α] [Add α] [Mul α] (s : Store α)
    (result first second : Ref)
    (hr : (s result).Valid) (hf : (s first).Valid) (hs : (s second).Valid)
    (hne1 : result ≠ first) (hne2 : result ≠ second)
    (hinner : (s first).columns_ = (s second).rows_)
    (hrows : (s result).rows_ = (s first).rows_)
    (hcols : (s result).columns_ = (s second).columns_) :
    ∃ s', Matrix_Multiply s result first second = Effect.returned s' ∧
      Store.FrameExcept result s s' ∧ (s' result).rows_ = (s result).rows_ ∧
      (s' result).columns_ = (s result).columns_ ∧ (s' result).Valid ∧
      ∀ i j, 0 ≤ i → i < (s first).rows_ → 0 ≤ j → j < (s second).columns_ →
        (s' result).element i j = some (accumulate (s first).columns_
          (fun k => (s first).entry i k * (s second).entry k j)) := by
  obtain ⟨s', hloop, rest⟩ :=
    Matrix_Multiply_loops s result first second hr hf hs hne1 hne2 hinner hrows hcols
  refine ⟨s', ?_, rest⟩
  unfold Matrix_Multiply
  rw [if_neg (by simp [hne1, hne2]),
    if_neg (by simp [Matrix.rows, Matrix.columns, hinner]),
    if_neg (by simp [Matrix.rows, Matrix.columns, hrows, hcols])]
  exact congrArg Effect.ofOption hloop

theorem Matrix_Add_returns [Add α] (s : Store α) (result matrix1 matrix2 : Ref)
    (hr : (s result).Valid) (ha : (s matrix1).Valid) (hb : (s matrix2).Valid)
    (hne1 : result ≠ matrix1) (hne2 : result ≠ matrix2)
    (hrows : (s matrix1).rows_ = (s matrix2).rows_)
    (hcols : (s matrix1).columns_ = (s matrix2).columns_)
    (hrrows : (s result).rows_ = (s matrix1).rows_)
    (hrcols : (s result).columns_ = (s matrix1).columns_) :
    ∃ s', Matrix_Add s result matrix1 matrix2 = Effect.returned s' ∧
      Store.FrameExcept result s s' ∧ (s' result).rows_ = (s result).rows_ ∧
      (s' result).columns_ = (s result).columns_ ∧ (s' result).Valid ∧
      ∀ i j, 0 ≤ i → i < (s matrix1).rows_ → 0 ≤ j → j < (s matrix1).columns_ →
        ∃ x y, (s matrix1).element i j = some x ∧ (s matrix2).element i j = some y ∧
          (s' result).element i j = some (x + y) := by
  obtain ⟨s', hloop, rest⟩ := zip_loops (fun x y => x + y) s result matrix1 matrix2 hr ha hb
    hne1 hne2 hrows hcols hrrows hrcols
  refine ⟨s', ?_, rest⟩
  unfold Matrix_Add
  rw [if_neg (by simp [hne1, hne2]),
    if_neg (by simp [Matrix.rows, Matrix.columns, hrows, hcols]),
    if_neg (by simp [Matrix.rows, Matrix.columns, hrrows, hrcols])]
  exact congrArg Effect.ofOption hloop

theorem Matrix_Subtract_returns [Sub α] (s : Store α) (result matrix1 matrix2 : Ref)
    (hr : (s result).Valid) (ha : (s matrix1).Valid) (hb : (s matrix2).Valid)
    (hne1 : result ≠ matrix1) (hne2 : result ≠ matrix2)
    (hrows : (s matrix1).rows_ = (s matrix2).rows_)
    (hcols : (s matrix1).columns_ = (s matrix2).columns_)
    (hrrows : (s result).rows_ = (s matrix1).rows_)
    (hrcols : (s result).columns_ = (s matrix1).columns_) :
    ∃ s', Matrix_Subtract s result matrix1 matrix2 = Effect.returned s' ∧
      Store.FrameExcept result s s' ∧ (s' result).rows_ = (s result).rows_ ∧
      (s' result).columns_ = (s result).columns_ ∧ (s' result).Valid ∧
      ∀ i j, 0 ≤ i → i < (s matrix1).rows_ → 0 ≤ j → j < (s matrix1).columns_ →
        ∃ x y, (s matrix1).element i j = some x ∧ (s matrix2).element i j = some y ∧
          (s' result).element i j = some (x - y) := by
  obtain ⟨s', hloop, rest⟩ := zip_loops (fun x y => x - y) s result matrix1 matrix2 hr ha hb
    hne1 hne2 hrows hcols hrrows hrcols
  refine ⟨s', ?_, rest⟩
  unfold Matrix_Subtract
  rw [if_neg (by simp [hne1, hne2]),
    if_neg (by simp [Matrix.rows, Matrix.columns, hrows, hcols]),
    if_neg (by simp [Matrix.rows, Matrix.columns, hrrows, hrcols])]
  exact congrArg Effect.ofOption hloop

theorem Matrix_Hadamard_Product_returns [Mul α] (s : Store α) (result a b : Ref)
    (hr : (s result).Valid) (ha : (s a).Valid) (hb : (s b).Valid)
    (hne1 : result ≠ a) (hne2 : result ≠ b)
    (hrows : (s a).rows_ = (s b).rows_) (hcols : (s a).columns_ = (s b).columns_)
    (hrrows : (s result).rows_ = (s a).rows_) (hrcols : (s result).columns_ = (s a).columns_) :
    ∃ s', Matrix_Hadamard_Product s result a b = Effect.returned s' ∧
      Store.FrameExcept result s s' ∧ (s' result).rows_ = (s result).rows_ ∧
      (s' result).columns_ = (s result).columns_ ∧ (s' result).Valid ∧
      ∀ i j, 0 ≤ i → i < (s a).rows_ → 0 ≤ j → j < (s a).columns_ →
        ∃ x y, (s a).element i j = some x ∧ (s b).element i j = some y ∧
          (s' result).element i j = some (x * y) := by
  obtain ⟨s', hloop, rest⟩ := zip_loops (fun x y => x * y) s result a b hr ha hb
    hne1 hne2 hrows hcols hrrows hrcols
  refine ⟨s', ?_, rest⟩
  unfold Matrix_Hadamard_Product
  rw [if_neg (by simp [hne1, hne2]),
    if_neg (by simp [Matrix.rows, Matrix.columns, hrows, hcols]),
    if_neg (by simp [Matrix.rows, Matrix.columns, hrrows, hrcols])]
  exact congrArg Effect.ofOption hloop

theorem Matrix_Transpose_returns (s : Store α) (final original : Ref)
    (hf : (s final).Valid) (ho : (s original).Valid) (hne : final ≠ original)
    (hrows : (s final).rows_ = (s original).columns_)
    (hcols : (s final).columns_ = (s original).rows_) :
    ∃ s', Matrix_Transpose s final original = Effect.returned s' ∧
      Store.FrameExcept final s s' ∧ (s' final).rows_ = (s final).rows_ ∧
      (s' final).columns_ = (s final).columns_ ∧ (s' final).Valid ∧
      ∀ i j, 0 ≤ i → i < (s original).rows_ → 0 ≤ j → j < (s original).columns_ →
        ∃ x, (s original).element i j = some x ∧ (s' final).element j i = some x := by
  obtain ⟨s', hloop, rest⟩ := Matrix_Transpose_loops s final original hf ho hne hrows hcols
  refine ⟨s', ?_, rest⟩
  unfold Matrix_Transpose
  rw [if_neg (by simp [Matrix.rows, Matrix.columns, hrows, hcols])]
  exact congrArg Effect.ofOption hloop

/-! ## Add and Subtract -/

/-- C7: for valid, equally shaped `A` and `B` over an additive group (exact arithmetic),
`Matrix_Add(S, A, B)` into a destination `S` distinct from both, followed by
`Matrix_Subtract(D, S, B)` into a destination `D` distinct from `S` and `B`, both return
normally and leave `D(i, j)` equal to the original `A(i, j)` for every element. -/
theorem Matrix_Subtract_Add_inverse [AddGroup α] (s : Store α) (A B S D : Ref)
    (hA : (s A).Valid) (hB : (s B).Valid) (hS : (s S).Valid) (hD : (s D).Valid)
    (hSA : S ≠ A) (hSB : S ≠ B) (hDS : D ≠ S) (hDB : D ≠ B)
    (hrows : (s A).rows = (s B).rows) (hcols : (s A).columns = (s B).columns)
    (hSrows : (s S).rows = (s A).rows) (hScols : (s S).columns = (s A).columns)
    (hDrows : (s D).rows = (s A).rows) (hDcols : (s D).columns = (s A).columns) :
    ∃ s1 s2, Matrix_Add s S A B = Effect.returned s1 ∧
      Matrix_Subtract s1 D S B = Effect.returned s2 ∧
      ∀ i j, 0 ≤ i → i < (s A).rows → 0 ≤ j → j < (s A).columns →
        ∃ x, (s A).element i j = some x ∧ (s2 D).element i j = some x := by
  simp only [Matrix.rows, Matrix.columns] at *
  obtain ⟨s1, e1, f1, r1, c1, v1, cells1⟩ :=
    Matrix_Add_returns s S A B hS hA hB hSA hSB hrows hcols hSrows hScols
  have hB1 : s1 B = s B := f1 B (Ne.symm hSB)
  have hD1 : s1 D = s D := f1 D hDS
  obtain ⟨s2, e2, _, _, _, _, cells2⟩ :=
    Matrix_Subtract_returns s1 D S B (by rw [hD1]; exact hD) v1 (by rw [hB1]; exact hB)
      hDS hDB (by rw [r1, hB1, hSrows, hrows]) (by rw [c1, hB1, hScols, hcols])
      (by rw [hD1, r1, hDrows, hSrows]) (by rw [hD1, c1, hDcols, hScols])
  refine ⟨s1, s2, e1, e2, ?_⟩
  intro i j hi0 hi hj0 hj
  obtain ⟨x, y, hx, hy, hxy⟩ := cells1 i j hi0 hi hj0 hj
  obtain ⟨x', y', hx', hy', hxy'⟩ := cells2 i j hi0 (by rw [r1, hSrows]; exact hi) hj0
    (by rw [c1, hScols]; exact hj)
  rw [hxy] at hx'
  rw [hB1, hy] at hy'
  cases hx'
  cases hy'
  exact ⟨x, hx, by rw [hxy', add_sub_cancel_right]⟩

/-- C7, at `A = [[1,2],[3,4]]`, `B = [[10,20],[30,40]]` with destinations at addresses 2
and 3. -/
theorem Matrix_Subtract_Add_inverse_witness :
    ∃ s1 s2, Matrix_Add exampleSum 2 0 1 = Effect.returned s1 ∧
      Matrix_Subtract s1 3 2 1 = Effect.returned s2 ∧
      ∀ i j, 0 ≤ i → i < (exampleSum 0).rows → 0 ≤ j → j < (exampleSum 0).columns →
        ∃ x, (exampleSum 0).element i j = some x ∧ (s2 3).element i j = some x :=
  Matrix_Subtract_Add_inverse exampleSum 0 1 2 3 (by decide) (by decide) (by decide)
    (by decide) (by decide) (by decide) (by decide) (by decide) (by decide) (by decide)
    (by decide) (by decide) (by decide) (by decide)

/-! ## Transpose -/

/-- C8: for a valid `src` (m×n) and a valid `dest` (n×m) that is a distinct object,
`Matrix_Transpose(dest, src)` returns normally with `dest(j, i) == src(i, j)` for every
`i < m`, `j < n` and `src` unchanged; and for any two objects it throws
`std::invalid_argument` exactly when `dest.rows() != src.columns()` or
`dest.columns() != src.rows()`. -/
theorem Matrix_Transpose_correct (s : Store α) (dest src : Ref) :
    ((s dest).Valid → (s src).Valid → dest ≠ src → (s dest).rows = (s src).columns →
      (s dest).columns = (s src).rows →
      ∃ s', Matrix_Transpose s dest src = Effect.returned s' ∧ s' src = s src ∧
        ∀ i j, 0 ≤ i → i < (s src).rows → 0 ≤ j → j < (s src).columns →
          ∃ x, (s src).element i j = some x ∧ (s' dest).element j i = some x) ∧
    ((∃ s', Matrix_Transpose s dest src = Effect.thrown Exn.invalid_argument s') ↔
      ((s dest).rows ≠ (s src).columns ∨ (s dest).columns ≠ (s src).rows)) := by
  refine ⟨?_, ?_, ?_⟩
  · intro hd hsrc hne hrows hcols
    obtain ⟨s', e, f, _, _, _, cells⟩ :=
      Matrix_Transpose_returns s dest src hd hsrc hne hrows hcols
    exact ⟨s', e, f src (Ne.symm hne), cells⟩
  · rintro ⟨s', h⟩
    by_contra hc
    unfold Matrix_Transpose at h
    rw [if_neg hc] at h
    exact Effect.ofOption_ne_thrown _ _ _ h
  · intro h
    refine ⟨s, ?_⟩
    unfold Matrix_Transpose
    rw [if_pos h]

/-- C8, at the 2×3 source `[[1,2,3],[4,5,6]]` and a 3×2 destination. -/
theorem Matrix_Transpose_correct_witness :
    ∃ s', Matrix_Transpose exampleProduct 2 1 = Effect.returned s' ∧
      s' 1 = exampleProduct 1 ∧
      ∀ i j, 0 ≤ i → i < (exampleProduct 1).rows → 0 ≤ j → j < (exampleProduct 1).columns →
        ∃ x, (exampleProduct 1).element i j = some x ∧ (s' 2).element j i = some x :=
  (Matrix_Transpose_correct exampleProduct 2 1).1 (by decide) (by decide) (by decide)
    (by decide) (by decide)

/-! ## Hadamard product -/

/-- C9: for valid, equally shaped `a` and `b` and a valid `result` of the same shape
distinct from both, `Matrix_Hadamard_Product` returns normally with
`result(i, j) == a(i, j) * b(i, j)` for every element; and for any three objects it throws
`std::invalid_argument` if and only if `result` is the same object as `a` or `b`, or `a` and
`b` differ in shape, or `result` differs in shape from `a`. -/
theorem Matrix_Hadamard_Product_correct [Mul α] (s : Store α) (result a b : Ref) :
    ((s result).Valid → (s a).Valid → (s b).Valid → result ≠ a → result ≠ b →
      (s a).rows = (s b).rows → (s a).columns = (s b).columns →
      (s result).rows = (s a).rows → (s result).columns = (s a).columns →
      ∃ s', Matrix_Hadamard_Product s result a b = Effect.returned s' ∧
        ∀ i j, 0 ≤ i → i < (s a).rows → 0 ≤ j → j < (s a).columns →
          ∃ x y, (s a).element i j = some x ∧ (s b).element i j = some y ∧
            (s' result).element i j = some (x * y)) ∧
    ((∃ s', Matrix_Hadamard_Product s result a b = Effect.thrown Exn.invalid_argument s') ↔
      (result = a ∨ result = b ∨ ((s a).rows ≠ (s b).rows ∨ (s a).columns ≠ (s b).columns) ∨
        ((s result).rows ≠ (s a).rows ∨ (s result).columns ≠ (s a).columns))) := by
  refine ⟨?_, ?_, ?_⟩
  · intro hr ha hb hne1 hne2 hrows hcols hrrows hrcols
    obtain ⟨s', e, _, _, _, _, cells⟩ :=
      Matrix_Hadamard_Product_returns s result a b hr ha hb hne1 hne2 hrows hcols hrrows hrcols
    exact ⟨s', e, cells⟩
  · rintro ⟨s', h⟩
    by_contra hc
    simp only [not_or] at hc
    obtain ⟨h1, h2, ⟨h3, h4⟩, h5, h6⟩ := hc
    unfold Matrix_Hadamard_Product at h
    rw [if_neg (by simp [h1, h2]), if_neg (by simp only [not_or]; exact ⟨h3, h4⟩),
      if_neg (by simp only [not_or]; exact ⟨h5, h6⟩)] at h
    exact Effect.ofOption_ne_thrown _ _ _ h
  · intro h
    refine ⟨s, ?_⟩
    unfold Matrix_Hadamard_Product
    by_cases h1 : result = a ∨ result = b
    · rw [if_pos h1]
    · rw [if_neg h1]
      by_cases h2 : (s a).rows ≠ (s b).rows ∨ (s a).columns ≠ (s b).columns
      · rw [if_pos h2]
      · rw [if_neg h2, if_pos]
        rcases h with h | h | h | h
        · exact absurd (Or.inl h) h1
        · exact absurd (Or.inr h) h1
        · exact absurd h h2
        · exact h

/-- C9, at `a = [[1,2],[3,4]]`, `b = [[10,20],[30,40]]` and a 2×2 destination. -/
theorem Matrix_Hadamard_Product_correct_witness :
    ∃ s', Matrix_Hadamard_Product exampleSum 2 0 1 = Effect.returned s' ∧
      ∀ i j, 0 ≤ i → i < (exampleSum 0).rows → 0 ≤ j → j < (exampleSum 0).columns →
        ∃ x y, (exampleSum 0).element i j = some x ∧ (exampleSum 1).element i j = some y ∧
          (s' 2).element i j = some (x * y) :=
  (Matrix_Hadamard_Product_correct exampleSum 2 0 1).1 (by decide) (by decide) (by decide)
    (by decide) (by decide) (by decide) (by decide) (by decide) (by decide)

/-! ## Broadcast -/

/-- C10: for a valid `src` (r×c), `newRows` a multiple of `r`, `newColumns` a multiple of
`c` and a valid `dest` of shape `newRows × newColumns` distinct from `src`,
`Matrix_Broadcast` returns normally with `dest(i, j) == src(i mod r, j mod c)` for every
element, `src` unchanged; broadcasting `[[1,2]]` to (2, 4) yields `[[1,2,1,2],[1,2,1,2]]`;
and for a valid `src` the call throws `std::invalid_argument` whenever `newRows` is not a
multiple of `r`, `newColumns` is not a multiple of `c`, or `dest` is not
`newRows × newColumns`. -/
theorem Matrix_Broadcast_correct (s : Store α) (dest src : Ref) (newRows newColumns : Int) :
    ((s dest).Valid → (s src).Valid → dest ≠ src → (s src).rows ∣ newRows →
      (s src).columns ∣ newColumns → (s dest).rows = newRows →
      (s dest).columns = newColumns →
      ∃ s', Matrix_Broadcast s dest src newRows newColumns = Effect.returned s' ∧
        s' src = s src ∧
        ∀ i j, 0 ≤ i → i < newRows → 0 ≤ j → j < newColumns →
          ∃ x, (s src).element (i % (s src).rows) (j % (s src).columns) = some x ∧
            (s' dest).element i j = some x) ∧
    (Matrix_Broadcast exampleBroadcast 0 1 2 4).object 0 =
      some { rows_ := 2, columns_ := 4, data_ := some [1, 2, 1, 2, 1, 2, 1, 2] } ∧
    ((s src).Valid →
      (¬ (s src).rows ∣ newRows ∨ ¬ (s src).columns ∣ newColumns ∨
        (s dest).rows ≠ newRows ∨ (s dest).columns ≠ newColumns) →
      ∃ s', Matrix_Broadcast s dest src newRows newColumns =
        Effect.thrown Exn.invalid_argument s') := by
  refine ⟨?_, by decide, ?_⟩
  · intro hd hsrc hne hdr hdc hrows hcols
    obtain ⟨s', hloop, f, _, _, _, cells⟩ :=
      Matrix_Broadcast_loops s dest src newRows newColumns hd hsrc hne hrows hcols
    refine ⟨s', ?_, f src (Ne.symm hne), cells⟩
    have hR : 0 < (s src).rows := by have := hsrc.1; unfold Matrix.rows; omega
    have hC : 0 < (s src).columns := by have := hsrc.2.1; unfold Matrix.columns; omega
    unfold Matrix_Broadcast
    rw [if_neg hne]
    simp only [remInt32_pos _ hR, remInt32_pos _ hC, Int.tmod_eq_zero_of_dvd hdr,
      Int.tmod_eq_zero_of_dvd hdc, ne_eq, not_true_eq_false, if_false]
    rw [if_neg (by simp [hrows, hcols])]
    exact congrArg Effect.ofOption hloop
  · intro hsrc h
    have hR : 0 < (s src).rows := by have := hsrc.1; unfold Matrix.rows; omega
    have hC : 0 < (s src).columns := by have := hsrc.2.1; unfold Matrix.columns; omega
    refine ⟨s, ?_⟩
    unfold Matrix_Broadcast
    by_cases h0 : dest = src
    · rw [if_pos h0]
    · rw [if_neg h0]
      simp only [remInt32_pos _ hR, remInt32_pos _ hC]
      by_cases h1 : Int.tmod newRows (s src).rows ≠ 0
      · rw [if_pos h1]
      · rw [if_neg h1]
        by_cases h2 : Int.tmod newColumns (s src).columns ≠ 0
        · rw [if_pos h2]
        · rw [if_neg h2, if_pos]
          rcases h with h | h | h | h
          · exact absurd (Int.dvd_of_tmod_eq_zero (not_not.mp h1)) h
          · exact absurd (Int.dvd_of_tmod_eq_zero (not_not.mp h2)) h
          · exact Or.inl h
          · exact Or.inr h

/-- C10, at `src = [[1,2]]`, `newRows = 2`, `newColumns = 4`, and at a destination of the
wrong shape. -/
theorem Matrix_Broadcast_correct_witness :
    (∃ s', Matrix_Broadcast exampleBroadcast 0 1 2 4 = Effect.returned s' ∧
      s' 1 = exampleBroadcast 1 ∧
      ∀ i j, 0 ≤ i → i < 2 → 0 ≤ j → j < 4 →
        ∃ x, (exampleBroadcast 1).element (i % (exampleBroadcast 1).rows)
            (j % (exampleBroadcast 1).columns) = some x ∧
          (s' 0).element i j = some x) ∧
    ∃ s', Matrix_Broadcast exampleBroadcast 0 1 3 4 = Effect.thrown Exn.invalid_argument s' :=
  ⟨(Matrix_Broadcast_correct exampleBroadcast 0 1 2 4).1 (by decide) (by decide) (by decide)
      (by decide) (by decide) (by decide) (by decide),
    (Matrix_Broadcast_correct exampleBroadcast 0 1 3 4).2.2 (by decide)
      (Or.inr (Or.inr (Or.inl (by decide))))⟩

/-! ## Transpose of a product -/

/-- C6: for valid `A` (m×n) and `B` (n×p) and valid, correctly sized, pairwise distinct
destinations, the calls `Matrix_Multiply(P, A, B)`, `Matrix_Transpose(PT, P)`,
`Matrix_Transpose(BT, B)`, `Matrix_Transpose(AT, A)` and `Matrix_Multiply(Q, BT, AT)` all
return normally, and `PT` (the transpose of the product) and `Q` (the product of the
transposes) have the same p×m shape and the same element at every position.  Only
commutativity of the element multiplication is used: both sides add the same terms in the
same order. -/
theorem Matrix_Transpose_Multiply [Zero α] [Add α] [CommMagma α] (s : Store α)
    (A B P PT BT AT Q : Ref) (hnd : [A, B, P, PT, BT, AT, Q].Nodup)
    (hA : (s A).Valid) (hB : (s B).Valid) (hP : (s P).Valid) (hPT : (s PT).Valid)
    (hBT : (s BT).Valid) (hAT : (s AT).Valid) (hQ : (s Q).Valid)
    (hAB : (s A).columns = (s B).rows)
    (hP1 : (s P).rows = (s A).rows) (hP2 : (s P).columns = (s B).columns)
    (hPT1 : (s PT).rows = (s B).columns) (hPT2 : (s PT).columns = (s A).rows)
    (hBT1 : (s BT).rows = (s B).columns) (hBT2 : (s BT).columns = (s B).rows)
    (hAT1 : (s AT).rows = (s A).columns) (hAT2 : (s AT).columns = (s A).rows)
    (hQ1 : (s Q).rows = (s B).columns) (hQ2 : (s Q).columns = (s A).rows) :
    ∃ s1 s2 s3 s4 s5,
      Matrix_Multiply s P A B = Effect.returned s1 ∧
      Matrix_Transpose s1 PT P = Effect.returned s2 ∧
      Matrix_Transpose s2 BT B = Effect.returned s3 ∧
      Matrix_Transpose s3 AT A = Effect.returned s4 ∧
      Matrix_Multiply s4 Q BT AT = Effect.returned s5 ∧
      (s5 PT).rows = (s5 Q).rows ∧ (s5 PT).columns = (s5 Q).columns ∧
      ∀ i j, 0 ≤ i → i < (s B).columns → 0 ≤ j → j < (s A).rows →
        ∃ x, (s5 PT).element i j = some x ∧ (s5 Q).element i j = some x := by
  simp only [Matrix.rows, Matrix.columns] at *
  simp only [List.nodup_cons, List.mem_cons, List.mem_singleton, not_or, List.nodup_nil,
    List.not_mem_nil, not_false_eq_true, and_true] at hnd
  obtain ⟨⟨_, nAP, nAPT, nABT, nAAT, nAQ⟩, ⟨nBP, nBPT, nBBT, nBAT, nBQ⟩,
    ⟨nPPT, nPBT, nPAT, nPQ⟩, ⟨nPTBT, nPTAT, nPTQ⟩, ⟨nBTAT, nBTQ⟩, nATQ⟩ := hnd
  -- P = A * B
  obtain ⟨s1, e1, f1, r1, c1, v1, cells1⟩ := Matrix_Multiply_returns s P A B hP hA hB
    (Ne.symm nAP) (Ne.symm nBP) hAB hP1 hP2
  -- PT = transpose P
  obtain ⟨s2, e2, f2, r2, c2, v2, cells2⟩ := Matrix_Transpose_returns s1 PT P
    (by rw [f1 PT (Ne.symm nPPT)]; exact hPT) v1 (Ne.symm nPPT)
    (by rw [f1 PT (Ne.symm nPPT), c1, hPT1, hP2])
    (by rw [f1 PT (Ne.symm nPPT), r1, hPT2, hP1])
  -- BT = transpose B
  have hB2 : s2 B = s B := by rw [f2 B nBPT, f1 B nBP]
  have hBT2' : s2 BT = s BT := by rw [f2 BT (Ne.symm nPTBT), f1 BT (Ne.symm nPBT)]
  obtain ⟨s3, e3, f3, r3, c3, v3, cells3⟩ := Matrix_Transpose_returns s2 BT B
    (by rw [hBT2']; exact hBT) (by rw [hB2]; exact hB) (Ne.symm nBBT)
    (by rw [hBT2', hB2]; exact hBT1) (by rw [hBT2', hB2]; exact hBT2)
  -- AT = transpose A
  have hA3 : s3 A = s A := by rw [f3 A nABT, f2 A nAPT, f1 A nAP]
  have hAT3 : s3 AT = s AT := by
    rw [f3 AT (Ne.symm nBTAT), f2 AT (Ne.symm nPTAT), f1 AT (Ne.symm nPAT)]
  obtain ⟨s4, e4, f4, r4, c4, v4, cells4⟩ := Matrix_Transpose_returns s3 AT A
    (by rw [hAT3]; exact hAT) (by rw [hA3]; exact hA) (Ne.symm nAAT)
    (by rw [hAT3, hA3]; exact hAT1) (by rw [hAT3, hA3]; exact hAT2)
  -- Q = BT * AT
  have hQ4 : s4 Q = s Q := by
    rw [f4 Q (Ne.symm nATQ), f3 Q (Ne.symm nBTQ), f2 Q (Ne.symm nPTQ), f1 Q (Ne.symm nPQ)]
  have hBT4 : s4 BT = s3 BT := f4 BT nBTAT
  have hBT4r : (s4 BT).rows_ = (s B).columns_ := by rw [hBT4, r3, hBT2', hBT1]
  have hBT4c : (s4 BT).columns_ = (s B).rows_ := by rw [hBT4, c3, hBT2', hBT2]
  have hAT4r : (s4 AT).rows_ = (s A).columns_ := by rw [r4, hAT3, hAT1]
  have hAT4c : (s4 AT).columns_ = (s A).rows_ := by rw [c4, hAT3, hAT2]
  obtain ⟨s5, e5, f5, r5, c5, v5, cells5⟩ := Matrix_Multiply_returns s4 Q BT AT
    (by rw [hQ4]; exact hQ) (by rw [hBT4]; exact v3) v4 (Ne.symm nBTQ) (Ne.symm nATQ)
    (by rw [hBT4c, hAT4r, hAB]) (by rw [hQ4, hBT4r, hQ1]) (by rw [hQ4, hAT4c, hQ2])
  have hPT5 : s5 PT = s2 PT := by rw [f5 PT nPTQ, f4 PT nPTAT, f3 PT nPTBT]
  refine ⟨s1, s2, s3, s4, s5, e1, e2, e3, e4, e5, ?_, ?_, ?_⟩
  · rw [hPT5, r2, f1 PT (Ne.symm nPPT), r5, hQ4, hPT1, hQ1]
  · rw [hPT5, c2, f1 PT (Ne.symm nPPT), c5, hQ4, hPT2, hQ2]
  · intro i j hi0 hi hj0 hj
    -- the cell of PT
    obtain ⟨x, hx, hxT⟩ := cells2 j i hj0 (by rw [r1, hP1]; exact hj) hi0
      (by rw [c1, hP2]; exact hi)
    rw [cells1 j i hj0 hj hi0 hi] at hx
    refine ⟨x, by rw [hPT5]; exact hxT, ?_⟩
    -- the cell of Q
    rw [cells5 i j hi0 (by rw [hBT4r]; exact hi) hj0 (by rw [hAT4c]; exact hj), hBT4c, ← hAB]
    rw [← Option.some.inj hx]
    refine congrArg some (accumulate_congr _ _ _ ?_)
    intro k hk0 hk1
    obtain ⟨b, hb, hbT⟩ := cells3 k i hk0 (by rw [hB2, ← hAB]; exact hk1) hi0
      (by rw [hB2]; exact hi)
    obtain ⟨a, ha, haT⟩ := cells4 j k hj0 (by rw [hA3]; exact hj) hk0
      (by rw [hA3]; exact hk1)
    rw [hB2] at hb
    rw [hA3] at ha
    rw [hBT4, Matrix.entry_of_element hbT, Matrix.entry_of_element haT,
      Matrix.entry_of_element hb, Matrix.entry_of_element ha, mul_comm]

/-- C6, at `A = [[1,2,3],[4,5,6]]` and `B = [[1],[0],[2]]`. -/
theorem Matrix_Transpose_Multiply_witness :
    ∃ s1 s2 s3 s4 s5,
      Matrix_Multiply exampleChain 2 0 1 = Effect.returned s1 ∧
      Matrix_Transpose s1 3 2 = Effect.returned s2 ∧
      Matrix_Transpose s2 4 1 = Effect.returned s3 ∧
      Matrix_Transpose s3 5 0 = Effect.returned s4 ∧
      Matrix_Multiply s4 6 4 5 = Effect.returned s5 ∧
      (s5 3).rows = (s5 6).rows ∧ (s5 3).columns = (s5 6).columns ∧
      ∀ i j, 0 ≤ i → i < (exampleChain 1).columns → 0 ≤ j → j < (exampleChain 0).rows →
        ∃ x, (s5 3).element i j = some x ∧ (s5 6).element i j = some x :=
  Matrix_Transpose_Multiply exampleChain 0 1 2 3 4 5 6 (by decide) (by decide) (by decide)
    (by decide) (by decide) (by decide) (by decide) (by decide) (by decide) (by decide)
    (by decide) (by decide) (by decide) (by decide) (by decide) (by decide) (by decide)
    (by decide) (by decide)

/-! ## Loop nests over an arbitrary state -/

theorem NestInv.weaken {σ : Type} {obj : σ → Matrix α} {Fr : σ → Prop} {s : σ}
    {pr pc : Int → Int → Int} {v : Int → Int → α} {P Q : Int → Int → Prop} {st : σ}
    (h : NestInv obj Fr s pr pc v P st) (hQ : ∀ i j, Q i j → P i j) :
    NestInv obj Fr s pr pc v Q st := by
  obtain ⟨a, b, c, d, e⟩ := h
  exact ⟨a, b, c, d, fun i j hq => e i j (hQ i j hq)⟩

theorem NestInv.extend {σ : Type} {obj : σ → Matrix α} {asg : σ → Int → Int → α → Option σ}
    {Fr : σ → Prop} (hasg : AssignSpec obj asg Fr) {s : σ} {pr pc : Int → Int → Int}
    {v : Int → Int → α} {P : Int → Int → Prop} {st : σ} (h : NestInv obj Fr s pr pc v P st)
    (i j : Int)
    (hin : 0 ≤ pr i j ∧ pr i j < (obj s).rows_ ∧ 0 ≤ pc i j ∧ pc i j < (obj s).columns_)
    (hP : ∀ i' j', P i' j' →
      (0 ≤ pr i' j' ∧ pr i' j' < (obj s).rows_ ∧ 0 ≤ pc i' j' ∧
        pc i' j' < (obj s).columns_) ∧ (pr i' j' ≠ pr i j ∨ pc i' j' ≠ pc i j)) :
    ∃ st', asg st (pr i j) (pc i j) (v i j) = some st' ∧
      NestInv obj Fr s pr pc v (fun i' j' => P i' j' ∨ (i' = i ∧ j' = j)) st' := by
  obtain ⟨hf, hr, hc, hv, hcells⟩ := h
  obtain ⟨h1, h2, h3, h4⟩ := hin
  obtain ⟨st', e, f1, f2, f3, f4, f5, f6⟩ :=
    hasg st (pr i j) (pc i j) (v i j) hf hv h1 (by rw [hr]; exact h2) h3 (by rw [hc]; exact h4)
  refine ⟨st', e, f1, by rw [f2, hr], by rw [f3, hc], f4, ?_⟩
  intro i' j' hp
  rcases hp with hp | ⟨rfl, rfl⟩
  · obtain ⟨⟨g1, g2, g3, g4⟩, hne⟩ := hP i' j' hp
    rw [f6 _ _ g1 (by rw [hr]; exact g2) g3 (by rw [hc]; exact g4) hne]
    exact hcells i' j' hp
  · exact f5

/-- The inner loop of a nest: with the rows before `a` done, `for j < C` stores row `a`. -/
theorem fill_row {σ : Type} {obj : σ → Matrix α} {asg : σ → Int → Int → α → Option σ}
    {Fr : σ → Prop} (hasg : AssignSpec obj asg Fr) (s : σ) (R C : Int)
    (body : Int → Int → σ → Option σ) (pr pc : Int → Int → Int) (v : Int → Int → α)
    (hbody : ∀ st i j, Fr st → (obj st).rows_ = (obj s).rows_ →
      (obj st).columns_ = (obj s).columns_ → 0 ≤ i → i < R → 0 ≤ j → j < C →
      body i j st = asg st (pr i j) (pc i j) (v i j))
    (hpos : ∀ i j, 0 ≤ i → i < R → 0 ≤ j → j < C →
      0 ≤ pr i j ∧ pr i j < (obj s).rows_ ∧ 0 ≤ pc i j ∧ pc i j < (obj s).columns_)
    (hinj : ∀ i j i' j', 0 ≤ i → i < R → 0 ≤ j → j < C → 0 ≤ i' → i' < R → 0 ≤ j' → j' < C →
      (i' ≠ i ∨ j' ≠ j) → (pr i' j' ≠ pr i j ∨ pc i' j' ≠ pc i j))
    (a : Nat) (ha : (a : Int) < R) (st : σ)
    (hI : NestInv obj Fr s pr pc v (fun i' j' => 0 ≤ i' ∧ i' < (a : Int) ∧ 0 ≤ j' ∧ j' < C) st) :
    ∃ st', forLoop C (fun j st' => body (a : Int) j st') st = some st' ∧
      NestInv obj Fr s pr pc v
        (fun i' j' => 0 ≤ i' ∧ i' < ((a + 1 : Nat) : Int) ∧ 0 ≤ j' ∧ j' < C) st' := by
  have hi0 : (0 : Int) ≤ (a : Int) := Int.ofNat_nonneg a
  obtain ⟨st', hst', hI'⟩ := forLoop_inv C (fun j st' => body (a : Int) j st')
    (fun b st' => NestInv obj Fr s pr pc v
      (fun i' j' => (0 ≤ i' ∧ i' < (a : Int) ∧ 0 ≤ j' ∧ j' < C) ∨
        (i' = (a : Int) ∧ 0 ≤ j' ∧ j' < (b : Int))) st') st
    (hI.weaken (fun i j h => by omega))
    (by
      intro b st' hb hJ
      have hj0 : (0 : Int) ≤ (b : Int) := Int.ofNat_nonneg b
      show ∃ st'', body (a : Int) (b : Int) st' = some st'' ∧
        NestInv obj Fr s pr pc v
          (fun i' j' => (0 ≤ i' ∧ i' < (a : Int) ∧ 0 ≤ j' ∧ j' < C) ∨
            (i' = (a : Int) ∧ 0 ≤ j' ∧ j' < ((b + 1 : Nat) : Int))) st''
      rw [hbody st' a b hJ.1 hJ.2.1 hJ.2.2.1 hi0 ha hj0 hb]
      obtain ⟨st'', e, hJ'⟩ := hJ.extend hasg (a : Int) (b : Int) (hpos a b hi0 ha hj0 hb)
        (by
          intro i' j' hp
          rcases hp with ⟨p1, p2, p3, p4⟩ | ⟨p1, p2, p3⟩
          · exact ⟨hpos i' j' p1 (by omega) p3 p4,
              hinj a b i' j' hi0 ha hj0 hb p1 (by omega) p3 p4 (Or.inl (by omega))⟩
          · exact ⟨hpos i' j' (by omega) (by omega) p2 (by omega),
              hinj a b i' j' hi0 ha hj0 hb (by omega) (by omega) p2 (by omega)
                (Or.inr (by omega))⟩)
      refine ⟨st'', e, hJ'.weaken ?_⟩
      intro i j h
      push_cast at h
      by_cases hij : i = (a : Int) ∧ j = (b : Int)
      · exact Or.inr hij
      · left
        omega)
  refine ⟨st', hst', hI'.weaken ?_⟩
  intro i j h
  push_cast at h
  by_cases hia : i = (a : Int)
  · right
    omega
  · left
    omega

/-- A nest `for i < R: outer i` whose iteration `i` amounts to `for j < C:` store `v i j` at
`(pr i j, pc i j)`: it runs to completion, keeps `Fr`, the shape and the invariant, and
leaves `v i j` at `(pr i j, pc i j)` for every `i < R`, `j < C`. -/
theorem fill_nest {σ : Type} {obj : σ → Matrix α} {asg : σ → Int → Int → α → Option σ}
    {Fr : σ → Prop} (hasg : AssignSpec obj asg Fr) (s : σ) (R C : Int)
    (outer : Int → σ → Option σ) (body : Int → Int → σ → Option σ)
    (pr pc : Int → Int → Int) (v : Int → Int → α) (hFr : Fr s) (hv : (obj s).Valid)
    (houter : ∀ st i, Fr st → (obj st).rows_ = (obj s).rows_ →
      (obj st).columns_ = (obj s).columns_ → 0 ≤ i → i < R →
      outer i st = forLoop C (fun j st' => body i j st') st)
    (hbody : ∀ st i j, Fr st → (obj st).rows_ = (obj s).rows_ →
      (obj st).columns_ = (obj s).columns_ → 0 ≤ i → i < R → 0 ≤ j → j < C →
      body i j st = asg st (pr i j) (pc i j) (v i j))
    (hpos : ∀ i j, 0 ≤ i → i < R → 0 ≤ j → j < C →
      0 ≤ pr i j ∧ pr i j < (obj s).rows_ ∧ 0 ≤ pc i j ∧ pc i j < (obj s).columns_)
    (hinj : ∀ i j i' j', 0 ≤ i → i < R → 0 ≤ j → j < C → 0 ≤ i' → i' < R → 0 ≤ j' → j' < C →
      (i' ≠ i ∨ j' ≠ j) → (pr i' j' ≠ pr i j ∨ pc i' j' ≠ pc i j)) :
    ∃ s', forLoop R outer s = some s' ∧ Fr s' ∧ (obj s').rows_ = (obj s).rows_ ∧
      (obj s').columns_ = (obj s).columns_ ∧ (obj s').Valid ∧
      ∀ i j, 0 ≤ i → i < R → 0 ≤ j → j < C →
        (obj s').element (pr i j) (pc i j) = some (v i j) := by
  obtain ⟨s', hs', hI⟩ := forLoop_inv R outer
    (fun a st => NestInv obj Fr s pr pc v
      (fun i' j' => 0 ≤ i' ∧ i' < (a : Int) ∧ 0 ≤ j' ∧ j' < C) st) s
    ⟨hFr, rfl, rfl, hv, fun i j h => by omega⟩
    (by
      intro a st ha hI
      rw [houter st a hI.1 hI.2.1 hI.2.2.1 (Int.ofNat_nonneg a) ha]
      exact fill_row hasg s R C body pr pc v hbody hpos hinj a ha st hI)
  refine ⟨s', hs', hI.1, hI.2.1, hI.2.2.1, hI.2.2.2.1, ?_⟩
  intro i j h1 h2 h3 h4
  exact hI.2.2.2.2 i j (by omega)

/-- Assignments through a reference meet `AssignSpec`, the rest of the store being the
frame. -/
theorem Store.assign_AssignSpec (s : Store α) (r : Ref) :
    AssignSpec (fun st : Store α => st r) (fun st row column v => st.assign r row column v)
      (Store.FrameExcept r s) := by
  intro st row column v hfr hv h1 h2 h3 h4
  obtain ⟨st', e, f1, f2, f3, f4, f5, f6⟩ := Store.assign_spec hv h1 h2 h3 h4 v
  refine ⟨st', e, ?_, f2, f3, f4, f5, f6⟩
  intro q hq
  rw [f1 q hq, hfr q hq]

/-- Assignments to a local matrix meet `AssignSpec`. -/
theorem Matrix.element_assign_AssignSpec :
    AssignSpec (fun m : Matrix α => m) (fun m row column v => m.element_assign row column v)
      (fun _ => True) := by
  intro m row column v _ hv h1 h2 h3 h4
  obtain ⟨m', e, f2, f3, f4, f5, f6⟩ := Matrix.element_assign_spec hv h1 h2 h3 h4 v
  exact ⟨m', e, trivial, f2, f3, f4, f5, f6⟩

/-! ## Matrix_Sum_Columns -/

/-- The nest of `Matrix_Sum_Columns` on a valid source and a distinct valid destination
with as many columns. -/
theorem Matrix_Sum_Columns_loops [Zero α] [Add α] (s : Store α) (dest src : Ref)
    (hd : (s dest).Valid) (hs : (s src).Valid) (hne : dest ≠ src)
    (hcols : (s dest).columns_ = (s src).columns_) :
    ∃ s', forLoop (s src).columns (fun col st =>
        match forLoop (st src).rows (fun row column_sum =>
            match (st src).element row col with
            | some a => some (column_sum + a)
            | none => none) (0 : α) with
        | none => none
        | some column_sum =>
          forLoop (st dest).rows (fun row st => st.assign dest row col column_sum) st) s =
          some s' ∧
      Store.FrameExcept dest s s' ∧ (s' dest).rows_ = (s dest).rows_ ∧
      (s' dest).columns_ = (s dest).columns_ ∧ (s' dest).Valid ∧
      ∀ c r, 0 ≤ c → c < (s src).columns_ → 0 ≤ r → r < (s dest).rows_ →
        (s' dest).element r c =
          some (accumulate (s src).rows_ (fun row => (s src).entry row c)) := by
  refine fill_nest (Store.assign_AssignSpec s dest) s (s src).columns (s dest).rows_ _
    (fun i j st' => st'.assign dest j i
      (accumulate (s src).rows_ (fun row => (s src).entry row i)))
    (fun _ j => j) (fun i _ => i)
    (fun i _ => accumulate (s src).rows_ (fun row => (s src).entry row i))
    (fun _ _ => rfl) hd ?_ ?_ ?_ ?_
  · intro st i hfr hr _ hi0 hi
    simp only [Matrix.rows, Matrix.columns] at hi ⊢
    rw [hfr src (Ne.symm hne), sum_loop (s src).rows_ _ (fun row => (s src).entry row i)]
    · show forLoop (st dest).rows_ _ st = _
      rw [hr]
    · intro k acc hk0 hk
      rw [Matrix.element_eq_entry hs hk0 hk hi0 hi]
  · intro st i j _ _ _ _ _ _ _
    rfl
  · intro i j hi0 hi hj0 hj
    simp only [Matrix.columns] at hi
    exact ⟨hj0, hj, hi0, by rw [hcols]; exact hi⟩
  · intro i j i' j' _ _ _ _ _ _ _ _ h
    exact h.symm

/-- C11: for a valid `src` (m×n) and a valid `dest` with `n` columns and any number `d` of
rows, distinct from `src`, `Matrix_Sum_Columns(dest, src)` returns normally with
`dest(r, c)` equal to the sum over `row < m` of `src(row, c)`, the terms added to `0` in
increasing `row` with the addition of the element type (of which nothing else is assumed, so
the statement holds for `float`), for every `r < d`, `c < n`, and `src` unchanged;
`[[1,2],[3,4]]` into a 3×2 destination yields every row equal to `[4, 6]`; and the call
throws `std::invalid_argument` when `dest.columns() != src.columns()`.  Where the addition is
associative and commutative with neutral `0`, the accumulated value is the sum `∑ row < m`. -/
theorem Matrix_Sum_Columns_correct [Zero α] [Add α] (s : Store α) (dest src : Ref) :
    ((s dest).Valid → (s src).Valid → dest ≠ src → (s dest).columns = (s src).columns →
      ∃ s', Matrix_Sum_Columns s dest src = Effect.returned s' ∧ s' src = s src ∧
        ∀ r c, 0 ≤ r → r < (s dest).rows → 0 ≤ c → c < (s src).columns →
          (s' dest).element r c =
            some (accumulate (s src).rows (fun row => (s src).entry row c))) ∧
    (Matrix_Sum_Columns exampleColumns 0 1).object 0 =
      some { rows_ := 3, columns_ := 2, data_ := some [4, 6, 4, 6, 4, 6] } ∧
    ((s dest).columns ≠ (s src).columns →
      ∃ s', Matrix_Sum_Columns s dest src = Effect.thrown Exn.invalid_argument s') ∧
    (∀ (β : Type) [AddCommMonoid β] (n : Int) (f : Int → β),
      accumulate n f = ∑ k in Finset.range n.toNat, f (k : Int)) := by
  refine ⟨?_, by decide, ?_, fun β _ n f => @accumulate_eq_sum β _ n f⟩
  · intro hd hs hne hcols
    obtain ⟨s', hloop, f, _, _, _, cells⟩ := Matrix_Sum_Columns_loops s dest src hd hs hne hcols
    refine ⟨s', ?_, f src (Ne.symm hne), ?_⟩
    · unfold Matrix_Sum_Columns
      rw [if_neg hne, if_neg (not_not.mpr hcols)]
      exact congrArg Effect.ofOption hloop
    · intro r c hr0 hr hc0 hc
      exact cells c r hc0 hc hr0 hr
  · intro hcols
    refine ⟨s, ?_⟩
    have hne : dest ≠ src := by
      rintro rfl
      exact hcols rfl
    unfold Matrix_Sum_Columns
    rw [if_neg hne, if_pos hcols]

/-- C11, at `src = [[1,2],[3,4]]` and a 3×2 destination. -/
theorem Matrix_Sum_Columns_correct_witness :
    ∃ s', Matrix_Sum_Columns exampleColumns 0 1 = Effect.returned s' ∧
      s' 1 = exampleColumns 1 ∧
      ∀ r c, 0 ≤ r → r < (exampleColumns 0).rows → 0 ≤ c → c < (exampleColumns 1).columns →
        (s' 0).element r c =
          some (accumulate (exampleColumns 1).rows (fun row => (exampleColumns 1).entry row c)) :=
  (Matrix_Sum_Columns_correct exampleColumns 0 1).1 (by decide) (by decide) (by decide)
    (by decide)

/-! ## Matrix_Sum_All_Elements -/

/-- A loop whose iteration `k` maps the accumulator `acc` to `g acc k` is defined and ends
with the left fold of `g`. -/
theorem fold_loop {β : Type} (n : Int) (body : Int → β → Option β) (g : β → Nat → β) (a0 : β)
    (hbody : ∀ (k : Nat) acc, (k : Int) < n → body (k : Int) acc = some (g acc k)) :
    forLoop n body a0 = some (List.foldl g a0 (List.range n.toNat)) := by
  obtain ⟨r, hr, hI⟩ := forLoop_inv n body
    (fun m acc => acc = List.foldl g a0 (List.range m)) a0 rfl
    (by
      intro k acc hk hacc
      refine ⟨g acc k, hbody k acc hk, ?_⟩
      show g acc k = List.foldl g a0 (List.range (k + 1))
      rw [List.range_succ, List.foldl_append, ← hacc]
      rfl)
  rw [hr, hI]

/-- In a commutative monoid the row-major accumulation is the double sum. -/
theorem rowMajorSum_eq_sum [AddCommMonoid α] (R C : Int) (f : Int → Int → α) :
    rowMajorSum R C f =
      ∑ i in Finset.range R.toNat, ∑ j in Finset.range C.toNat, f (i : Int) (j : Int) := by
  unfold rowMajorSum
  have inner : ∀ (a : α) (i : Nat) (m : Nat),
      List.foldl (fun (acc : α) (j : Nat) => acc + f (i : Int) (j : Int)) a (List.range m) =
        a + ∑ j in Finset.range m, f (i : Int) (j : Int) := by
    intro a i m
    induction m with
    | zero => simp
    | succ m ih =>
      rw [List.range_succ, List.foldl_append, ih, Finset.sum_range_succ, ← add_assoc]
      rfl
  induction R.toNat with
  | zero => rfl
  | succ m ih =>
    rw [List.range_succ, List.foldl_append, ih, Finset.sum_range_succ]
    simp only [List.foldl_cons, List.foldl_nil]
    rw [inner]

/-- The nest of `Matrix_Sum_All_Elements` on a valid matrix. -/
theorem Matrix_Sum_All_Elements_eq [Zero α] [Add α] (m : Matrix α) (hv : m.Valid) :
    Matrix_Sum_All_Elements m =
      Outcome.ok (rowMajorSum m.rows_ m.columns_ (fun i j => m.entry i j)) := by
  unfold Matrix_Sum_All_Elements
  rw [fold_loop m.rows _
    (fun (acc : α) (i : Nat) =>
      List.foldl (fun (acc : α) (j : Nat) => acc + m.entry (i : Int) (j : Int)) acc
        (List.range m.columns_.toNat)) 0]
  · rfl
  · intro i acc hi
    show forLoop m.columns _ acc = _
    rw [fold_loop m.columns _
      (fun (acc : α) (j : Nat) => acc + m.entry (i : Int) (j : Int)) acc]
    · rfl
    · intro j acc' hj
      rw [Matrix.element_eq_entry hv (Int.ofNat_nonneg i) hi (Int.ofNat_nonneg j) hj]

/-- C14: for every valid matrix `M`, `Matrix_Sum_All_Elements(M)` returns the sum of
`M(i, j)` over all `i < rows`, `j < columns`, accumulated from `0` in row-major order with the
addition of the element type (of which nothing else is assumed, so the statement holds for
`float`); the parameter is a `const` reference and the function is a function of `M` alone,
so `M` is unchanged; on a 2×2 matrix filled with 3 it returns 12. -/
theorem Matrix_Sum_All_Elements_correct [Zero α] [Add α] (M : Matrix α) (hv : M.Valid) :
    Matrix_Sum_All_Elements M =
        Outcome.ok (rowMajorSum M.rows M.columns (fun i j => M.entry i j)) ∧
      ∃ m3 : Matrix Int, Matrix.create_value 2 2 3 = Outcome.ok m3 ∧
        Matrix_Sum_All_Elements m3 = Outcome.ok 12 := by
  refine ⟨Matrix_Sum_All_Elements_eq M hv, ?_⟩
  exact ⟨{ rows_ := 2, columns_ := 2, data_ := some [3, 3, 3, 3] }, by decide, by decide⟩

/-- C14, at `[[1,2],[3,4]]`. -/
theorem Matrix_Sum_All_Elements_correct_witness :
    Matrix_Sum_All_Elements (exampleSum 0) =
        Outcome.ok (rowMajorSum (exampleSum 0).rows (exampleSum 0).columns
          (fun i j => (exampleSum 0).entry i j)) ∧
      ∃ m3 : Matrix Int, Matrix.create_value 2 2 3 = Outcome.ok m3 ∧
        Matrix_Sum_All_Elements m3 = Outcome.ok 12 :=
  Matrix_Sum_All_Elements_correct (exampleSum 0) (by decide)

/-! ## Matrix_Data_Preprocessor -/

theorem forLoopCond_go_eq {σ : Type} (cond : Int → Bool) (body : Int → σ → Option σ) :
    ∀ (fuel i : Nat) (s : σ), (∀ k : Nat, i ≤ k → k < i + fuel → cond (k : Int) = true) →
      forLoopCond.go cond body fuel i s =
        List.foldlM (fun (st : σ) (k : Nat) => body (k : Int) st) s (List.range' i fuel)
  | 0, _, _, _ => rfl
  | fuel + 1, i, s, h => by
    rw [forLoopCond.go, if_pos (h i le_rfl (by omega)), List.range'_succ, List.foldlM_cons]
    cases hb : body (i : Int) s with
    | none => rfl
    | some s' =>
      show forLoopCond.go cond body fuel (i + 1) s' = _
      rw [forLoopCond_go_eq cond body fuel (i + 1) s' (fun k h1 h2 => h k (by omega) (by omega))]
      rfl

/-- A loop whose extra condition holds at every `i < n` is the plain counting loop. -/
theorem forLoopCond_eq_forLoop {σ : Type} (n : Int) (cond : Int → Bool)
    (body : Int → σ → Option σ) (s : σ)
    (h : ∀ i : Int, 0 ≤ i → i < n → cond i = true) :
    forLoopCond n cond body s = forLoop n body s := by
  unfold forLoopCond forLoop
  rw [List.range_eq_range']
  exact forLoopCond_go_eq cond body n.toNat 0 s
    (fun k _ hk => h k (Int.ofNat_nonneg k) (by omega))

theorem vectorAt_eq {β : Type} (v : List β) {i : Int} (h0 : 0 ≤ i) (h1 : i ≤ 2147483647) :
    vectorAt v i = v[i.toNat]? := by
  unfold vectorAt
  rw [toSizeT_eq h0 h1]

/-- The extraction loops of `Matrix_Data_Preprocessor` on a rectangular source that contains
the window, writing into a valid `desiredRows × desiredColumns` matrix. -/
theorem Matrix_Data_Preprocessor_loops (desiredRows desiredColumns stride step : Int)
    (data : List (List α)) (totalColumns : Nat) (zero : α) (result : Matrix α)
    (hrect : ∀ row ∈ data, row.length = totalColumns)
    (hR : (data.length : Int) ≤ INT_MAX) (hC : (totalColumns : Int) ≤ INT_MAX)
    (hstep : 0 ≤ step) (hstride : 0 ≤ stride)
    (hrows : desiredRows + step ≤ data.length)
    (hcols : desiredColumns + stride ≤ totalColumns)
    (hv : result.Valid) (hr : result.rows_ = desiredRows)
    (hc : result.columns_ = desiredColumns) :
    ∃ m, forLoopCond desiredRows (fun i => decide (addInt32 i step < (data.length : Int)))
        (fun i result =>
          forLoopFrom stride (desiredColumns + stride) (fun j result =>
            if j < (totalColumns : Int) then
              match vectorAt data (addInt32 i step) with
              | none => none
              | some row =>
                match vectorAt row j with
                | none => none
                | some x => result.element_assign i (subInt32 j stride) x
            else result.element_assign i (subInt32 j stride) zero) result) result = some m ∧
      m.rows_ = desiredRows ∧ m.columns_ = desiredColumns ∧ m.Valid ∧
      ∀ i j, 0 ≤ i → i < desiredRows → 0 ≤ j → j < desiredColumns →
        ∃ row x, data[(i + step).toNat]? = some row ∧ row[(j + stride).toNat]? = some x ∧
          m.element i j = some x := by
  unfold INT_MAX at hR hC
  have hadd : ∀ i : Int, 0 ≤ i → i < desiredRows → addInt32 i step = i + step := by
    intro i hi0 hi
    exact wrapInt32_eq (by omega) (by omega)
  -- the source cell behind every position of the window
  have hsrc : ∀ i j : Int, 0 ≤ i → i < desiredRows → 0 ≤ j → j < desiredColumns →
      ∃ row x, data[(i + step).toNat]? = some row ∧ row[(j + stride).toNat]? = some x := by
    intro i j hi0 hi hj0 hj
    have h1 : (i + step).toNat < data.length := by omega
    refine ⟨data[(i + step).toNat], ?_⟩
    have hlen := hrect _ (List.getElem_mem h1)
    have h2 : (j + stride).toNat < (data[(i + step).toNat]).length := by omega
    exact ⟨(data[(i + step).toNat])[(j + stride).toNat], List.getElem?_eq_getElem h1,
      List.getElem?_eq_getElem h2⟩
  rw [forLoopCond_eq_forLoop]
  swap
  · intro i hi0 hi
    rw [hadd i hi0 hi]
    exact decide_eq_true (by omega)
  obtain ⟨m, h1, _, h3, h4, h5, h6⟩ := fill_nest Matrix.element_assign_AssignSpec result
    desiredRows desiredColumns
    (fun i result =>
      forLoopFrom stride (desiredColumns + stride) (fun j result =>
        if j < (totalColumns : Int) then
          match vectorAt data (addInt32 i step) with
          | none => none
          | some row =>
            match vectorAt row j with
            | none => none
            | some x => result.element_assign i (subInt32 j stride) x
        else result.element_assign i (subInt32 j stride) zero) result)
    (fun i j result =>
      if stride + j < (totalColumns : Int) then
        match vectorAt data (addInt32 i step) with
        | none => none
        | some row =>
          match vectorAt row (stride + j) with
          | none => none
          | some x => result.element_assign i (subInt32 (stride + j) stride) x
      else result.element_assign i (subInt32 (stride + j) stride) zero)
    (fun i _ => i) (fun _ j => j)
    (fun i j => ((data[(i + step).toNat]?).bind (fun row => row[(j + stride).toNat]?)).getD zero)
    trivial hv
    (by
      intro st i _ _ _ _ _
      unfold forLoopFrom forLoop
      rw [show desiredColumns + stride - stride = desiredColumns by ring])
    (by
      intro st i j _ _ _ hi0 hi hj0 hj
      obtain ⟨row, x, e1, e2⟩ := hsrc i j hi0 hi hj0 hj
      have e3 : subInt32 (stride + j) stride = j := by
        unfold subInt32
        rw [show stride + j - stride = j by ring]
        exact wrapInt32_eq (by omega) (by omega)
      beta_reduce
      rw [if_pos (by omega), hadd i hi0 hi, vectorAt_eq data (by omega) (by omega), e1]
      simp only
      rw [vectorAt_eq row (by omega) (by omega), e3, show stride + j = j + stride by ring, e2]
      simp only [Option.some_bind, e2, Option.getD_some])
    (by
      intro i j hi0 hi hj0 hj
      exact ⟨hi0, by rw [hr]; exact hi, hj0, by rw [hc]; exact hj⟩)
    (by
      intro i j i' j' _ _ _ _ _ _ _ _ h
      exact h)
  refine ⟨m, h1, by rw [h3, hr], by rw [h4, hc], h5, ?_⟩
  intro i j hi0 hi hj0 hj
  obtain ⟨row, x, e1, e2⟩ := hsrc i j hi0 hi hj0 hj
  refine ⟨row, x, e1, e2, ?_⟩
  rw [h6 i j hi0 hi hj0 hj, e1]
  simp only [Option.some_bind, e2, Option.getD_some]

/-- An exception out of a constructor is `std::bad_alloc` from the allocation, or
`std::invalid_argument` for a non-positive dimension. -/
theorem Matrix.create_value_throw [Zero α] {rows columns : Int} {value : α} {e : Exn}
    (h : Matrix.create_value rows columns value = Outcome.throw e) :
    e = Exn.bad_alloc ∨ (e = Exn.invalid_argument ∧ (rows ≤ 0 ∨ columns ≤ 0)) := by
  unfold Matrix.create_value at h
  cases hm : (make_unique (toSizeT (mulInt32 rows columns)) : Outcome (List α)) with
  | throw e' =>
    rw [hm] at h
    cases h
    left
    unfold make_unique at hm
    split_ifs at hm
    cases hm
    rfl
  | undefined => rw [hm] at h; cases h
  | ok d =>
    rw [hm] at h
    simp only at h
    split_ifs at h with h2
    · cases h
      exact Or.inr ⟨rfl, h2⟩
    · split at h <;> cases h

/-- A matrix a constructor returns has the dimensions asked for, and they are positive. -/
theorem Matrix.create_value_ok [Zero α] {rows columns : Int} {value : α} {m : Matrix α}
    (h : Matrix.create_value rows columns value = Outcome.ok m) :
    m.rows_ = rows ∧ m.columns_ = columns ∧ 1 ≤ rows ∧ 1 ≤ columns := by
  unfold Matrix.create_value at h
  cases hm : (make_unique (toSizeT (mulInt32 rows columns)) : Outcome (List α)) with
  | throw e' => rw [hm] at h; cases h
  | undefined => rw [hm] at h; cases h
  | ok d =>
    rw [hm] at h
    simp only at h
    split_ifs at h with h2
    split at h
    · cases h
    · cases h
      exact ⟨rfl, rfl, by omega, by omega⟩

/-- `Matrix_Data_Preprocessor` on a non-empty rectangular source whose sizes are `int`s, for
a window that lies inside the source and whose cell count is an `int`. -/
theorem Matrix_Data_Preprocessor_returns [Zero α] (desiredRows desiredColumns stride step : Int)
    (data : List (List α)) (totalColumns : Nat) (hne : data ≠ [])
    (hrect : ∀ row ∈ data, row.length = totalColumns)
    (hR : (data.length : Int) ≤ INT_MAX) (hC : (totalColumns : Int) ≤ INT_MAX)
    (hdr : 1 ≤ desiredRows) (hdc : 1 ≤ desiredColumns)
    (hprod : desiredRows * desiredColumns ≤ INT_MAX)
    (hstep : 0 ≤ step) (hstride : 0 ≤ stride)
    (hrows : desiredRows + step ≤ data.length)
    (hcols : desiredColumns + stride ≤ totalColumns) :
    ∃ m, Matrix_Data_Preprocessor desiredRows desiredColumns stride step data = Outcome.ok m ∧
      m.rows_ = desiredRows ∧ m.columns_ = desiredColumns ∧ m.Valid ∧
      ∀ i j, 0 ≤ i → i < desiredRows → 0 ≤ j → j < desiredColumns →
        ∃ row x, data[(i + step).toNat]? = some row ∧ row[(j + stride).toNat]? = some x ∧
          m.element i j = some x := by
  obtain ⟨row0, h0, hmem⟩ : ∃ row0, data[0]? = some row0 ∧ row0 ∈ data := by
    cases data with
    | nil => exact absurd rfl hne
    | cons a l => exact ⟨a, List.getElem?_cons_zero, List.mem_cons_self _ _⟩
  have hR' := hR
  have hC' := hC
  unfold INT_MAX at hR' hC'
  have htc : wrapInt32 (row0.length : Int) = (totalColumns : Int) := by
    rw [hrect row0 hmem]
    exact wrapInt32_eq (by omega) hC'
  have htr : wrapInt32 (data.length : Int) = (data.length : Int) :=
    wrapInt32_eq (by omega) hR'
  have ha1 : addInt32 desiredRows step = desiredRows + step :=
    wrapInt32_eq (by omega) (by omega)
  have ha2 : addInt32 desiredColumns stride = desiredColumns + stride :=
    wrapInt32_eq (by omega) (by omega)
  have h0p : 0 ≤ desiredRows * desiredColumns := mul_nonneg (by omega) (by omega)
  obtain ⟨hv0, _⟩ := Matrix.constant_spec desiredRows desiredColumns (0 : α) hdr hdc hprod
  have hcreate : (Matrix.create desiredRows desiredColumns : Outcome (Matrix α)) =
      Outcome.ok { rows_ := desiredRows, columns_ := desiredColumns,
                   data_ := some (List.replicate (desiredRows * desiredColumns).toNat 0) } := by
    rw [Matrix.create_eq_create_value, Matrix.create_value_eq _ _ _ h0p hprod,
      if_neg (by omega)]
  obtain ⟨m, hloop, rest⟩ := Matrix_Data_Preprocessor_loops desiredRows desiredColumns stride
    step data totalColumns (0 : α) _ hrect hR hC hstep hstride hrows hcols hv0 rfl rfl
  refine ⟨m, ?_, rest⟩
  unfold Matrix_Data_Preprocessor
  rw [h0]
  simp only [htc, htr, ha1, ha2]
  rw [if_neg (by omega), hcreate]
  simp only [hloop]

/-- On any source of 50000 rows whose first row has 50000 columns, the window
`desiredRows = desiredColumns = 50000`, `step = stride = 0` passes the validation and the
constructor call throws `std::bad_alloc`. -/
theorem Matrix_Data_Preprocessor_large (data : List (List Int)) (row0 : List Int)
    (h0 : data[0]? = some row0) (hl0 : row0.length = 50000) (hl : data.length = 50000) :
    Matrix_Data_Preprocessor 50000 50000 0 0 data = Outcome.throw Exn.bad_alloc := by
  have hc : (Matrix.create 50000 50000 : Outcome (Matrix Int)) =
      Outcome.throw Exn.bad_alloc := by decide
  unfold Matrix_Data_Preprocessor
  rw [h0]
  simp only [hl0, hl]
  rw [if_neg (by decide), hc]

/-- C12 as stated fails: on a rectangular source of 50000 rows and 50000 columns the window
`desiredRows = desiredColumns = 50000`, `step = stride = 0` satisfies every bound, but the
`int` product `desiredRows * desiredColumns` of the constructor call wraps to a negative value
and the allocation throws `std::bad_alloc`: no matrix is returned. -/
theorem Matrix_Data_Preprocessor_overflow_counterexample :
    (∀ row ∈ List.replicate 50000 (List.replicate 50000 (0 : Int)), row.length = 50000) ∧
      (List.replicate 50000 (List.replicate 50000 (0 : Int))).length = 50000 ∧
      (50000 : Int) + 0 ≤ 50000 ∧
      Matrix_Data_Preprocessor 50000 50000 0 0
          (List.replicate 50000 (List.replicate 50000 (0 : Int))) =
        Outcome.throw Exn.bad_alloc := by
  refine ⟨?_, List.length_replicate _ _, by decide, ?_⟩
  · intro row h
    rw [List.eq_of_mem_replicate h]
    exact List.length_replicate _ _
  · refine Matrix_Data_Preprocessor_large _ (List.replicate 50000 (0 : Int)) ?_
      (List.length_replicate _ _) (List.length_replicate _ _)
    rw [List.getElem?_replicate, if_pos (by decide)]

/-- C12 (amended): for every non-empty rectangular source whose numbers of rows and columns
are at most `INT_MAX`, and every `desiredRows ≥ 1`, `desiredColumns ≥ 1` with
`desiredRows * desiredColumns ≤ INT_MAX`, `step ≥ 0`, `stride ≥ 0` with
`desiredRows + step ≤ totalRows` and `desiredColumns + stride ≤ totalColumns`,
`Matrix_Data_Preprocessor` returns a `desiredRows × desiredColumns` matrix with
`result(i, j) == source[i + step][j + stride]` for every cell; on
`[[1,2,3],[4,5,6],[7,8,9]]` with `desiredRows = desiredColumns = 2`, `stride = 1`,
`step = 0` it yields `[[2,3],[5,6]]`. -/
theorem Matrix_Data_Preprocessor_correct [Zero α] (desiredRows desiredColumns stride step : Int)
    (data : List (List α)) (totalColumns : Nat) (hne : data ≠ [])
    (hrect : ∀ row ∈ data, row.length = totalColumns)
    (hR : (data.length : Int) ≤ INT_MAX) (hC : (totalColumns : Int) ≤ INT_MAX)
    (hdr : 1 ≤ desiredRows) (hdc : 1 ≤ desiredColumns)
    (hprod : desiredRows * desiredColumns ≤ INT_MAX)
    (hstep : 0 ≤ step) (hstride : 0 ≤ stride)
    (hrows : desiredRows + step ≤ data.length)
    (hcols : desiredColumns + stride ≤ totalColumns) :
    (∃ m, Matrix_Data_Preprocessor desiredRows desiredColumns stride step data = Outcome.ok m ∧
      m.rows = desiredRows ∧ m.columns = desiredColumns ∧
      ∀ i j, 0 ≤ i → i < desiredRows → 0 ≤ j → j < desiredColumns →
        ∃ row x, data[(i + step).toNat]? = some row ∧ row[(j + stride).toNat]? = some x ∧
          m.element i j = some x) ∧
    Matrix_Data_Preprocessor 2 2 1 0 [[1, 2, 3], [4, 5, 6], [7, 8, (9 : Int)]] =
      Outcome.ok { rows_ := 2, columns_ := 2, data_ := some [2, 3, 5, 6] } := by
  obtain ⟨m, h1, h2, h3, _, h5⟩ := Matrix_Data_Preprocessor_returns desiredRows desiredColumns
    stride step data totalColumns hne hrect hR hC hdr hdc hprod hstep hstride hrows hcols
  exact ⟨⟨m, h1, h2, h3, h5⟩, by decide⟩

/-- C12 (amended), at the 3×3 source `[[1,2,3],[4,5,6],[7,8,9]]`, `desiredRows = 2`,
`desiredColumns = 2`, `stride = 1`, `step = 1`. -/
theorem Matrix_Data_Preprocessor_correct_witness :
    (∃ m, Matrix_Data_Preprocessor 2 2 1 1 [[1, 2, 3], [4, 5, 6], [7, 8, (9 : Int)]] =
        Outcome.ok m ∧ m.rows = 2 ∧ m.columns = 2 ∧
      ∀ i j, 0 ≤ i → i < 2 → 0 ≤ j → j < 2 →
        ∃ row x, [[1, 2, 3], [4, 5, 6], [7, 8, (9 : Int)]][(i + 1).toNat]? = some row ∧
          row[(j + 1).toNat]? = some x ∧ m.element i j = some x) ∧
    Matrix_Data_Preprocessor 2 2 1 0 [[1, 2, 3], [4, 5, 6], [7, 8, (9 : Int)]] =
      Outcome.ok { rows_ := 2, columns_ := 2, data_ := some [2, 3, 5, 6] } :=
  Matrix_Data_Preprocessor_correct 2 2 1 1 [[1, 2, 3], [4, 5, 6], [7, 8, 9]] 3 (by decide)
    (by decide) (by decide) (by decide) (by decide) (by decide) (by decide) (by decide)
    (by decide) (by decide) (by decide)

/-- C13 as stated fails: with `desiredRows = 1` and `step = 2147483647` on the source
`[[5]]`, `desiredRows + step` exceeds `totalRows = 1`, but the `int` sum wraps to a negative
value, the validation passes, the loop condition `i + step < totalRows` is false at once, and
the function returns the zero-filled 1×1 matrix instead of failing. -/
theorem Matrix_Data_Preprocessor_wrap_counterexample :
    ((1 : Int) ≤ 1 ∧ (0 : Int) ≤ 2147483647 ∧ (2147483647 : Int) ≤ INT_MAX) ∧
      (1 : Int) + 2147483647 > (([[5]] : List (List Int)).length : Int) ∧
      Matrix_Data_Preprocessor 1 1 0 2147483647 ([[5]] : List (List Int)) =
        Outcome.ok { rows_ := 1, columns_ := 1, data_ := some [0] } ∧
      Matrix_Data_Preprocessor 1 1 0 2147483647 ([[5]] : List (List Int)) ≠
        Outcome.throw Exn.invalid_argument := by
  decide

/-- C13 (amended): for every non-empty rectangular source whose numbers of rows and columns
are at most `INT_MAX` and every `desiredRows ≥ 1`, `desiredColumns ≥ 1`, `step ≥ 0`,
`stride ≥ 0` with `desiredRows + step ≤ INT_MAX` and `desiredColumns + stride ≤ INT_MAX`,
`Matrix_Data_Preprocessor` throws `std::invalid_argument` if and only if
`desiredRows + step > totalRows` or `desiredColumns + stride > totalColumns`; when both
bounds hold and `desiredRows * desiredColumns ≤ INT_MAX` it returns a matrix. -/
theorem Matrix_Data_Preprocessor_fails_iff [Zero α]
    (desiredRows desiredColumns stride step : Int)
    (data : List (List α)) (totalColumns : Nat) (hne : data ≠ [])
    (hrect : ∀ row ∈ data, row.length = totalColumns)
    (hR : (data.length : Int) ≤ INT_MAX) (hC : (totalColumns : Int) ≤ INT_MAX)
    (hdr : 1 ≤ desiredRows) (hdc : 1 ≤ desiredColumns)
    (hstep : 0 ≤ step) (hstride : 0 ≤ stride)
    (hsum1 : desiredRows + step ≤ INT_MAX) (hsum2 : desiredColumns + stride ≤ INT_MAX) :
    (Matrix_Data_Preprocessor desiredRows desiredColumns stride step data =
        Outcome.throw Exn.invalid_argument ↔
      (desiredRows + step > data.length ∨ desiredColumns + stride > totalColumns)) ∧
    (¬(desiredRows + step > data.length ∨ desiredColumns + stride > totalColumns) →
      desiredRows * desiredColumns ≤ INT_MAX →
      ∃ m, Matrix_Data_Preprocessor desiredRows desiredColumns stride step data =
        Outcome.ok m) := by
  obtain ⟨row0, h0, hmem⟩ : ∃ row0, data[0]? = some row0 ∧ row0 ∈ data := by
    cases data with
    | nil => exact absurd rfl hne
    | cons a l => exact ⟨a, List.getElem?_cons_zero, List.mem_cons_self _ _⟩
  have hR' := hR
  have hC' := hC
  unfold INT_MAX at hR' hC' hsum1 hsum2
  have htc : wrapInt32 (row0.length : Int) = (totalColumns : Int) := by
    rw [hrect row0 hmem]
    exact wrapInt32_eq (by omega) hC'
  have htr : wrapInt32 (data.length : Int) = (data.length : Int) :=
    wrapInt32_eq (by omega) hR'
  have ha1 : addInt32 desiredRows step = desiredRows + step :=
    wrapInt32_eq (by omega) (by omega)
  have ha2 : addInt32 desiredColumns stride = desiredColumns + stride :=
    wrapInt32_eq (by omega) (by omega)
  refine ⟨⟨?_, ?_⟩, ?_⟩
  · intro h
    by_contra hc
    unfold Matrix_Data_Preprocessor at h
    rw [h0] at h
    simp only [htc, htr, ha1, ha2] at h
    rw [if_neg hc] at h
    cases hcr : (Matrix.create desiredRows desiredColumns : Outcome (Matrix α)) with
    | throw e =>
      rw [hcr] at h
      cases h
      rcases Matrix.create_value_throw hcr with h1 | ⟨_, h2⟩
      · cases h1
      · omega
    | undefined => rw [hcr] at h; cases h
    | ok result =>
      rw [hcr] at h
      simp only at h
      split at h <;> cases h
  · intro hc
    unfold Matrix_Data_Preprocessor
    rw [h0]
    simp only [htc, htr, ha1, ha2]
    rw [if_pos hc]
  · intro hc hprod
    obtain ⟨m, h1, _⟩ := Matrix_Data_Preprocessor_returns desiredRows desiredColumns stride
      step data totalColumns hne hrect hR hC hdr hdc hprod hstep hstride (by omega) (by omega)
    exact ⟨m, h1⟩

/-- C13 (amended), at the source `[[1,2,3],[4,5,6],[7,8,9]]`: a window of 3 rows from
`step = 1` fails, a window that fits returns. -/
theorem Matrix_Data_Preprocessor_fails_iff_witness :
    Matrix_Data_Preprocessor 3 2 0 1 [[1, 2, 3], [4, 5, 6], [7, 8, (9 : Int)]] =
        Outcome.throw Exn.invalid_argument ∧
      ∃ m, Matrix_Data_Preprocessor 2 2 1 1 [[1, 2, 3], [4, 5, 6], [7, 8, (9 : Int)]] =
        Outcome.ok m :=
  ⟨(Matrix_Data_Preprocessor_fails_iff 3 2 0 1 [[1, 2, 3], [4, 5, 6], [7, 8, 9]] 3 (by decide)
      (by decide) (by decide) (by decide) (by decide) (by decide) (by decide) (by decide)
      (by decide) (by decide)).1.2 (Or.inl (by decide)),
    (Matrix_Data_Preprocessor_fails_iff 2 2 1 1 [[1, 2, 3], [4, 5, 6], [7, 8, 9]] 3 (by decide)
      (by decide) (by decide) (by decide) (by decide) (by decide) (by decide) (by decide)
      (by decide) (by decide)).2 (by decide) (by decide)⟩

/-! ## Copying and moving: facts -/

theorem Matrix.Valid.sized {m : Matrix α} (h : m.Valid) : m.Sized :=
  ⟨mul_nonneg (by have := h.1; omega) (by have := h.2.1; omega), h.2.2.1, h.2.2.2⟩

theorem make_unique_throw [Zero α] {n : Nat} {e : Exn}
    (h : (make_unique n : Outcome (List α)) = Outcome.throw e) : e = Exn.bad_alloc := by
  unfold make_unique at h
  split_ifs at h
  cases h
  rfl

theorem wrapInt32_le (x : Int) : wrapInt32 x ≤ 2147483647 := by
  unfold wrapInt32
  omega

theorem Matrix.Sized.allocated {m : Matrix α} (h : m.Sized) : m.Allocated := by
  obtain ⟨h0, h1, hsz⟩ := h
  unfold INT_MAX at h1
  have hp : mulInt32 m.rows_ m.columns_ = m.rows_ * m.columns_ := wrapInt32_eq (by omega) h1
  exact ⟨by rw [hp]; exact h0, by rw [hp]; exact hsz⟩

/-- The allocation and the copy of the copy operations, on a source whose buffer has as many
cells as the `int` product of its dimensions: the new buffer holds the source's cells. -/
theorem copy_buffer [Zero α] {m : Matrix α} (h : m.Allocated) :
    (make_unique (toSizeT (mulInt32 m.rows_ m.columns_)) : Outcome (List α)) =
        Outcome.ok (List.replicate (mulInt32 m.rows_ m.columns_).toNat 0) ∧
      std_copy m.data_ (mulInt32 m.rows_ m.columns_)
          (List.replicate (mulInt32 m.rows_ m.columns_).toNat (0 : α)) =
        some (m.data_.getD []) := by
  obtain ⟨h0, hsz⟩ := h
  have h1 : mulInt32 m.rows_ m.columns_ ≤ 2147483647 := wrapInt32_le _
  have hn : toSizeT (mulInt32 m.rows_ m.columns_) = (mulInt32 m.rows_ m.columns_).toNat :=
    toSizeT_eq h0 h1
  constructor
  · unfold make_unique
    rw [hn, if_neg (by unfold SIZE_MAX sizeofFloat; omega)]
  · unfold std_copy
    cases hd : m.data_ with
    | none =>
      have : mulInt32 m.rows_ m.columns_ = 0 := by simpa [Matrix.size, hd] using hsz.symm
      simp [this]
    | some d =>
      have hlen : (mulInt32 m.rows_ m.columns_).toNat = d.length := by
        have : (d.length : Int) = mulInt32 m.rows_ m.columns_ := by
          simpa [Matrix.size, hd] using hsz
        omega
      simp [hlen, h0]

/-- A matrix reads the same with a null buffer as with an empty one. -/
theorem Matrix.element_getD (rows columns : Int) (data : Option (List α)) (i j : Int) :
    ({ rows_ := rows, columns_ := columns, data_ := some (data.getD []) } : Matrix α).element
        i j =
      ({ rows_ := rows, columns_ := columns, data_ := data } : Matrix α).element i j := by
  cases data <;> simp [Matrix.element]

theorem Matrix.copy_construct_eq [Zero α] (s : Store α) (self other : Ref)
    (h : (s other).Allocated) :
    Matrix.copy_construct s self other =
      Effect.returned (Function.update s self
        { rows_ := (s other).rows_, columns_ := (s other).columns_,
          data_ := some ((s other).data_.getD []) }) := by
  obtain ⟨h1, h2⟩ := copy_buffer h
  unfold Matrix.copy_construct
  rw [h1]
  simp only [h2]

theorem Matrix.copy_assign_eq [Zero α] (s : Store α) (self other : Ref) (hne : self ≠ other)
    (h : (s other).Allocated) (hrows : (s self).rows_ = (s other).rows_)
    (hcols : (s self).columns_ = (s other).columns_) :
    Matrix.copy_assign s self other =
      Effect.returned (Function.update s self
        { rows_ := (s self).rows_, columns_ := (s self).columns_,
          data_ := some ((s other).data_.getD []) }) := by
  obtain ⟨h1, h2⟩ := copy_buffer h
  unfold Matrix.copy_assign
  rw [if_pos hne, if_neg (by simp [hrows, hcols]), h1]
  simp only [Function.update_noteq (Ne.symm hne), h2, Function.update_same,
    Function.update_idem]

theorem Matrix.move_construct_eq (s : Store α) (self other : Ref) :
    Matrix.move_construct s self other =
      Effect.returned (Function.update (Function.update s self (s other)) other
        { rows_ := 0, columns_ := 0, data_ := none }) := by
  unfold Matrix.move_construct
  simp only [Function.update_same, Function.update_idem]

theorem Matrix.move_assign_eq (s : Store α) (self other : Ref) (hne : self ≠ other) :
    Matrix.move_assign s self other =
      Effect.returned (Function.update (Function.update s self (s other)) other
        { rows_ := 0, columns_ := 0, data_ := none }) := by
  unfold Matrix.move_assign
  rw [if_pos hne]
  simp only [Function.update_same, Function.update_idem, Function.update_noteq (Ne.symm hne)]

theorem Store.assign_frame {s s' : Store α} {r : Ref} {i j : Int} {v : α}
    (h : s.assign r i j v = some s') : Store.FrameExcept r s s' := by
  unfold Store.assign at h
  split at h
  · cases h
  · cases h
    intro q hq
    exact Function.update_noteq hq _ _

/-! ## Transfer of ownership -/

/-- C16: for every matrix `S` with dimensions `(r, c)`, move construction of a new object
from `S`, and move assignment from `S` into another existing object of any dimensions, both
return normally; the receiving object then has `rows() == r`, `columns() == c` and reads at
every position what `S` read before, and `S.rows() == 0`, `S.columns() == 0`. -/
theorem Matrix_move_correct (s : Store α) (t src : Ref) (hne : t ≠ src) :
    (∃ s', Matrix.move_construct s t src = Effect.returned s' ∧
      (s' t).rows = (s src).rows ∧ (s' t).columns = (s src).columns ∧
      (∀ i j, (s' t).element i j = (s src).element i j) ∧
      (s' src).rows = 0 ∧ (s' src).columns = 0) ∧
    (∃ s', Matrix.move_assign s t src = Effect.returned s' ∧
      (s' t).rows = (s src).rows ∧ (s' t).columns = (s src).columns ∧
      (∀ i j, (s' t).element i j = (s src).element i j) ∧
      (s' src).rows = 0 ∧ (s' src).columns = 0) := by
  have ht : Function.update (Function.update s t (s src)) src
      ({ rows_ := 0, columns_ := 0, data_ := none } : Matrix α) t = s src := by
    rw [Function.update_noteq hne, Function.update_same]
  have hs : Function.update (Function.update s t (s src)) src
      ({ rows_ := 0, columns_ := 0, data_ := none } : Matrix α) src =
      { rows_ := 0, columns_ := 0, data_ := none } := Function.update_same _ _ _
  refine ⟨⟨_, Matrix.move_construct_eq s t src, ?_, ?_, ?_, ?_, ?_⟩,
    ⟨_, Matrix.move_assign_eq s t src hne, ?_, ?_, ?_, ?_, ?_⟩⟩
  all_goals first
    | (intro i j; rw [ht])
    | (rw [hs]; rfl)
    | rw [ht]

/-- C16, at `S = [[1,2,3],[4,5,6]]` moved into the 2×2 object at address 0. -/
theorem Matrix_move_correct_witness :
    (∃ s', Matrix.move_construct exampleProduct 0 1 = Effect.returned s' ∧
      (s' 0).rows = (exampleProduct 1).rows ∧ (s' 0).columns = (exampleProduct 1).columns ∧
      (∀ i j, (s' 0).element i j = (exampleProduct 1).element i j) ∧
      (s' 1).rows = 0 ∧ (s' 1).columns = 0) ∧
    (∃ s', Matrix.move_assign exampleProduct 0 1 = Effect.returned s' ∧
      (s' 0).rows = (exampleProduct 1).rows ∧ (s' 0).columns = (exampleProduct 1).columns ∧
      (∀ i j, (s' 0).element i j = (exampleProduct 1).element i j) ∧
      (s' 1).rows = 0 ∧ (s' 1).columns = 0) :=
  Matrix_move_correct exampleProduct 0 1 (by decide)

/-! ## Copy assignment -/

/-- C17: for distinct objects `T` and `S`, copy assignment `T = S` throws
`std::invalid_argument` if and only if `T` and `S` differ in `rows_` or `columns_`, and any
throw leaves every object as it was; when the dimensions agree (and the buffer of `S` holds
as many cells as the `int` product of its dimensions) it returns normally, `T` then reads at every position what `S`
reads, the dimensions of `T` are unchanged and `S` is unchanged.  Self-assignment returns
normally and changes nothing. -/
theorem Matrix_copy_assign_correct [Zero α] (s : Store α) (t src : Ref) :
    (t ≠ src →
      ((∃ s', Matrix.copy_assign s t src = Effect.thrown Exn.invalid_argument s') ↔
        ((s t).rows ≠ (s src).rows ∨ (s t).columns ≠ (s src).columns)) ∧
      (∀ e s', Matrix.copy_assign s t src = Effect.thrown e s' → s' = s) ∧
      ((s src).Allocated → (s t).rows = (s src).rows → (s t).columns = (s src).columns →
        ∃ s', Matrix.copy_assign s t src = Effect.returned s' ∧
          (∀ i j, (s' t).element i j = (s src).element i j) ∧
          (s' t).rows = (s t).rows ∧ (s' t).columns = (s t).columns ∧ s' src = s src)) ∧
    Matrix.copy_assign s t t = Effect.returned s := by
  refine ⟨fun hne => ⟨⟨?_, ?_⟩, ?_, ?_⟩, ?_⟩
  · rintro ⟨s', h⟩
    by_contra hc
    have hc' : ¬((s t).rows_ ≠ (s src).rows_ ∨ (s t).columns_ ≠ (s src).columns_) := hc
    unfold Matrix.copy_assign at h
    rw [if_pos hne, if_neg hc'] at h
    cases hm : (make_unique (toSizeT (mulInt32 (s src).rows_ (s src).columns_)) :
        Outcome (List α)) with
    | throw e =>
      rw [hm] at h
      cases h
      exact absurd (make_unique_throw hm) (by decide)
    | undefined => rw [hm] at h; cases h
    | ok d =>
      rw [hm] at h
      simp only at h
      split at h <;> cases h
  · intro hc
    have hc' : (s t).rows_ ≠ (s src).rows_ ∨ (s t).columns_ ≠ (s src).columns_ := hc
    refine ⟨s, ?_⟩
    unfold Matrix.copy_assign
    rw [if_pos hne, if_pos hc']
  · intro e s' h
    unfold Matrix.copy_assign at h
    rw [if_pos hne] at h
    split_ifs at h
    · cases h; rfl
    · cases hm : (make_unique (toSizeT (mulInt32 (s src).rows_ (s src).columns_)) :
          Outcome (List α)) with
      | throw e' => rw [hm] at h; cases h; rfl
      | undefined => rw [hm] at h; cases h
      | ok d =>
        rw [hm] at h
        simp only at h
        split at h <;> cases h
  · intro hS hrows hcols
    refine ⟨_, Matrix.copy_assign_eq s t src hne hS hrows hcols, ?_, ?_, ?_, ?_⟩
    · intro i j
      rw [Function.update_same]
      have hr : (s t).rows_ = (s src).rows_ := hrows
      have hc : (s t).columns_ = (s src).columns_ := hcols
      rw [hr, hc]
      exact Matrix.element_getD _ _ _ i j
    · rw [Function.update_same]; rfl
    · rw [Function.update_same]; rfl
    · exact Function.update_noteq (Ne.symm hne) _ _
  · unfold Matrix.copy_assign
    rw [if_neg (by simp)]

/-- C17, at `T` = the 2×2 object at address 2 and `S = [[1,2],[3,4]]`; and at a target of
another shape. -/
theorem Matrix_copy_assign_correct_witness :
    (∃ s', Matrix.copy_assign exampleSum 2 0 = Effect.returned s' ∧
      (∀ i j, (s' 2).element i j = (exampleSum 0).element i j) ∧
      (s' 2).rows = (exampleSum 2).rows ∧ (s' 2).columns = (exampleSum 2).columns ∧
      s' 0 = exampleSum 0) ∧
    ∃ s', Matrix.copy_assign exampleProduct 0 1 = Effect.thrown Exn.invalid_argument s' :=
  ⟨((Matrix_copy_assign_correct exampleSum 2 0).1 (by decide)).2.2 (by decide) (by decide)
      (by decide),
    ((Matrix_copy_assign_correct exampleProduct 0 1).1 (by decide)).1.2
      (Or.inr (by decide))⟩

/-! ## Dimensions are never written by the operations -/

theorem Store.SameDims.refl (s : Store α) : Store.SameDims s s := fun _ => ⟨rfl, rfl⟩

theorem Store.SameDims.trans {s s1 s2 : Store α} (h1 : Store.SameDims s s1)
    (h2 : Store.SameDims s1 s2) : Store.SameDims s s2 :=
  fun q => ⟨(h2 q).1.trans (h1 q).1, (h2 q).2.trans (h1 q).2⟩

theorem Store.SameDims.positive {s s' : Store α} (h : Store.SameDims s s') (q : Ref)
    (hq : (s q).PositiveDims) : (s' q).PositiveDims := by
  unfold Matrix.PositiveDims at *
  rw [(h q).1, (h q).2]
  exact hq

theorem Matrix.element_assign_dims {m m' : Matrix α} {i j : Int} {v : α}
    (h : m.element_assign i j v = some m') : m'.rows_ = m.rows_ ∧ m'.columns_ = m.columns_ := by
  unfold Matrix.element_assign at h
  split at h
  · cases h
  · split_ifs at h
    cases h
    exact ⟨rfl, rfl⟩

theorem Store.assign_sameDims {s s' : Store α} {r : Ref} {i j : Int} {v : α}
    (h : s.assign r i j v = some s') : Store.SameDims s s' := by
  unfold Store.assign at h
  split at h
  · cases h
  · rename_i m hm
    cases h
    intro q
    by_cases hq : q = r
    · subst hq
      rw [Function.update_same]
      exact Matrix.element_assign_dims hm
    · rw [Function.update_noteq hq]
      exact ⟨rfl, rfl⟩

/-- A property every defined iteration keeps is kept by the loop. -/
theorem forLoop_preserves {σ : Type} (P : σ → Prop) (n : Int) (body : Int → σ → Option σ)
    (hbody : ∀ i st st', P st → body i st = some st' → P st') (s s' : σ)
    (h : forLoop n body s = some s') (hs : P s) : P s' := by
  unfold forLoop at h
  generalize List.range n.toNat = l at h
  induction l generalizing s with
  | nil => cases h; exact hs
  | cons a l ih =>
    rw [List.foldlM_cons] at h
    cases hb : body (a : Int) s with
    | none => rw [hb] at h; cases h
    | some s1 =>
      rw [hb] at h
      exact ih s1 (hbody _ s s1 hs hb) h

theorem forLoopCond_go_preserves {σ : Type} (P : σ → Prop) (cond : Int → Bool)
    (body : Int → σ → Option σ) (hbody : ∀ i st st', P st → body i st = some st' → P st') :
    ∀ (fuel i : Nat) (s s' : σ), forLoopCond.go cond body fuel i s = some s' → P s → P s'
  | 0, _, s, s', h, hs => by
    cases h
    exact hs
  | fuel + 1, i, s, s', h, hs => by
    rw [forLoopCond.go] at h
    split_ifs at h
    · cases hb : body (i : Int) s with
      | none => rw [hb] at h; cases h
      | some s1 =>
        rw [hb] at h
        exact forLoopCond_go_preserves P cond body hbody fuel (i + 1) s1 s' h
          (hbody _ s s1 hs hb)
    · cases h
      exact hs

/-- A nest whose innermost statement keeps the dimensions of every object keeps them. -/
theorem nest_sameDims (s s' : Store α) (R : Int) (Cf : Store α → Int)
    (body : Int → Int → Store α → Option (Store α))
    (hbody : ∀ i j st st', body i j st = some st' → Store.SameDims st st')
    (h : forLoop R (fun i st => forLoop (Cf st) (fun j st' => body i j st') st) s = some s') :
    Store.SameDims s s' := by
  refine forLoop_preserves (Store.SameDims s) R _ ?_ s s' h (Store.SameDims.refl s)
  intro i st st' hst hi
  refine forLoop_preserves (Store.SameDims s) (Cf st) _ ?_ st st' hi hst
  intro j st1 st2 h1 hj
  exact h1.trans (hbody i j st1 st2 hj)

theorem Effect.final_ofOption {σ : Type} {o : Option σ} {s' : σ}
    (h : (Effect.ofOption o).final = some s') : o = some s' := by
  cases o with
  | none => cases h
  | some x => exact h

theorem Effect.final_thrown {σ : Type} {e : Exn} {s s' : σ}
    (h : (Effect.thrown e s).final = some s') : s' = s :=
  (Option.some.inj h).symm

theorem Effect.final_returned {σ : Type} {s s' : σ}
    (h : (Effect.returned s).final = some s') : s' = s :=
  (Option.some.inj h).symm

theorem Effect.final_undefined {σ : Type} {s' : σ}
    (h : (Effect.undefined : Effect σ).final = some s') : False := by
  cases h

theorem Store.SameDims.of_thrown {e : Exn} {s s' : Store α}
    (h : (Effect.thrown e s).final = some s') : Store.SameDims s s' := by
  rw [Effect.final_thrown h]
  exact Store.SameDims.refl s

theorem Matrix_Multiply_sameDims [Zero α] [Add α] [Mul α] {s s' : Store α}
    {result first second : Ref}
    (h : (Matrix_Multiply s result first second).final = some s') : Store.SameDims s s' := by
  unfold Matrix_Multiply at h
  split_ifs at h
  all_goals first
    | exact Store.SameDims.of_thrown h
    | exact nest_sameDims _ _ _ _ _
        (fun i j st st' hb => by
          split at hb
          · cases hb
          · exact Store.assign_sameDims hb)
        (Effect.final_ofOption h)

theorem Matrix_Add_sameDims [Add α] {s s' : Store α} {result matrix1 matrix2 : Ref}
    (h : (Matrix_Add s result matrix1 matrix2).final = some s') : Store.SameDims s s' := by
  unfold Matrix_Add at h
  split_ifs at h
  all_goals first
    | exact Store.SameDims.of_thrown h
    | exact nest_sameDims _ _ _ _ _
        (fun i j st st' hb => by
          split at hb
          · exact Store.assign_sameDims hb
          · cases hb)
        (Effect.final_ofOption h)

theorem Matrix_Subtract_sameDims [Sub α] {s s' : Store α} {result matrix1 matrix2 : Ref}
    (h : (Matrix_Subtract s result matrix1 matrix2).final = some s') :
    Store.SameDims s s' := by
  unfold Matrix_Subtract at h
  split_ifs at h
  all_goals first
    | exact Store.SameDims.of_thrown h
    | exact nest_sameDims _ _ _ _ _
        (fun i j st st' hb => by
          split at hb
          · exact Store.assign_sameDims hb
          · cases hb)
        (Effect.final_ofOption h)

theorem Matrix_Hadamard_Product_sameDims [Mul α] {s s' : Store α} {result a b : Ref}
    (h : (Matrix_Hadamard_Product s result a b).final = some s') : Store.SameDims s s' := by
  unfold Matrix_Hadamard_Product at h
  split_ifs at h
  all_goals first
    | exact Store.SameDims.of_thrown h
    | exact nest_sameDims _ _ _ _ _
        (fun i j st st' hb => by
          split at hb
          · exact Store.assign_sameDims hb
          · cases hb)
        (Effect.final_ofOption h)

theorem Matrix_Transpose_sameDims {s s' : Store α} {final original : Ref}
    (h : (Matrix_Transpose s final original).final = some s') : Store.SameDims s s' := by
  unfold Matrix_Transpose at h
  split_ifs at h
  all_goals first
    | exact Store.SameDims.of_thrown h
    | exact nest_sameDims _ _ _ _ _
        (fun i j st st' hb => by
          split at hb
          · exact Store.assign_sameDims hb
          · cases hb)
        (Effect.final_ofOption h)

theorem Matrix_Absolute_sameDims [Lattice α] [AddGroup α] {s s' : Store α}
    {result original : Ref}
    (h : (Matrix_Absolute s result original).final = some s') : Store.SameDims s s' := by
  unfold Matrix_Absolute at h
  split_ifs at h
  all_goals first
    | exact Store.SameDims.of_thrown h
    | exact nest_sameDims _ _ _ _ _
        (fun i j st st' hb => by
          split at hb
          · exact Store.assign_sameDims hb
          · cases hb)
        (Effect.final_ofOption h)

theorem Matrix_Scalar_Multiply_sameDims [Mul α] {s s' : Store α} {matrix : Ref} {scalar : α}
    (h : (Matrix_Scalar_Multiply s matrix scalar).final = some s') : Store.SameDims s s' := by
  unfold Matrix_Scalar_Multiply at h
  exact nest_sameDims _ _ _ _ _
    (fun i j st st' hb => by
      split at hb
      · exact Store.assign_sameDims hb
      · cases hb)
    (Effect.final_ofOption h)

theorem Matrix_Power_sameDims {pow : α → α → α} {s s' : Store α} {matrix : Ref} {power : α}
    (h : (Matrix_Power pow s matrix power).final = some s') : Store.SameDims s s' := by
  unfold Matrix_Power at h
  exact nest_sameDims _ _ _ _ _
    (fun i j st st' hb => by
      split at hb
      · exact Store.assign_sameDims hb
      · cases hb)
    (Effect.final_ofOption h)

theorem Matrix_Randomize_sameDims {draw : Int → Int → α} {s s' : Store α} {matrix : Ref}
    (h : (Matrix_Randomize draw s matrix).final = some s') : Store.SameDims s s' := by
  unfold Matrix_Randomize at h
  exact nest_sameDims _ _ _ _ _ (fun i j st st' hb => Store.assign_sameDims hb)
    (Effect.final_ofOption h)

theorem Matrix_Xavier_Uniform_sameDims {draw : Int → Int → α} {s s' : Store α} {matrix : Ref}
    (h : (Matrix_Xavier_Uniform draw s matrix).final = some s') : Store.SameDims s s' := by
  unfold Matrix_Xavier_Uniform at h
  exact nest_sameDims s s' _ (fun _ => (s matrix).columns) _
    (fun i j st st' hb => Store.assign_sameDims hb) (Effect.final_ofOption h)

theorem Matrix_Broadcast_sameDims {s s' : Store α} {result original : Ref}
    {newRows newColumns : Int}
    (h : (Matrix_Broadcast s result original newRows newColumns).final = some s') :
    Store.SameDims s s' := by
  unfold Matrix_Broadcast at h
  repeat' split at h
  all_goals first
    | exact Store.SameDims.of_thrown h
    | exact (Effect.final_undefined h).elim
    | exact nest_sameDims s s' _ (fun _ => newColumns) _
        (fun i j st st' hb => by
          repeat' split at hb
          all_goals first
            | exact Store.assign_sameDims hb
            | cases hb)
        (Effect.final_ofOption h)

theorem Matrix_Sum_Columns_sameDims [Zero α] [Add α] {s s' : Store α} {dest src : Ref}
    (h : (Matrix_Sum_Columns s dest src).final = some s') : Store.SameDims s s' := by
  unfold Matrix_Sum_Columns at h
  split_ifs at h
  · exact Store.SameDims.of_thrown h
  · exact Store.SameDims.of_thrown h
  · refine forLoop_preserves (Store.SameDims s) _ _ ?_ s s' (Effect.final_ofOption h)
      (Store.SameDims.refl s)
    intro col st st' hst hb
    split at hb
    · cases hb
    · refine forLoop_preserves (Store.SameDims s) _ _ ?_ st st' hb hst
      intro row st1 st2 h1 h2
      exact h1.trans (Store.assign_sameDims h2)

theorem forLoopFrom_eq_forLoop {σ : Type} (start bound : Int) (body : Int → σ → Option σ)
    (s : σ) :
    forLoopFrom start bound body s =
      forLoop (bound - start) (fun k st => body (start + k) st) s :=
  rfl

theorem Matrix.copy_assign_sameDims [Zero α] {s s' : Store α} {self other : Ref}
    (h : (Matrix.copy_assign s self other).final = some s') : Store.SameDims s s' := by
  unfold Matrix.copy_assign at h
  split_ifs at h
  · exact Store.SameDims.of_thrown h
  · cases hm : (make_unique (toSizeT (mulInt32 (s other).rows_ (s other).columns_)) :
        Outcome (List α)) with
    | throw e => rw [hm] at h; exact Store.SameDims.of_thrown h
    | undefined => rw [hm] at h; exact (Effect.final_undefined h).elim
    | ok d =>
      rw [hm] at h
      simp only at h
      split at h
      · exact (Effect.final_undefined h).elim
      · rw [Effect.final_returned h]
        intro q
        by_cases hq : q = self
        · subst hq
          constructor <;> simp only [Function.update_same]
        · constructor <;> simp only [Function.update_noteq hq]
  · rw [Effect.final_returned h]
    exact Store.SameDims.refl s

/-- A returned copy has the dimensions of its source, and no other object is touched. -/
theorem Matrix.copy_construct_returned [Zero α] {s s' : Store α} {self other : Ref}
    (h : Matrix.copy_construct s self other = Effect.returned s') :
    (s' self).rows_ = (s other).rows_ ∧ (s' self).columns_ = (s other).columns_ ∧
      ∀ q, q ≠ self → s' q = s q := by
  unfold Matrix.copy_construct at h
  split at h
  · cases h
  · cases h
  · split at h
    · cases h
    · cases h
      refine ⟨?_, ?_, fun q hq => Function.update_noteq hq _ _⟩
      · rw [Function.update_same]
      · rw [Function.update_same]

theorem Matrix_AutoCreate_positive [Zero α] {first second m : Matrix α}
    (h : Matrix_AutoCreate first second = Outcome.ok m) : m.PositiveDims := by
  unfold Matrix_AutoCreate at h
  split_ifs at h
  rw [Matrix.create_eq_create_value] at h
  obtain ⟨h1, h2, h3, h4⟩ := Matrix.create_value_ok h
  exact ⟨by rw [h1]; exact h3, by rw [h2]; exact h4⟩

theorem Matrix_Data_Preprocessor_positive [Zero α]
    {desiredRows desiredColumns stride step : Int} {data : List (List α)} {m : Matrix α}
    (h : Matrix_Data_Preprocessor desiredRows desiredColumns stride step data = Outcome.ok m) :
    m.PositiveDims := by
  unfold Matrix_Data_Preprocessor at h
  split at h
  · cases h
  · simp only at h
    split_ifs at h
    cases hcr : (Matrix.create desiredRows desiredColumns : Outcome (Matrix α)) with
    | throw e => rw [hcr] at h; cases h
    | undefined => rw [hcr] at h; cases h
    | ok result =>
      rw [hcr] at h
      simp only at h
      split at h
      · cases h
      · rename_i m' hloop
        cases h
        rw [Matrix.create_eq_create_value] at hcr
        obtain ⟨h1, h2, h3, h4⟩ := Matrix.create_value_ok hcr
        have key : m.rows_ = result.rows_ ∧ m.columns_ = result.columns_ := by
          refine forLoopCond_go_preserves
            (fun x : Matrix α => x.rows_ = result.rows_ ∧ x.columns_ = result.columns_)
            _ _ ?_ _ 0 result m hloop ⟨rfl, rfl⟩
          intro i st st' hst hb
          rw [forLoopFrom_eq_forLoop] at hb
          refine forLoop_preserves
            (fun x : Matrix α => x.rows_ = result.rows_ ∧ x.columns_ = result.columns_)
            _ _ ?_ st st' hb hst
          intro k st1 st2 h12 hk
          have hd : st2.rows_ = st1.rows_ ∧ st2.columns_ = st1.columns_ := by
            split_ifs at hk
            · repeat' split at hk
              all_goals first
                | cases hk
                | exact Matrix.element_assign_dims hk
            · exact Matrix.element_assign_dims hk
          exact ⟨hd.1.trans h12.1, hd.2.trans h12.2⟩
        exact ⟨by rw [key.1, h1]; exact h3, by rw [key.2, h2]; exact h4⟩

/-! ## The invariant on the dimensions -/

/-- C18 as stated fails: move construction from the 2×2 matrix at address 0, whose
dimensions are positive, leaves that object with `rows_ == 0` and `columns_ == 0`; move
assignment does the same. -/
theorem Matrix_move_zero_dimensions_counterexample :
    (exampleSum 0).PositiveDims ∧
      (Matrix.move_construct exampleSum 5 0).object 0 =
        some { rows_ := 0, columns_ := 0, data_ := none } ∧
      (Matrix.move_assign exampleSum 1 0).object 0 =
        some { rows_ := 0, columns_ := 0, data_ := none } ∧
      ¬ ({ rows_ := 0, columns_ := 0, data_ := none } : Matrix Int).PositiveDims := by
  decide

/-- C18 (amended): `rows_ ≥ 1` and `columns_ ≥ 1` hold for the matrix of every constructor
`Matrix(rows, columns)`, `Matrix(rows, columns, v)` that returns normally and for the matrix
returned by `Matrix_AutoCreate` and `Matrix_Data_Preprocessor`; a copy-constructed object has
the dimensions of its source; copy assignment, element writes and every function of the
operation suite that works through references leave the dimensions of every object as they
were, whether they return or throw, so the predicate is preserved for targets, sources and
operands (`Matrix_Sum_All_Elements` produces no matrix and writes none).  Move construction
and move assignment give the receiving object the dimensions of the source and leave the
source with `rows_ == 0` and `columns_ == 0`. -/
theorem positive_dimensions_invariant [Lattice α] [AddGroup α] [Mul α] (s s' : Store α) :
    (∀ rows columns (v : α) (m : Matrix α),
      (Matrix.create rows columns = Outcome.ok m ∨
        Matrix.create_value rows columns v = Outcome.ok m) → m.PositiveDims) ∧
    (∀ (first second m : Matrix α),
      Matrix_AutoCreate first second = Outcome.ok m → m.PositiveDims) ∧
    (∀ desiredRows desiredColumns stride step (data : List (List α)) (m : Matrix α),
      Matrix_Data_Preprocessor desiredRows desiredColumns stride step data = Outcome.ok m →
      m.PositiveDims) ∧
    (∀ c src, Matrix.copy_construct s c src = Effect.returned s' → (s src).PositiveDims →
      (s' c).PositiveDims ∧ ∀ q, q ≠ c → s' q = s q) ∧
    (Store.SameDims s s' → ∀ q, (s q).PositiveDims → (s' q).PositiveDims) ∧
    (∀ t src, (Matrix.copy_assign s t src).final = some s' → Store.SameDims s s') ∧
    (∀ r i j v, s.assign r i j v = some s' → Store.SameDims s s') ∧
    (∀ result first second,
      (Matrix_Multiply s result first second).final = some s' → Store.SameDims s s') ∧
    (∀ result matrix1 matrix2,
      (Matrix_Add s result matrix1 matrix2).final = some s' → Store.SameDims s s') ∧
    (∀ result matrix1 matrix2,
      (Matrix_Subtract s result matrix1 matrix2).final = some s' → Store.SameDims s s') ∧
    (∀ final original,
      (Matrix_Transpose s final original).final = some s' → Store.SameDims s s') ∧
    (∀ result a b,
      (Matrix_Hadamard_Product s result a b).final = some s' → Store.SameDims s s') ∧
    (∀ result original newRows newColumns,
      (Matrix_Broadcast s result original newRows newColumns).final = some s' →
      Store.SameDims s s') ∧
    (∀ matrix scalar,
      (Matrix_Scalar_Multiply s matrix scalar).final = some s' → Store.SameDims s s') ∧
    (∀ pow matrix power,
      (Matrix_Power pow s matrix power).final = some s' → Store.SameDims s s') ∧
    (∀ result original,
      (Matrix_Absolute s result original).final = some s' → Store.SameDims s s') ∧
    (∀ dest src, (Matrix_Sum_Columns s dest src).final = some s' → Store.SameDims s s') ∧
    (∀ draw matrix, (Matrix_Randomize draw s matrix).final = some s' → Store.SameDims s s') ∧
    (∀ draw matrix,
      (Matrix_Xavier_Uniform draw s matrix).final = some s' → Store.SameDims s s') ∧
    (∀ t src, t ≠ src →
      (Matrix.move_construct s t src = Effect.returned s' ∨
        Matrix.move_assign s t src = Effect.returned s') →
      (s' t).rows_ = (s src).rows_ ∧ (s' t).columns_ = (s src).columns_ ∧
        (s' src).rows_ = 0 ∧ (s' src).columns_ = 0 ∧
        ∀ q, q ≠ t → q ≠ src → s' q = s q) := by
  refine ⟨?_, fun _ _ _ h => Matrix_AutoCreate_positive h,
    fun _ _ _ _ _ _ h => Matrix_Data_Preprocessor_positive h, ?_,
    fun h q hq => h.positive q hq, fun _ _ h => Matrix.copy_assign_sameDims h,
    fun _ _ _ _ h => Store.assign_sameDims h, fun _ _ _ h => Matrix_Multiply_sameDims h,
    fun _ _ _ h => Matrix_Add_sameDims h, fun _ _ _ h => Matrix_Subtract_sameDims h,
    fun _ _ h => Matrix_Transpose_sameDims h, fun _ _ _ h => Matrix_Hadamard_Product_sameDims h,
    fun _ _ _ _ h => Matrix_Broadcast_sameDims h,
    fun _ _ h => Matrix_Scalar_Multiply_sameDims h, fun _ _ _ h => Matrix_Power_sameDims h,
    fun _ _ h => Matrix_Absolute_sameDims h, fun _ _ h => Matrix_Sum_Columns_sameDims h,
    fun _ _ h => Matrix_Randomize_sameDims h, fun _ _ h => Matrix_Xavier_Uniform_sameDims h, ?_⟩
  · intro rows columns v m h
    rcases h with h | h
    · rw [Matrix.create_eq_create_value] at h
      obtain ⟨h1, h2, h3, h4⟩ := Matrix.create_value_ok h
      exact ⟨by rw [h1]; exact h3, by rw [h2]; exact h4⟩
    · obtain ⟨h1, h2, h3, h4⟩ := Matrix.create_value_ok h
      exact ⟨by rw [h1]; exact h3, by rw [h2]; exact h4⟩
  · intro c src h hp
    obtain ⟨h1, h2, h3⟩ := Matrix.copy_construct_returned h
    exact ⟨⟨by rw [h1]; exact hp.1, by rw [h2]; exact hp.2⟩, h3⟩
  · intro t src hne h
    have hs' : s' = Function.update (Function.update s t (s src)) src
        { rows_ := 0, columns_ := 0, data_ := none } := by
      rcases h with h | h
      · rw [Matrix.move_construct_eq] at h
        cases h
        rfl
      · rw [Matrix.move_assign_eq s t src hne] at h
        cases h
        rfl
    subst hs'
    refine ⟨?_, ?_, ?_, ?_, ?_⟩
    · rw [Function.update_noteq hne, Function.update_same]
    · rw [Function.update_noteq hne, Function.update_same]
    · rw [Function.update_same]
    · rw [Function.update_same]
    · intro q h1 h2
      rw [Function.update_noteq h2, Function.update_noteq h1]

/-- C18 (amended), at `Matrix_Add` into the object at address 2 and at a move from the
object at address 0 into the object at address 1. -/
theorem positive_dimensions_invariant_witness :
    (∃ s', Matrix_Add exampleSum 2 0 1 = Effect.returned s' ∧ Store.SameDims exampleSum s') ∧
    ∃ s', Matrix.move_assign exampleSum 1 0 = Effect.returned s' ∧
      (s' 1).rows_ = (exampleSum 0).rows_ ∧ (s' 1).columns_ = (exampleSum 0).columns_ ∧
      (s' 0).rows_ = 0 ∧ (s' 0).columns_ = 0 ∧
      ∀ q, q ≠ 1 → q ≠ 0 → s' q = exampleSum q := by
  obtain ⟨s1, h1, _⟩ := Matrix_Add_returns exampleSum 2 0 1 (by decide) (by decide)
    (by decide) (by decide) (by decide) (by decide) (by decide) (by decide) (by decide)
  refine ⟨⟨s1, h1, ?_⟩, ⟨_, Matrix.move_assign_eq exampleSum 1 0 (by decide), ?_⟩⟩
  · exact (positive_dimensions_invariant exampleSum s1).2.2.2.2.2.2.2.2.1 2 0 1
      (by rw [h1]; rfl)
  · exact (positive_dimensions_invariant exampleSum _).2.2.2.2.2.2.2.2.2.2.2.2.2.2.2.2.2.2.2
      1 0 (by decide) (Or.inr (Matrix.move_assign_eq exampleSum 1 0 (by decide)))

/-! ## The invariant on the buffer size -/

theorem Matrix.sized_of_getD {m : Matrix α} (h : m.Sized) (rows columns : Int)
    (hr : rows = m.rows_) (hc : columns = m.columns_) :
    ({ rows_ := rows, columns_ := columns, data_ := some (m.data_.getD []) } :
      Matrix α).Sized := by
  subst hr hc
  obtain ⟨a, b, c⟩ := h
  refine ⟨a, b, ?_⟩
  cases hd : m.data_ with
  | none => simpa [Matrix.size, hd] using c
  | some d => simpa [Matrix.size, hd] using c

theorem Matrix.sized_moved_from :
    ({ rows_ := 0, columns_ := 0, data_ := none } : Matrix α).Sized := by
  refine ⟨by simp, by simp [INT_MAX], by simp [Matrix.size]⟩

/-- C19 as stated fails: `Matrix(65536, 65536)` returns normally, with a buffer of 0 cells
(the `int` product wraps to 0), while `rows_ * columns_` is 4294967296. -/
theorem Matrix_create_buffer_counterexample :
    ((1 : Int) ≤ 65536 ∧ (65536 : Int) ≤ INT_MAX) ∧
      ∃ m : Matrix Int, Matrix.create 65536 65536 = Outcome.ok m ∧ m.size = 0 ∧
        m.rows_ * m.columns_ = 4294967296 ∧ (m.size : Int) ≠ m.rows_ * m.columns_ :=
  ⟨by decide, { rows_ := 65536, columns_ := 65536, data_ := some [] }, by decide, by decide,
    by decide, by decide⟩

/-- C19 (amended): for objects whose product `rows_ * columns_` lies in `[0, INT_MAX]`, the
owned buffer holds exactly `rows_ * columns_` cells (a null buffer counting as empty): this
holds after `Matrix(rows, columns)` and `Matrix(rows, columns, v)` for all `rows ≥ 1`,
`columns ≥ 1` with `rows * columns ≤ INT_MAX`, and copy construction, move construction, copy
assignment and move assignment are defined on such objects and leave both the target and the
source with the property. -/
theorem buffer_size_invariant [Zero α] (s : Store α) :
    (∀ rows columns (v : α), 1 ≤ rows → 1 ≤ columns → rows * columns ≤ INT_MAX →
      ∃ m m' : Matrix α, Matrix.create rows columns = Outcome.ok m ∧ m.Sized ∧
        (m.size : Int) = rows * columns ∧
        Matrix.create_value rows columns v = Outcome.ok m' ∧ m'.Sized ∧
        (m'.size : Int) = rows * columns) ∧
    (∀ c src, c ≠ src → (s src).Sized →
      ∃ s1, Matrix.copy_construct s c src = Effect.returned s1 ∧ (s1 c).Sized ∧
        (s1 src).Sized) ∧
    (∀ t src, t ≠ src → (s src).Sized →
      ∃ s1, Matrix.move_construct s t src = Effect.returned s1 ∧ (s1 t).Sized ∧
        (s1 src).Sized) ∧
    (∀ t src, (s t).Sized → (s src).Sized →
      ∃ s1, (Matrix.copy_assign s t src).final = some s1 ∧ (s1 t).Sized ∧ (s1 src).Sized) ∧
    (∀ t src, (s t).Sized → (s src).Sized →
      ∃ s1, Matrix.move_assign s t src = Effect.returned s1 ∧ (s1 t).Sized ∧
        (s1 src).Sized) := by
  refine ⟨?_, ?_, ?_, ?_, ?_⟩
  · intro rows columns v hr hc hp
    have h0 : 0 ≤ rows * columns := mul_nonneg (by omega) (by omega)
    have hn : ¬(rows ≤ 0 ∨ columns ≤ 0) := by omega
    have key : ∀ w : α, ∃ m : Matrix α, Matrix.create_value rows columns w = Outcome.ok m ∧
        m.Sized ∧ (m.size : Int) = rows * columns := by
      intro w
      obtain ⟨hv, _⟩ := Matrix.constant_spec rows columns w hr hc hp
      exact ⟨_, by rw [Matrix.create_value_eq rows columns w h0 hp, if_neg hn], hv.sized,
        hv.2.2.2⟩
    obtain ⟨m, e1, e2, e3⟩ := key 0
    obtain ⟨m', f1, f2, f3⟩ := key v
    exact ⟨m, m', by rw [Matrix.create_eq_create_value]; exact e1, e2, e3, f1, f2, f3⟩
  · intro c src hne hS
    refine ⟨_, Matrix.copy_construct_eq s c src hS.allocated, ?_, ?_⟩
    · rw [Function.update_same]
      exact Matrix.sized_of_getD hS _ _ rfl rfl
    · rw [Function.update_noteq (Ne.symm hne)]
      exact hS
  · intro t src hne hS
    refine ⟨_, Matrix.move_construct_eq s t src, ?_, ?_⟩
    · rw [Function.update_noteq hne, Function.update_same]
      exact hS
    · rw [Function.update_same]
      exact Matrix.sized_moved_from
  · intro t src hT hS
    by_cases hne : t = src
    · subst hne
      refine ⟨s, ?_, hT, hT⟩
      unfold Matrix.copy_assign
      rw [if_neg (by simp)]
      rfl
    · by_cases hd : (s t).rows_ ≠ (s src).rows_ ∨ (s t).columns_ ≠ (s src).columns_
      · refine ⟨s, ?_, hT, hS⟩
        unfold Matrix.copy_assign
        rw [if_pos hne, if_pos hd]
        rfl
      · have hr : (s t).rows_ = (s src).rows_ := by
          by_contra h
          exact hd (Or.inl h)
        have hc : (s t).columns_ = (s src).columns_ := by
          by_contra h
          exact hd (Or.inr h)
        refine ⟨_, by rw [Matrix.copy_assign_eq s t src hne hS.allocated hr hc]; rfl, ?_, ?_⟩
        · rw [Function.update_same]
          exact Matrix.sized_of_getD hS _ _ hr hc
        · rw [Function.update_noteq (Ne.symm hne)]
          exact hS
  · intro t src hT hS
    by_cases hne : t = src
    · subst hne
      refine ⟨s, ?_, hT, hT⟩
      unfold Matrix.move_assign
      rw [if_neg (by simp)]
    · refine ⟨_, Matrix.move_assign_eq s t src hne, ?_, ?_⟩
      · rw [Function.update_noteq hne, Function.update_same]
        exact hS
      · rw [Function.update_same]
        exact Matrix.sized_moved_from

/-- C19 (amended), at `Matrix(2, 3)`, `Matrix(2, 3, 7)` and at a copy of `[[1,2],[3,4]]`. -/
theorem buffer_size_invariant_witness :
    (∃ m m' : Matrix Int, Matrix.create 2 3 = Outcome.ok m ∧ m.Sized ∧
      (m.size : Int) = 2 * 3 ∧ Matrix.create_value 2 3 7 = Outcome.ok m' ∧ m'.Sized ∧
      (m'.size : Int) = 2 * 3) ∧
    ∃ s1, Matrix.copy_construct exampleSum 5 0 = Effect.returned s1 ∧ (s1 5).Sized ∧
      (s1 0).Sized :=
  ⟨(buffer_size_invariant exampleSum).1 2 3 7 (by decide) (by decide) (by decide),
    (buffer_size_invariant exampleSum).2.1 5 0 (by decide) (by decide)⟩

/-! ## Destinations that are a source operand -/

/-- In `MatrixLibrary.cpp` each of `Matrix_Add`, `Matrix_Subtract`,
`Matrix_Hadamard_Product`, `Matrix_Broadcast`, `Matrix_Absolute` and `Matrix_Sum_Columns`
throws `std::invalid_argument` when its destination is one of its sources, whatever the
shapes; distinct objects with equal contents (`[[1,2]]` at addresses 1, 2 and 3) are
accepted. -/
theorem destination_alias_rejected [Lattice α] [AddGroup α] [Mul α] (s : Store α)
    (M B : Ref) (newRows newColumns : Int) :
    (Matrix_Add s M M B = Effect.thrown Exn.invalid_argument s ∧
      Matrix_Add s M B M = Effect.thrown Exn.invalid_argument s) ∧
    (Matrix_Subtract s M M B = Effect.thrown Exn.invalid_argument s ∧
      Matrix_Subtract s M B M = Effect.thrown Exn.invalid_argument s) ∧
    (Matrix_Hadamard_Product s M M B = Effect.thrown Exn.invalid_argument s ∧
      Matrix_Hadamard_Product s M B M = Effect.thrown Exn.invalid_argument s) ∧
    Matrix_Broadcast s M M newRows newColumns = Effect.thrown Exn.invalid_argument s ∧
    Matrix_Absolute s M M = Effect.thrown Exn.invalid_argument s ∧
    Matrix_Sum_Columns s M M = Effect.thrown Exn.invalid_argument s ∧
    ((Matrix_Add exampleBroadcast 1 2 3).exception = none ∧
      (Matrix_Absolute exampleBroadcast 1 2).exception = none ∧
      (Matrix_Broadcast exampleBroadcast 1 2 1 2).exception = none) := by
  refine ⟨⟨?_, ?_⟩, ⟨?_, ?_⟩, ⟨?_, ?_⟩, ?_, ?_, ?_, by decide⟩
  · unfold Matrix_Add; rw [if_pos (Or.inl rfl)]
  · unfold Matrix_Add; rw [if_pos (Or.inr rfl)]
  · unfold Matrix_Subtract; rw [if_pos (Or.inl rfl)]
  · unfold Matrix_Subtract; rw [if_pos (Or.inr rfl)]
  · unfold Matrix_Hadamard_Product; rw [if_pos (Or.inl rfl)]
  · unfold Matrix_Hadamard_Product; rw [if_pos (Or.inr rfl)]
  · unfold Matrix_Broadcast; rw [if_pos rfl]
  · unfold Matrix_Absolute; rw [if_pos rfl]
  · unfold Matrix_Sum_Columns; rw [if_pos rfl]

/-- C20 fails on the copy of the library in `library.cpp`: for the 1×2 matrix `M = [[1,2]]`
(address 1), `Matrix_Broadcast(M, M, M.rows(), M.columns())` of `library.cpp` throws nothing
and returns with `M` as it was, where `Matrix_Broadcast` of `MatrixLibrary.cpp` throws
`std::invalid_argument` on the same call. -/
theorem library_Matrix_Broadcast_alias_accepted :
    (exampleBroadcast 1).rows = 1 ∧ (exampleBroadcast 1).columns = 2 ∧
      (library.Matrix_Broadcast exampleBroadcast 1 1 1 2).exception = none ∧
      (library.Matrix_Broadcast exampleBroadcast 1 1 1 2).object 1 =
        some { rows_ := 1, columns_ := 2, data_ := some [1, 2] } ∧
      (Matrix_Broadcast exampleBroadcast 1 1 1 2).exception = some Exn.invalid_argument := by
  decide

/-! ## Loops that end early, cells a nest leaves alone -/

theorem forLoopCond_go_stop {σ : Type} (cond : Int → Bool) (body : Int → σ → Option σ)
    (K : Nat) (hfalse : cond (K : Int) = false) :
    ∀ (fuel i : Nat) (s : σ), i ≤ K → K < i + fuel →
      (∀ k : Nat, i ≤ k → k < K → cond (k : Int) = true) →
      forLoopCond.go cond body fuel i s =
        List.foldlM (fun (st : σ) (k : Nat) => body (k : Int) st) s (List.range' i (K - i))
  | 0, i, _, h1, h2, _ => by omega
  | fuel + 1, i, s, h1, h2, h => by
    rw [forLoopCond.go]
    by_cases hi : i = K
    · subst hi
      rw [if_neg (by rw [hfalse]; exact Bool.false_ne_true), Nat.sub_self]
      rfl
    · rw [if_pos (h i le_rfl (by omega)), show K - i = (K - (i + 1)) + 1 by omega,
        List.range'_succ, List.foldlM_cons]
      cases hb : body (i : Int) s with
      | none => rfl
      | some s' =>
        show forLoopCond.go cond body fuel (i + 1) s' = _
        rw [forLoopCond_go_stop cond body K hfalse fuel (i + 1) s' (by omega) (by omega)
          (fun k h3 h4 => h k (by omega) h4)]
        rfl

/-- A loop whose extra condition holds at every `i < K` and fails at `K`, when `K < n`, is the
counting loop over the first `K` indices. -/
theorem forLoopCond_upto {σ : Type} (n K : Int) (cond : Int → Bool)
    (body : Int → σ → Option σ) (s : σ) (hK0 : 0 ≤ K) (hK : K ≤ n)
    (htrue : ∀ i : Int, 0 ≤ i → i < K → cond i = true)
    (hfalse : K < n → cond K = false) :
    forLoopCond n cond body s = forLoop K body s := by
  by_cases hlt : K < n
  · have hcast : ((K.toNat : Nat) : Int) = K := Int.toNat_of_nonneg hK0
    unfold forLoopCond forLoop
    rw [forLoopCond_go_stop cond body K.toNat (by rw [hcast]; exact hfalse hlt) n.toNat 0 s
      (Nat.zero_le _) (by omega) (fun k _ hk => htrue k (Int.ofNat_nonneg k) (by omega)),
      Nat.sub_zero, List.range_eq_range']
  · have hKn : K = n := by omega
    subst hKn
    exact forLoopCond_eq_forLoop K cond body s htrue

/-- A property kept by every defined iteration `0 ≤ i < n` is kept by the loop. -/
theorem forLoop_preserves_range {σ : Type} (P : σ → Prop) (n : Int) (body : Int → σ → Option σ)
    (hbody : ∀ i st st', 0 ≤ i → i < n → P st → body i st = some st' → P st') (s s' : σ)
    (h : forLoop n body s = some s') (hs : P s) : P s' := by
  unfold forLoop at h
  have key : ∀ l : List Nat, (∀ a ∈ l, (a : Int) < n) → ∀ s : σ,
      List.foldlM (fun (st : σ) (i : Nat) => body (i : Int) st) s l = some s' → P s → P s' := by
    intro l
    induction l with
    | nil =>
      intro _ s h hs
      cases h
      exact hs
    | cons a l ih =>
      intro hl s h hs
      rw [List.foldlM_cons] at h
      cases hb : body (a : Int) s with
      | none => rw [hb] at h; cases h
      | some s1 =>
        rw [hb] at h
        exact ih (fun b hb' => hl b (List.mem_cons_of_mem _ hb')) s1 h
          (hbody _ s s1 (Int.ofNat_nonneg a) (hl a (List.mem_cons_self _ _)) hs hb)
  refine key _ ?_ s h hs
  intro a ha
  have := List.mem_range.mp ha
  omega

/-- A nest `for i < R: for j < C:` store at `(pr i j, pc i j)` leaves a cell that is none of
its targets as it was. -/
theorem keep_nest {σ : Type} {obj : σ → Matrix α} {asg : σ → Int → Int → α → Option σ}
    {Fr : σ → Prop} (hasg : AssignSpec obj asg Fr) (s : σ) (R C : Int)
    (outer : Int → σ → Option σ) (body : Int → Int → σ → Option σ)
    (pr pc : Int → Int → Int) (v : Int → Int → α) (hFr : Fr s) (hv : (obj s).Valid)
    (houter : ∀ st i, Fr st → (obj st).rows_ = (obj s).rows_ →
      (obj st).columns_ = (obj s).columns_ → 0 ≤ i → i < R →
      outer i st = forLoop C (fun j st' => body i j st') st)
    (hbody : ∀ st i j, Fr st → (obj st).rows_ = (obj s).rows_ →
      (obj st).columns_ = (obj s).columns_ → 0 ≤ i → i < R → 0 ≤ j → j < C →
      body i j st = asg st (pr i j) (pc i j) (v i j))
    (hpos : ∀ i j, 0 ≤ i → i < R → 0 ≤ j → j < C →
      0 ≤ pr i j ∧ pr i j < (obj s).rows_ ∧ 0 ≤ pc i j ∧ pc i j < (obj s).columns_)
    (row column : Int) (hr0 : 0 ≤ row) (hr : row < (obj s).rows_) (hc0 : 0 ≤ column)
    (hc : column < (obj s).columns_)
    (hne : ∀ i j, 0 ≤ i → i < R → 0 ≤ j → j < C → row ≠ pr i j ∨ column ≠ pc i j)
    (s' : σ) (h : forLoop R outer s = some s') :
    (obj s').element row column = (obj s).element row column := by
  let P : σ → Prop := fun st =>
    Fr st ∧ (obj st).rows_ = (obj s).rows_ ∧ (obj st).columns_ = (obj s).columns_ ∧
      (obj st).Valid ∧ (obj st).element row column = (obj s).element row column
  have hP : P s' := forLoop_preserves_range P R outer
    (by
      intro i st st' hi0 hi hP hb
      rw [houter st i hP.1 hP.2.1 hP.2.2.1 hi0 hi] at hb
      refine forLoop_preserves_range P C (fun j st' => body i j st') ?_ st st' hb hP
      intro j st1 st2 hj0 hj hP1 hb1
      obtain ⟨f, e1, e2, hv1, hcell⟩ := hP1
      obtain ⟨p1, p2, p3, p4⟩ := hpos i j hi0 hi hj0 hj
      have hb2 : asg st1 (pr i j) (pc i j) (v i j) = some st2 := by
        rw [← hbody st1 i j f e1 e2 hi0 hi hj0 hj]
        exact hb1
      obtain ⟨st3, g0, g1, g2, g3, g4, _, g6⟩ := hasg st1 (pr i j) (pc i j) (v i j) f hv1 p1
        (by rw [e1]; exact p2) p3 (by rw [e2]; exact p4)
      rw [hb2] at g0
      cases g0
      refine ⟨g1, by rw [g2, e1], by rw [g3, e2], g4, ?_⟩
      rw [g6 row column hr0 (by rw [e1]; exact hr) hc0 (by rw [e2]; exact hc)
        (hne i j hi0 hi hj0 hj)]
      exact hcell)
    s s' h ⟨hFr, rfl, rfl, hv, rfl⟩
  exact hP.2.2.2.2

/-! ## CreateMatrixWithStride -/

/-- The loops of `CreateMatrixWithStride` over a flat source of `totalRows * maxColumns`
cells, an `int` number, writing into a valid `desiredRows × desiredColumns` matrix whose
cells all hold `zero`: the rows `i` with `i + step < totalRows` are written, the others are
left alone. -/
theorem CreateMatrixWithStride_loops
    (maxColumns totalRows desiredRows desiredColumns stride step : Int) (data : List α)
    (zero : α) (result : Matrix α)
    (hlen : (data.length : Int) = totalRows * maxColumns)
    (hflat : totalRows * maxColumns ≤ INT_MAX) (hR : totalRows ≤ INT_MAX)
    (hstep0 : 0 ≤ step) (hstep : step ≤ INT_MAX) (hstride : 0 ≤ stride)
    (hsum : desiredColumns + stride ≤ INT_MAX)
    (hv : result.Valid) (hr : result.rows_ = desiredRows)
    (hc : result.columns_ = desiredColumns)
    (hzero : ∀ i j, 0 ≤ i → i < desiredRows → 0 ≤ j → j < desiredColumns →
      result.element i j = some zero) :
    ∃ m, forLoopCond desiredRows (fun i => decide (addInt32 i step < totalRows))
        (fun i result =>
          forLoopFrom stride (desiredColumns + stride) (fun j result =>
            if j < maxColumns then
              match vectorAt data (addInt32 (mulInt32 (addInt32 i step) maxColumns) j) with
              | none => none
              | some x => result.element_assign i (subInt32 j stride) x
            else result.element_assign i (subInt32 j stride) zero) result) result = some m ∧
      m.rows_ = desiredRows ∧ m.columns_ = desiredColumns ∧ m.Valid ∧
      ∀ i j, 0 ≤ i → i < desiredRows → 0 ≤ j → j < desiredColumns →
        (i + step < totalRows → j + stride < maxColumns →
          ∃ x, data[((i + step) * maxColumns + (j + stride)).toNat]? = some x ∧
            m.element i j = some x) ∧
        (¬ (i + step < totalRows ∧ j + stride < maxColumns) → m.element i j = some zero) := by
  unfold INT_MAX at hflat hR hstep hsum
  have hdr : 1 ≤ desiredRows := by rw [← hr]; exact hv.1
  -- the number of rows the outer loop visits
  obtain ⟨K, hK0, hK, hKlt, hKge, hKmax⟩ : ∃ K : Int, 0 ≤ K ∧ K ≤ desiredRows ∧
      (∀ i, 0 ≤ i → i < K → i + step < totalRows) ∧ (K < desiredRows → totalRows ≤ K + step) ∧
      (K < desiredRows → K + step ≤ 2147483647) := by
    by_cases h1 : totalRows - step ≤ 0
    · exact ⟨0, le_rfl, by omega, fun i _ hi => by omega, fun _ => by omega,
        fun _ => by omega⟩
    · by_cases h2 : desiredRows ≤ totalRows - step
      · exact ⟨desiredRows, by omega, le_rfl, fun i _ hi => by omega, fun h => by omega,
          fun h => by omega⟩
      · exact ⟨totalRows - step, by omega, by omega, fun i _ hi => by omega,
          fun _ => by omega, fun _ => by omega⟩
  have hadd : ∀ i : Int, 0 ≤ i → i < K → addInt32 i step = i + step := by
    intro i hi0 hi
    have := hKlt i hi0 hi
    exact wrapInt32_eq (by omega) (by omega)
  -- the flat index of a cell that is read
  have hidx : ∀ i j : Int, 0 ≤ i → i < K → 0 ≤ j → j + stride < maxColumns →
      0 ≤ (i + step) * maxColumns + (j + stride) ∧
        (i + step) * maxColumns + (j + stride) < totalRows * maxColumns := by
    intro i j hi0 hi hj0 hj
    exact offset_lt (by omega) (hKlt i hi0 hi) (by omega) hj
  have hsrc : ∀ i j : Int, 0 ≤ i → i < K → 0 ≤ j → j + stride < maxColumns →
      ∃ x, data[((i + step) * maxColumns + (j + stride)).toNat]? = some x := by
    intro i j hi0 hi hj0 hj
    obtain ⟨h1, h2⟩ := hidx i j hi0 hi hj0 hj
    have h3 : ((i + step) * maxColumns + (j + stride)).toNat < data.length := by omega
    exact ⟨data[((i + step) * maxColumns + (j + stride)).toNat], List.getElem?_eq_getElem h3⟩
  rw [forLoopCond_upto desiredRows K _ _ _ hK0 hK
    (by
      intro i hi0 hi
      rw [hadd i hi0 hi]
      exact decide_eq_true (hKlt i hi0 hi))
    (by
      intro hlt
      have h1 := hKge hlt
      have h2 := hKmax hlt
      rw [show addInt32 K step = K + step from wrapInt32_eq (by omega) h2]
      exact decide_eq_false (by omega))]
  have houter : ∀ (st : Matrix α) (i : Int), True → st.rows_ = result.rows_ →
      st.columns_ = result.columns_ → 0 ≤ i → i < K →
      forLoopFrom stride (desiredColumns + stride) (fun j result =>
          if j < maxColumns then
            match vectorAt data (addInt32 (mulInt32 (addInt32 i step) maxColumns) j) with
            | none => none
            | some x => result.element_assign i (subInt32 j stride) x
          else result.element_assign i (subInt32 j stride) zero) st =
        forLoop desiredColumns (fun j st' =>
          if stride + j < maxColumns then
            match vectorAt data
                (addInt32 (mulInt32 (addInt32 i step) maxColumns) (stride + j)) with
            | none => none
            | some x => st'.element_assign i (subInt32 (stride + j) stride) x
          else st'.element_assign i (subInt32 (stride + j) stride) zero) st := by
    intro st i _ _ _ _ _
    unfold forLoopFrom forLoop
    rw [show desiredColumns + stride - stride = desiredColumns by ring]
  have hbody : ∀ (st : Matrix α) (i j : Int), True → st.rows_ = result.rows_ →
      st.columns_ = result.columns_ → 0 ≤ i → i < K → 0 ≤ j → j < desiredColumns →
      (if stride + j < maxColumns then
          match vectorAt data
              (addInt32 (mulInt32 (addInt32 i step) maxColumns) (stride + j)) with
          | none => none
          | some x => st.element_assign i (subInt32 (stride + j) stride) x
        else st.element_assign i (subInt32 (stride + j) stride) zero) =
        st.element_assign i j
          (if j + stride < maxColumns then
            (data[((i + step) * maxColumns + (j + stride)).toNat]?).getD zero
          else zero) := by
    intro st i j _ _ _ hi0 hi hj0 hj
    have e3 : subInt32 (stride + j) stride = j := by
      unfold subInt32
      rw [show stride + j - stride = j by ring]
      exact wrapInt32_eq (by omega) (by omega)
    by_cases hlt : j + stride < maxColumns
    · obtain ⟨x, e1⟩ := hsrc i j hi0 hi hj0 hlt
      obtain ⟨h1, h2⟩ := hidx i j hi0 hi hj0 hlt
      have hrow : 0 ≤ (i + step) * maxColumns ∧ (i + step) * maxColumns < totalRows * maxColumns :=
        by
          have := @offset_lt totalRows maxColumns (i + step) 0 (by omega) (hKlt i hi0 hi)
            le_rfl (by omega)
          omega
      have e4 : mulInt32 (i + step) maxColumns = (i + step) * maxColumns :=
        wrapInt32_eq (by omega) (by omega)
      have e5 : addInt32 ((i + step) * maxColumns) (stride + j) =
          (i + step) * maxColumns + (j + stride) := by
        unfold addInt32
        rw [show (i + step) * maxColumns + (stride + j) = (i + step) * maxColumns + (j + stride)
          by ring]
        exact wrapInt32_eq (by omega) (by omega)
      rw [if_pos (by omega), if_pos hlt, hadd i hi0 hi, e4, e5,
        vectorAt_eq data h1 (by omega), e1, e3]
      rfl
    · rw [if_neg (by omega), if_neg hlt, e3]
  obtain ⟨m, h1, _, h3, h4, h5, h6⟩ := fill_nest Matrix.element_assign_AssignSpec result
    K desiredColumns _ _ (fun i _ => i) (fun _ j => j) _ trivial hv houter hbody
    (by
      intro i j hi0 hi hj0 hj
      show 0 ≤ i ∧ i < result.rows_ ∧ 0 ≤ j ∧ j < result.columns_
      exact ⟨hi0, by rw [hr]; omega, hj0, by rw [hc]; exact hj⟩)
    (by
      intro i j i' j' _ _ _ _ _ _ _ _ h
      exact h)
  refine ⟨m, h1, by rw [h3, hr], by rw [h4, hc], h5, ?_⟩
  intro i j hi0 hi hj0 hj
  by_cases hiK : i < K
  · have hcell := h6 i j hi0 hiK hj0 hj
    constructor
    · intro _ hlt
      obtain ⟨x, e1⟩ := hsrc i j hi0 hiK hj0 hlt
      refine ⟨x, e1, ?_⟩
      rw [hcell, if_pos hlt, e1]
      rfl
    · intro hnot
      have hlt : ¬ j + stride < maxColumns := fun h => hnot ⟨hKlt i hi0 hiK, h⟩
      rw [hcell, if_neg hlt]
  · have hkeep := keep_nest Matrix.element_assign_AssignSpec result
      K desiredColumns _ _ (fun i _ => i) (fun _ j => j) _ trivial hv houter hbody
      (by
        intro i j hi0 hi hj0 hj
        show 0 ≤ i ∧ i < result.rows_ ∧ 0 ≤ j ∧ j < result.columns_
        exact ⟨hi0, by rw [hr]; omega, hj0, by rw [hc]; exact hj⟩)
      i j hi0 (by rw [hr]; exact hi) hj0 (by rw [hc]; exact hj)
      (by
        intro i' j' _ hi' _ _
        show i ≠ i' ∨ j ≠ j'
        left
        omega)
      m h1
    have hge := hKge (by omega)
    constructor
    · intro hlt _
      omega
    · intro _
      rw [hkeep]
      exact hzero i j hi0 hi hj0 hj

/-- `CreateMatrixWithStride` on a flat source of `totalRows * maxColumns` cells, an `int`
number, for a window whose cell count and whose last column `desiredColumns + stride` are
`int`s: the call returns the zero-padded window. -/
theorem CreateMatrixWithStride_returns [Zero α]
    (maxColumns totalRows desiredRows desiredColumns stride step : Int) (data : List α)
    (hlen : (data.length : Int) = totalRows * maxColumns)
    (hflat : totalRows * maxColumns ≤ INT_MAX) (hR : totalRows ≤ INT_MAX)
    (hdr : 1 ≤ desiredRows) (hdc : 1 ≤ desiredColumns)
    (hprod : desiredRows * desiredColumns ≤ INT_MAX)
    (hstep0 : 0 ≤ step) (hstep : step ≤ INT_MAX) (hstride : 0 ≤ stride)
    (hsum : desiredColumns + stride ≤ INT_MAX) :
    ∃ m, library.CreateMatrixWithStride maxColumns totalRows desiredRows desiredColumns stride
          step data = Outcome.ok m ∧
      m.rows_ = desiredRows ∧ m.columns_ = desiredColumns ∧ m.Valid ∧
      ∀ i j, 0 ≤ i → i < desiredRows → 0 ≤ j → j < desiredColumns →
        (i + step < totalRows → j + stride < maxColumns →
          ∃ x, data[((i + step) * maxColumns + (j + stride)).toNat]? = some x ∧
            m.element i j = some x) ∧
        (¬ (i + step < totalRows ∧ j + stride < maxColumns) → m.element i j = some 0) := by
  have hsum' := hsum
  unfold INT_MAX at hsum'
  have ha2 : addInt32 desiredColumns stride = desiredColumns + stride :=
    wrapInt32_eq (by omega) (by omega)
  have h0p : 0 ≤ desiredRows * desiredColumns := mul_nonneg (by omega) (by omega)
  obtain ⟨hv0, hz0⟩ := Matrix.constant_spec desiredRows desiredColumns (0 : α) hdr hdc hprod
  have hcreate : (Matrix.create desiredRows desiredColumns : Outcome (Matrix α)) =
      Outcome.ok { rows_ := desiredRows, columns_ := desiredColumns,
                   data_ := some (List.replicate (desiredRows * desiredColumns).toNat 0) } := by
    rw [Matrix.create_eq_create_value, Matrix.create_value_eq _ _ _ h0p hprod,
      if_neg (by omega)]
  obtain ⟨m, hloop, rest⟩ := CreateMatrixWithStride_loops maxColumns totalRows desiredRows
    desiredColumns stride step data (0 : α) _ hlen hflat hR hstep0 hstep hstride hsum hv0 rfl
    rfl hz0
  refine ⟨m, ?_, rest⟩
  unfold library.CreateMatrixWithStride
  rw [hcreate]
  simp only [ha2, hloop]

/-- On a flat source of 2500000000 cells, `totalRows = maxColumns = 50000`, the 1×1 window at
`step = stride = 49999` has the flat index `49999 * 50000 + 49999`, which is no `int`: the
`int` index is negative and the read lies outside the source. -/
theorem CreateMatrixWithStride_large [Zero α] (data : List α)
    (hl : data.length = 2500000000) :
    library.CreateMatrixWithStride 50000 50000 1 1 49999 49999 data = Outcome.undefined := by
  have hc : (Matrix.create 1 1 : Outcome (Matrix α)) =
      Outcome.ok { rows_ := 1, columns_ := 1,
                   data_ := some (List.replicate ((1 : Int) * 1).toNat 0) } := by
    rw [Matrix.create_eq_create_value, Matrix.create_value_eq _ _ _ (by decide) (by decide),
      if_neg (by decide)]
  have hidx : addInt32 (mulInt32 (addInt32 ((0 : Nat) : Int) 49999) 50000)
      (49999 + ((0 : Nat) : Int)) = -1794967297 := by
    decide
  have hread : vectorAt data (-1794967297) = none := by
    unfold vectorAt
    rw [List.getElem?_eq_none]
    rw [hl]
    decide
  have hcond : decide (addInt32 ((0 : Nat) : Int) 49999 < 50000) = true := by decide
  have hbound : (addInt32 1 49999 - 49999).toNat = 1 := by decide
  have hloop : ∀ (zero : α) (result : Matrix α),
      forLoopCond 1 (fun i => decide (addInt32 i 49999 < 50000))
        (fun i result =>
          forLoopFrom 49999 (addInt32 1 49999) (fun j result =>
            if j < 50000 then
              match vectorAt data (addInt32 (mulInt32 (addInt32 i 49999) 50000) j) with
              | none => none
              | some x => result.element_assign i (subInt32 j 49999) x
            else result.element_assign i (subInt32 j 49999) zero) result) result = none := by
    intro zero result
    show forLoopCond.go _ _ 1 0 result = none
    rw [forLoopCond.go, if_pos hcond]
    have hrow : forLoopFrom 49999 (addInt32 1 49999) (fun j result =>
        if j < 50000 then
          match vectorAt data
              (addInt32 (mulInt32 (addInt32 ((0 : Nat) : Int) 49999) 50000) j) with
          | none => none
          | some x => result.element_assign ((0 : Nat) : Int) (subInt32 j 49999) x
        else result.element_assign ((0 : Nat) : Int) (subInt32 j 49999) zero) result =
        none := by
      unfold forLoopFrom
      rw [hbound]
      show (if (49999 : Int) + ((0 : Nat) : Int) < 50000 then _ else _) >>= _ = none
      rw [if_pos (by decide), hidx, hread]
      rfl
    rw [hrow]
  unfold library.CreateMatrixWithStride
  rw [hc]
  simp only [hloop]

/-- With `desiredColumns = 2147483647` and `stride = 1` the `int` bound
`desiredColumns + stride` of the column loop is negative: no cell is written and the result
handed in is returned as it is. -/
theorem CreateMatrixWithStride_bound_wraps (data : List α) (zero : α) (result : Matrix α) :
    forLoopCond 1 (fun i => decide (addInt32 i 0 < 1))
      (fun i result =>
        forLoopFrom 1 (addInt32 2147483647 1) (fun j result =>
          if j < 2 then
            match vectorAt data (addInt32 (mulInt32 (addInt32 i 0) 2) j) with
            | none => none
            | some x => result.element_assign i (subInt32 j 1) x
          else result.element_assign i (subInt32 j 1) zero) result) result = some result := by
  have hcond : decide (addInt32 ((0 : Nat) : Int) 0 < 1) = true := by decide
  have hbound : (addInt32 2147483647 1 - 1).toNat = 0 := by decide
  show forLoopCond.go _ _ 1 0 result = some result
  rw [forLoopCond.go, if_pos hcond]
  unfold forLoopFrom
  rw [hbound]
  rfl

/-- A call of `CreateMatrixWithStride` whose constructor call returns `result` and whose loops
end in `m` returns `m`. -/
theorem CreateMatrixWithStride_of_loops [Zero α]
    (maxColumns totalRows desiredRows desiredColumns stride step : Int) (data : List α)
    (result m : Matrix α)
    (hc : (Matrix.create desiredRows desiredColumns : Outcome (Matrix α)) = Outcome.ok result)
    (hloop : forLoopCond desiredRows (fun i => decide (addInt32 i step < totalRows))
        (fun i result =>
          forLoopFrom stride (addInt32 desiredColumns stride) (fun j result =>
            if j < maxColumns then
              match vectorAt data (addInt32 (mulInt32 (addInt32 i step) maxColumns) j) with
              | none => none
              | some x => result.element_assign i (subInt32 j stride) x
            else result.element_assign i (subInt32 j stride) 0) result) result = some m) :
    library.CreateMatrixWithStride maxColumns totalRows desiredRows desiredColumns stride step
      data = Outcome.ok m := by
  unfold library.CreateMatrixWithStride
  rw [hc]
  simp only [hloop]

/-- With `desiredRows = 1`, `desiredColumns = 2147483647`, `stride = 1`, `step = 0`,
`maxColumns = 2`, `totalRows = 1` the call returns a matrix whose cell `(0, 0)` holds `0`,
whatever the source holds. -/
theorem CreateMatrixWithStride_columns_wrap [Zero α] (data : List α) :
    ∃ m, library.CreateMatrixWithStride 2 1 1 2147483647 1 0 data = Outcome.ok m ∧
      m.element 0 0 = some 0 := by
  obtain ⟨_, hz0⟩ := Matrix.constant_spec 1 2147483647 (0 : α) (by decide) (by decide)
    (by decide)
  have hc : (Matrix.create 1 2147483647 : Outcome (Matrix α)) =
      Outcome.ok { rows_ := 1, columns_ := 2147483647,
                   data_ := some (List.replicate ((1 : Int) * 2147483647).toNat 0) } := by
    rw [Matrix.create_eq_create_value, Matrix.create_value_eq _ _ _ (by decide) (by decide),
      if_neg (by decide)]
  exact ⟨_, CreateMatrixWithStride_of_loops 2 1 1 2147483647 1 0 data _ _ hc
    (CreateMatrixWithStride_bound_wraps data 0 _),
    hz0 0 0 (by decide) (by decide) (by decide) (by decide)⟩

/-- C21 as stated fails, in three ways, each with `desiredRows ≥ 1`, `desiredColumns ≥ 1`,
`stride ≥ 0`, `step ≥ 0` and a source of `totalRows * maxColumns` cells.  With
`desiredRows = desiredColumns = 50000` on the one-cell source `[5]` the `int` product of the
constructor call wraps and the call throws `std::bad_alloc`.  With
`desiredColumns = 2147483647`, `stride = 1` on the source `[5, 6]` (one row, two columns) the
`int` bound `desiredColumns + stride` wraps, no cell is written, and cell `(0, 0)` holds `0`
instead of `data[1] = 6`.  On a source of `50000 * 50000` cells the flat index of the window
at `step = stride = 49999` wraps and the read lies outside the source. -/
theorem CreateMatrixWithStride_overflow_counterexample :
    ((((([5] : List Int).length : Nat) : Int) = 1 * 1 ∧
      library.CreateMatrixWithStride 1 1 50000 50000 0 0 ([5] : List Int) =
        Outcome.throw Exn.bad_alloc) ∧
    (((([5, 6] : List Int).length : Nat) : Int) = 1 * 2 ∧ (0 : Int) + 0 < 1 ∧
      (0 : Int) + 1 < 2 ∧ ([5, 6] : List Int)[(((0 : Int) + 0) * 2 + (0 + 1)).toNat]? = some 6 ∧
      ∃ m, library.CreateMatrixWithStride 2 1 1 2147483647 1 0 ([5, 6] : List Int) =
        Outcome.ok m ∧ m.element 0 0 = some 0) ∧
    (((List.replicate 2500000000 (0 : Int)).length : Int) = 50000 * 50000 ∧
      library.CreateMatrixWithStride 50000 50000 1 1 49999 49999
        (List.replicate 2500000000 (0 : Int)) = Outcome.undefined)) := by
  refine ⟨⟨by decide, by decide⟩, ⟨by decide, by decide, by decide, by decide,
    CreateMatrixWithStride_columns_wrap _⟩, ?_, ?_⟩
  · rw [List.length_replicate]
    decide
  · exact CreateMatrixWithStride_large _ (List.length_replicate _ _)

/-- C21 (amended): for `int` arguments with `desiredRows ≥ 1`, `desiredColumns ≥ 1`,
`stride ≥ 0`, `step ≥ 0`, a source of `totalRows * maxColumns` cells, and with
`desiredRows * desiredColumns ≤ INT_MAX`, `desiredColumns + stride ≤ INT_MAX` and
`totalRows * maxColumns ≤ INT_MAX`, `CreateMatrixWithStride` returns a
`desiredRows × desiredColumns` matrix with
`result(i, j) == data[(i + step) * maxColumns + (j + stride)]` when `i + step < totalRows` and
`j + stride < maxColumns`, that index lying inside the source, and `result(i, j) == 0`
otherwise; no exception is thrown and no read lies outside the source.  On the source
`[1, 2, 3, 4, 5, 6]` of two rows and three columns, `desiredRows = desiredColumns = 2`,
`stride = 1`, `step = 0` it yields `[[2, 3], [5, 6]]`, and with `stride = 2`, `step = 1` it
yields `[[6, 0], [0, 0]]`. -/
theorem CreateMatrixWithStride_correct [Zero α]
    (maxColumns totalRows desiredRows desiredColumns stride step : Int) (data : List α)
    (hdr : 1 ≤ desiredRows) (hdc : 1 ≤ desiredColumns) (hstride : 0 ≤ stride)
    (hstep : 0 ≤ step) (hlen : (data.length : Int) = totalRows * maxColumns)
    (hR : totalRows ≤ INT_MAX) (hstepmax : step ≤ INT_MAX)
    (hprod : desiredRows * desiredColumns ≤ INT_MAX)
    (hsum : desiredColumns + stride ≤ INT_MAX)
    (hflat : totalRows * maxColumns ≤ INT_MAX) :
    (∃ m, library.CreateMatrixWithStride maxColumns totalRows desiredRows desiredColumns stride
          step data = Outcome.ok m ∧
      m.rows = desiredRows ∧ m.columns = desiredColumns ∧
      ∀ i j, 0 ≤ i → i < desiredRows → 0 ≤ j → j < desiredColumns →
        (i + step < totalRows → j + stride < maxColumns →
          0 ≤ (i + step) * maxColumns + (j + stride) ∧
          (i + step) * maxColumns + (j + stride) < totalRows * maxColumns ∧
          ∃ x, data[((i + step) * maxColumns + (j + stride)).toNat]? = some x ∧
            m.element i j = some x) ∧
        (¬ (i + step < totalRows ∧ j + stride < maxColumns) → m.element i j = some 0)) ∧
    library.CreateMatrixWithStride 3 2 2 2 1 0 exampleFlat =
      Outcome.ok { rows_ := 2, columns_ := 2, data_ := some [2, 3, 5, 6] } ∧
    library.CreateMatrixWithStride 3 2 2 2 2 1 exampleFlat =
      Outcome.ok { rows_ := 2, columns_ := 2, data_ := some [6, 0, 0, 0] } := by
  obtain ⟨m, h1, h2, h3, _, h5⟩ := CreateMatrixWithStride_returns maxColumns totalRows
    desiredRows desiredColumns stride step data hlen hflat hR hdr hdc hprod hstep hstepmax
    hstride hsum
  refine ⟨⟨m, h1, h2, h3, ?_⟩, by decide, by decide⟩
  intro i j hi0 hi hj0 hj
  obtain ⟨g1, g2⟩ := h5 i j hi0 hi hj0 hj
  refine ⟨?_, g2⟩
  intro hlt1 hlt2
  obtain ⟨b1, b2⟩ := @offset_lt totalRows maxColumns (i + step) (j + stride) (by omega) hlt1
    (by omega) hlt2
  exact ⟨b1, b2, g1 hlt1 hlt2⟩

/-- C21 (amended), at the source `[1, 2, 3, 4, 5, 6]` of two rows and three columns,
`desiredRows = desiredColumns = 2`, `stride = 2`, `step = 1`. -/
theorem CreateMatrixWithStride_correct_witness :
    (∃ m, library.CreateMatrixWithStride 3 2 2 2 2 1 exampleFlat = Outcome.ok m ∧
      m.rows = 2 ∧ m.columns = 2 ∧
      ∀ i j, 0 ≤ i → i < 2 → 0 ≤ j → j < 2 →
        (i + 1 < 2 → j + 2 < 3 →
          0 ≤ (i + 1) * 3 + (j + 2) ∧ (i + 1) * 3 + (j + 2) < 2 * 3 ∧
          ∃ x, exampleFlat[((i + 1) * 3 + (j + 2)).toNat]? = some x ∧
            m.element i j = some x) ∧
        (¬ (i + 1 < 2 ∧ j + 2 < 3) → m.element i j = some 0)) ∧
    library.CreateMatrixWithStride 3 2 2 2 1 0 exampleFlat =
      Outcome.ok { rows_ := 2, columns_ := 2, data_ := some [2, 3, 5, 6] } ∧
    library.CreateMatrixWithStride 3 2 2 2 2 1 exampleFlat =
      Outcome.ok { rows_ := 2, columns_ := 2, data_ := some [6, 0, 0, 0] } :=
  CreateMatrixWithStride_correct 3 2 2 2 2 1 exampleFlat (by decide) (by decide) (by decide)
    (by decide) (by decide) (by decide) (by decide) (by decide) (by decide) (by decide)

/-! ## Transposition whose destination is its source -/

theorem AliasInv.change {s : Store α} {M : Ref} {done done' : Int → Int → Prop} {st : Store α}
    (h : AliasInv s M done st)
    (hd : ∀ r c, 0 ≤ r → r < (s M).rows_ → 0 ≤ c → c < (s M).rows_ → c < r →
      (done' r c ↔ done r c)) : AliasInv s M done' st := by
  obtain ⟨f, e1, e2, hv, hcells⟩ := h
  refine ⟨f, e1, e2, hv, ?_⟩
  intro r c hr0 hr hc0 hc
  obtain ⟨g1, g2, g3⟩ := hcells r c hr0 hr hc0 hc
  refine ⟨g1, ?_, ?_⟩
  · intro hlt hdone
    exact g2 hlt ((hd r c hr0 hr hc0 hc hlt).mp hdone)
  · intro hlt hdone
    exact g3 hlt (fun h => hdone ((hd r c hr0 hr hc0 hc hlt).mpr h))

/-- One iteration `final(b, a) = original(a, b)` of a transposition whose destination is its
source: the value read is the first value of the cell `(min a b, max a b)`. -/
theorem AliasInv.write {s : Store α} {M : Ref} {st : Store α} (a b : Int)
    (hsq : (s M).rows_ = (s M).columns_) (ha0 : 0 ≤ a) (ha : a < (s M).rows_) (hb0 : 0 ≤ b)
    (hb : b < (s M).rows_)
    (h : AliasInv s M (fun r c => c < a ∨ (c = a ∧ r < b)) st) :
    ∃ st', (match (st M).element a b with
        | some x => st.assign M b a x
        | none => none) = some st' ∧
      AliasInv s M (fun r c => c < a ∨ (c = a ∧ r < b + 1)) st' := by
  obtain ⟨f, e1, e2, hv, hcells⟩ := h
  obtain ⟨x, hx⟩ := Matrix.element_defined hv ha0 (by rw [e1]; exact ha) hb0
    (by rw [e2, ← hsq]; exact hb)
  obtain ⟨st', g0, g1, g2, g3, g4, g5, g6⟩ := Store.assign_spec hv hb0 (by rw [e1]; exact hb)
    ha0 (by rw [e2, ← hsq]; exact ha) x
  refine ⟨st', by rw [hx]; exact g0, ?_, by rw [g2, e1], by rw [g3, e2], g4, ?_⟩
  · intro q hq
    rw [g1 q hq, f q hq]
  intro r c hr0 hr hc0 hc
  by_cases hrc : r = b ∧ c = a
  · obtain ⟨rfl, rfl⟩ := hrc
    obtain ⟨k1, k2, k3⟩ := hcells c r ha0 ha hb0 hb
    rw [g5, ← hx]
    refine ⟨?_, ?_, ?_⟩
    · intro hle
      by_cases heq : r = c
      · subst heq
        exact k1 le_rfl
      · exact k2 (by omega) (Or.inl (by omega))
    · intro hlt _
      exact k1 (by omega)
    · intro hlt hnot
      exact absurd (Or.inr ⟨rfl, by omega⟩) hnot
  · have hne : r ≠ b ∨ c ≠ a := by
      by_cases h1 : r = b
      · exact Or.inr (fun h2 => hrc ⟨h1, h2⟩)
      · exact Or.inl h1
    obtain ⟨k1, k2, k3⟩ := hcells r c hr0 hr hc0 hc
    rw [g6 r c hr0 (by rw [e1]; exact hr) hc0 (by rw [e2, ← hsq]; exact hc) hne]
    refine ⟨k1, ?_, ?_⟩
    · intro hlt hdone
      refine k2 hlt ?_
      rcases hdone with h1 | ⟨h1, h2⟩
      · exact Or.inl h1
      · right
        refine ⟨h1, ?_⟩
        rcases hne with h3 | h3
        · omega
        · exact absurd h1 h3
    · intro hlt hdone
      refine k3 hlt ?_
      intro h1
      apply hdone
      rcases h1 with h1 | ⟨h1, h2⟩
      · exact Or.inl h1
      · exact Or.inr ⟨h1, by omega⟩

/-- The loops of `Matrix_Transpose` when the destination is the source, a valid square
matrix: they run to completion and leave the first value of the cell `(min r c, max r c)` in
every cell `(r, c)`. -/
theorem transpose_alias_loops (s : Store α) (M : Ref) (hv : (s M).Valid)
    (hsq : (s M).rows_ = (s M).columns_) :
    ∃ s', forLoop (s M).rows (fun i st =>
        forLoop (st M).columns (fun j st =>
          match (st M).element i j with
          | some a => st.assign M j i a
          | none => none) st) s = some s' ∧
      Store.FrameExcept M s s' ∧ (s' M).rows_ = (s M).rows_ ∧
      (s' M).columns_ = (s M).columns_ ∧ (s' M).Valid ∧
      ∀ r c, 0 ≤ r → r < (s M).rows_ → 0 ≤ c → c < (s M).rows_ →
        (s' M).element r c = (s M).element (min r c) (max r c) := by
  obtain ⟨s', hs', hI⟩ := forLoop_inv (s M).rows (fun i st =>
      forLoop (st M).columns (fun j st =>
        match (st M).element i j with
        | some a => st.assign M j i a
        | none => none) st)
    (fun a st => AliasInv s M (fun _ c => c < (a : Int)) st) s
    ⟨fun _ _ => rfl, rfl, rfl, hv, fun r c _ _ hc0 _ =>
      ⟨fun _ => rfl, fun _ hd => by omega, fun _ _ => rfl⟩⟩
    (by
      intro a st ha hI
      have ha' : (a : Int) < (s M).rows_ := ha
      have hcols : (st M).columns = (s M).rows_ := by
        show (st M).columns_ = _
        rw [hI.2.2.1, hsq]
      show ∃ st', forLoop (st M).columns (fun j st =>
          match (st M).element (a : Int) j with
          | some x => st.assign M j (a : Int) x
          | none => none) st = some st' ∧
        AliasInv s M (fun _ c => c < ((a + 1 : Nat) : Int)) st'
      rw [hcols]
      obtain ⟨st', hst', hJ⟩ := forLoop_inv (s M).rows_ (fun j st =>
          match (st M).element (a : Int) j with
          | some x => st.assign M j (a : Int) x
          | none => none)
        (fun b st => AliasInv s M (fun r c => c < (a : Int) ∨ (c = (a : Int) ∧ r < (b : Int)))
          st) st
        (hI.change (fun r c hr0 _ _ _ _ => by
          push_cast
          constructor
          · intro h
            omega
          · intro h
            exact Or.inl h))
        (by
          intro b st1 hb hJ
          obtain ⟨st2, e, hJ'⟩ := AliasInv.write (a : Int) (b : Int) hsq (Int.ofNat_nonneg a) ha'
            (Int.ofNat_nonneg b) hb hJ
          refine ⟨st2, e, hJ'.change ?_⟩
          intro r c _ _ _ _ _
          push_cast
          exact Iff.rfl)
      refine ⟨st', hst', hJ.change ?_⟩
      intro r c hr0 hr _ _ _
      have hn : (((s M).rows_.toNat : Nat) : Int) = (s M).rows_ :=
        Int.toNat_of_nonneg (by have := hv.1; omega)
      rw [hn]
      push_cast
      constructor
      · intro h
        omega
      · intro h
        omega)
  obtain ⟨f, e1, e2, hv', hcells⟩ := hI
  refine ⟨s', hs', f, e1, e2, hv', ?_⟩
  intro r c hr0 hr hc0 hc
  obtain ⟨k1, k2, _⟩ := hcells r c hr0 hr hc0 hc
  have hn : (((s M).rows.toNat : Nat) : Int) = (s M).rows_ :=
    Int.toNat_of_nonneg (by have := hv.1; show 0 ≤ (s M).rows_; omega)
  by_cases hle : r ≤ c
  · rw [min_eq_left hle, max_eq_right hle]
    exact k1 hle
  · have hlt : c < r := by omega
    rw [min_eq_right hlt.le, max_eq_left hlt.le]
    exact k2 hlt (by rw [hn]; exact hc)

/-- C22: for every valid square matrix `M`, `Matrix_Transpose(M, M)`, in `MatrixLibrary.cpp`
and in `library.cpp`, returns normally, changes no other object, and leaves in every cell
`(i, j)` the original value of the cell `(min i j, max i j)`: the cells on and above the
diagonal are unchanged and every cell below it holds the value of its mirror cell.  The result
is the transpose of the original exactly when the original is symmetric.  On `[[1,2],[3,4]]`
the call leaves `[[1,2],[2,4]]`. -/
theorem Matrix_Transpose_alias (s : Store α) (M : Ref) (hv : (s M).Valid)
    (hsq : (s M).rows = (s M).columns) :
    (∃ s', Matrix_Transpose s M M = Effect.returned s' ∧
      library.Matrix_Transpose s M M = Effect.returned s' ∧
      Store.FrameExcept M s s' ∧ (s' M).rows = (s M).rows ∧ (s' M).columns = (s M).columns ∧
      (∀ i j, 0 ≤ i → i < (s M).rows → 0 ≤ j → j < (s M).rows →
        (s' M).element i j = (s M).element (min i j) (max i j)) ∧
      (∀ i j, 0 ≤ i → i < (s M).rows → 0 ≤ j → j < (s M).rows → i ≤ j →
        (s' M).element i j = (s M).element i j ∧ (s' M).element j i = (s M).element i j) ∧
      ((∀ i j, 0 ≤ i → i < (s M).rows → 0 ≤ j → j < (s M).rows →
          (s' M).element i j = (s M).element j i) ↔
        (∀ i j, 0 ≤ i → i < (s M).rows → 0 ≤ j → j < (s M).rows →
          (s M).element i j = (s M).element j i))) ∧
    (Matrix_Transpose exampleSum 0 0).object 0 =
      some { rows_ := 2, columns_ := 2, data_ := some [1, 2, 2, 4] } := by
  refine ⟨?_, by decide⟩
  have hsq' : (s M).rows_ = (s M).columns_ := hsq
  obtain ⟨s', hloop, f, e1, e2, _, cells⟩ := transpose_alias_loops s M hv hsq'
  have hcells : ∀ i j, 0 ≤ i → i < (s M).rows → 0 ≤ j → j < (s M).rows →
      (s' M).element i j = (s M).element (min i j) (max i j) := cells
  refine ⟨s', ?_, ?_, f, e1, e2, hcells, ?_, ?_, ?_⟩
  · unfold Matrix_Transpose
    rw [if_neg (by simp [Matrix.rows, Matrix.columns, hsq'])]
    exact congrArg Effect.ofOption hloop
  · unfold library.Matrix_Transpose
    rw [if_neg (by simp [Matrix.rows, Matrix.columns, hsq'])]
    exact congrArg Effect.ofOption hloop
  · intro i j hi0 hi hj0 hj hle
    constructor
    · rw [hcells i j hi0 hi hj0 hj, min_eq_left hle, max_eq_right hle]
    · rw [hcells j i hj0 hj hi0 hi, min_eq_right hle, max_eq_left hle]
  · intro h i j hi0 hi hj0 hj
    by_cases hle : i ≤ j
    · rw [← h i j hi0 hi hj0 hj, hcells i j hi0 hi hj0 hj, min_eq_left hle, max_eq_right hle]
    · have hle' : j ≤ i := by omega
      rw [← h j i hj0 hj hi0 hi, hcells j i hj0 hj hi0 hi, min_eq_left hle',
        max_eq_right hle']
  · intro h i j hi0 hi hj0 hj
    by_cases hle : i ≤ j
    · rw [hcells i j hi0 hi hj0 hj, min_eq_left hle, max_eq_right hle]
      exact h i j hi0 hi hj0 hj
    · have hle' : j ≤ i := by omega
      rw [hcells i j hi0 hi hj0 hj, min_eq_right hle', max_eq_left hle']

/-- C22, at the square matrix `[[1,2],[3,4]]`. -/
theorem Matrix_Transpose_alias_witness :
    (∃ s', Matrix_Transpose exampleSum 0 0 = Effect.returned s' ∧
      library.Matrix_Transpose exampleSum 0 0 = Effect.returned s' ∧
      Store.FrameExcept 0 exampleSum s' ∧ (s' 0).rows = (exampleSum 0).rows ∧
      (s' 0).columns = (exampleSum 0).columns ∧
      (∀ i j, 0 ≤ i → i < (exampleSum 0).rows → 0 ≤ j → j < (exampleSum 0).rows →
        (s' 0).element i j = (exampleSum 0).element (min i j) (max i j)) ∧
      (∀ i j, 0 ≤ i → i < (exampleSum 0).rows → 0 ≤ j → j < (exampleSum 0).rows → i ≤ j →
        (s' 0).element i j = (exampleSum 0).element i j ∧
          (s' 0).element j i = (exampleSum 0).element i j) ∧
      ((∀ i j, 0 ≤ i → i < (exampleSum 0).rows → 0 ≤ j → j < (exampleSum 0).rows →
          (s' 0).element i j = (exampleSum 0).element j i) ↔
        (∀ i j, 0 ≤ i → i < (exampleSum 0).rows → 0 ≤ j → j < (exampleSum 0).rows →
          (exampleSum 0).element i j = (exampleSum 0).element j i))) ∧
    (Matrix_Transpose exampleSum 0 0).object 0 =
      some { rows_ := 2, columns_ := 2, data_ := some [1, 2, 2, 4] } :=
  Matrix_Transpose_alias exampleSum 0 (by decide) (by decide)

/-! ## The flat and the two-dimensional source -/

/-- The flattening of a rectangular source holds `rows * columns` cells. -/
theorem flattening_length {β : Type} (totalColumns : Nat) :
    ∀ data : List (List β), (∀ row ∈ data, row.length = totalColumns) →
      (flattening data).length = data.length * totalColumns
  | [], _ => by simp [flattening]
  | a :: l, h => by
    have ih := flattening_length totalColumns l (fun row hr => h row (List.mem_cons_of_mem _ hr))
    unfold flattening at ih ⊢
    rw [List.flatten_cons, List.length_append, ih, h a (List.mem_cons_self _ _),
      List.length_cons, Nat.succ_mul]
    omega

/-- Cell `c` of row `r` of a rectangular source is cell `r * columns + c` of its
flattening. -/
theorem flattening_getElem {β : Type} (totalColumns : Nat) :
    ∀ (data : List (List β)), (∀ row ∈ data, row.length = totalColumns) →
      ∀ (r c : Nat) (row : List β) (x : β), data[r]? = some row → row[c]? = some x →
        (flattening data)[r * totalColumns + c]? = some x
  | [], _, r, c, row, x, h1, _ => by simp at h1
  | a :: l, h, 0, c, row, x, h1, h2 => by
    rw [List.getElem?_cons_zero] at h1
    cases h1
    have hc : c < a.length := by
      by_contra hge
      rw [List.getElem?_eq_none (by omega)] at h2
      cases h2
    unfold flattening
    rw [List.flatten_cons, Nat.zero_mul, Nat.zero_add, List.getElem?_append_left hc]
    exact h2
  | a :: l, h, r + 1, c, row, x, h1, h2 => by
    rw [List.getElem?_cons_succ] at h1
    have ih := flattening_getElem totalColumns l
      (fun row hr => h row (List.mem_cons_of_mem _ hr)) r c row x h1 h2
    have ha := h a (List.mem_cons_self _ _)
    unfold flattening at ih ⊢
    rw [List.flatten_cons, List.getElem?_append_right (by rw [ha, Nat.succ_mul]; omega),
      show (r + 1) * totalColumns + c - a.length = r * totalColumns + c by
        rw [ha, Nat.succ_mul]; omega]
    exact ih

/-- C23 as stated fails: on the rectangular source of 50000 rows and 50000 columns, the 1×1
window at `step = stride = 49999` passes the validation of `Matrix_Data_Preprocessor`, which
returns a matrix; `CreateMatrixWithStride` on the row-major flattening computes the flat index
`49999 * 50000 + 49999` in `int`, where it wraps to a negative value, and reads outside the
source: it returns no matrix. -/
theorem CreateMatrixWithStride_refines_counterexample :
    (∀ row ∈ List.replicate 50000 (List.replicate 50000 (0 : Int)), row.length = 50000) ∧
      (List.replicate 50000 (List.replicate 50000 (0 : Int))).length = 50000 ∧
      (1 : Int) + 49999 ≤ 50000 ∧
      (∃ m, Matrix_Data_Preprocessor 1 1 49999 49999
          (List.replicate 50000 (List.replicate 50000 (0 : Int))) = Outcome.ok m) ∧
      library.CreateMatrixWithStride 50000 50000 1 1 49999 49999
          (flattening (List.replicate 50000 (List.replicate 50000 (0 : Int)))) =
        Outcome.undefined := by
  have hrect : ∀ row ∈ List.replicate 50000 (List.replicate 50000 (0 : Int)),
      row.length = 50000 := by
    intro row h
    rw [List.eq_of_mem_replicate h]
    exact List.length_replicate _ _
  have hlen : (List.replicate 50000 (List.replicate 50000 (0 : Int))).length = 50000 :=
    List.length_replicate _ _
  refine ⟨hrect, hlen, by decide, ?_, ?_⟩
  · obtain ⟨m, h, _⟩ := Matrix_Data_Preprocessor_returns 1 1 49999 49999
      (List.replicate 50000 (List.replicate 50000 (0 : Int))) 50000
      (by
        intro h
        rw [h] at hlen
        cases hlen)
      hrect (by rw [hlen]; decide) (by decide) (by decide) (by decide) (by decide) (by decide)
      (by decide) (by rw [hlen]; decide) (by decide)
    exact ⟨m, h⟩
  · refine CreateMatrixWithStride_large _ ?_
    rw [flattening_length 50000 _ hrect, hlen]

/-- C23 (amended): for every non-empty rectangular source `D` with
`totalRows * totalColumns ≤ INT_MAX` and every `desiredRows ≥ 1`, `desiredColumns ≥ 1`,
`step ≥ 0`, `stride ≥ 0` with `desiredRows + step ≤ totalRows` and
`desiredColumns + stride ≤ totalColumns`, `CreateMatrixWithStride` called with
`maxColumns = totalColumns`, the same `totalRows` and the row-major flattening of `D`, and
`Matrix_Data_Preprocessor` called on `D`, both return a `desiredRows × desiredColumns`
matrix, and the two matrices agree in every element. -/
theorem CreateMatrixWithStride_refines [Zero α] (desiredRows desiredColumns stride step : Int)
    (data : List (List α)) (totalColumns : Nat) (hne : data ≠ [])
    (hrect : ∀ row ∈ data, row.length = totalColumns)
    (hdr : 1 ≤ desiredRows) (hdc : 1 ≤ desiredColumns)
    (hstep : 0 ≤ step) (hstride : 0 ≤ stride)
    (hrows : desiredRows + step ≤ data.length)
    (hcols : desiredColumns + stride ≤ totalColumns)
    (hflat : (data.length : Int) * (totalColumns : Int) ≤ INT_MAX) :
    ∃ m m', library.CreateMatrixWithStride totalColumns data.length desiredRows desiredColumns
          stride step (flattening data) = Outcome.ok m ∧
      Matrix_Data_Preprocessor desiredRows desiredColumns stride step data = Outcome.ok m' ∧
      m.rows = desiredRows ∧ m.columns = desiredColumns ∧
      m'.rows = m.rows ∧ m'.columns = m.columns ∧
      ∀ i j, 0 ≤ i → i < desiredRows → 0 ≤ j → j < desiredColumns →
        m.element i j = m'.element i j := by
  have hR1 : (1 : Int) ≤ (data.length : Int) := by
    have := List.length_pos.mpr hne
    omega
  have hC1 : (1 : Int) ≤ (totalColumns : Int) := by omega
  have hRle : (data.length : Int) ≤ INT_MAX :=
    le_trans (le_mul_of_one_le_right (by omega) hC1) hflat
  have hCle : (totalColumns : Int) ≤ INT_MAX :=
    le_trans (le_mul_of_one_le_left (by omega) hR1) hflat
  have hprod : desiredRows * desiredColumns ≤ INT_MAX :=
    le_trans (mul_le_mul (by omega) (by omega) (by omega) (by omega)) hflat
  have hRle' := hRle
  have hCle' := hCle
  unfold INT_MAX at hRle' hCle'
  have hlen : ((flattening data).length : Int) = (data.length : Int) * (totalColumns : Int) := by
    rw [flattening_length totalColumns data hrect]
    push_cast
    rfl
  obtain ⟨m', e', r', c', _, cells'⟩ := Matrix_Data_Preprocessor_returns desiredRows
    desiredColumns stride step data totalColumns hne hrect hRle hCle hdr hdc hprod hstep
    hstride hrows hcols
  obtain ⟨m, e, r, c, _, cells⟩ := CreateMatrixWithStride_returns (totalColumns : Int)
    (data.length : Int) desiredRows desiredColumns stride step (flattening data) hlen hflat
    hRle hdr hdc hprod hstep (by unfold INT_MAX; omega) hstride (by unfold INT_MAX; omega)
  refine ⟨m, m', e, e', r, c, r'.trans r.symm, c'.trans c.symm, ?_⟩
  intro i j hi0 hi hj0 hj
  obtain ⟨row, x, g1, g2, g3⟩ := cells' i j hi0 hi hj0 hj
  obtain ⟨y, k1, k2⟩ := (cells i j hi0 hi hj0 hj).1 (by omega) (by omega)
  have hidx : ((i + step) * (totalColumns : Int) + (j + stride)).toNat =
      (i + step).toNat * totalColumns + (j + stride).toNat := by
    have h1 : (((i + step).toNat : Nat) : Int) = i + step := Int.toNat_of_nonneg (by omega)
    have h2 : (((j + stride).toNat : Nat) : Int) = j + stride := Int.toNat_of_nonneg (by omega)
    have h3 : (i + step) * (totalColumns : Int) + (j + stride) =
        (((i + step).toNat * totalColumns + (j + stride).toNat : Nat) : Int) := by
      push_cast
      rw [h1, h2]
    rw [h3, Int.toNat_natCast]
  rw [hidx, flattening_getElem totalColumns data hrect _ _ row x g1 g2] at k1
  cases k1
  rw [k2, g3]

/-- C23 (amended), at the source `[[1,2,3],[4,5,6]]`, `desiredRows = 1`,
`desiredColumns = 2`, `stride = 1`, `step = 1`. -/
theorem CreateMatrixWithStride_refines_witness :
    ∃ m m', library.CreateMatrixWithStride ((3 : Nat) : Int) exampleSource.length 1 2 1 1
          (flattening exampleSource) = Outcome.ok m ∧
      Matrix_Data_Preprocessor 1 2 1 1 exampleSource = Outcome.ok m' ∧
      m.rows = 1 ∧ m.columns = 2 ∧ m'.rows = m.rows ∧ m'.columns = m.columns ∧
      ∀ i j, 0 ≤ i → i < 1 → 0 ≤ j → j < 2 → m.element i j = m'.element i j :=
  CreateMatrixWithStride_refines 1 2 1 1 exampleSource 3 (by decide) (by decide) (by decide)
    (by decide) (by decide) (by decide) (by decide) (by decide) (by decide)

/-! ## Negative offsets -/

/-- C24 fails on the code: `Matrix_Data_Preprocessor` tests `desiredRows + step` and
`desiredColumns + stride` against the source from above only.  With `desiredRows = 2`,
`desiredColumns = 1`, `stride = 0`, `step = -1` on the source `[[5],[6]]` the test passes
(`2 + (-1) = 1 ≤ 2`, `1 + 0 ≤ 1`), the loop condition holds at `i = 0` (`-1 < 2`), and the
first read is `data[-1][0]`: the row index `i + step = -1` is below `0` and the read lies
outside the source.  With `desiredRows = desiredColumns = 1`, `stride = -1`, `step = 0` on
`[[5, 6]]` the test passes as well and the first read is `data[0][-1]`.  Neither call throws
`std::invalid_argument`. -/
theorem Matrix_Data_Preprocessor_negative_offsets :
    ((∀ row ∈ ([[5], [6]] : List (List Int)), row.length = 1) ∧
      ¬ (addInt32 2 (-1) > wrapInt32 (([[5], [6]] : List (List Int)).length : Int) ∨
          addInt32 1 0 > wrapInt32 (([5] : List Int).length : Int)) ∧
      decide (addInt32 0 (-1) < wrapInt32 (([[5], [6]] : List (List Int)).length : Int)) = true ∧
      addInt32 0 (-1) = -1 ∧
      vectorAt ([[5], [6]] : List (List Int)) (addInt32 0 (-1)) = none ∧
      Matrix_Data_Preprocessor 2 1 0 (-1) ([[5], [6]] : List (List Int)) =
        Outcome.undefined ∧
      Matrix_Data_Preprocessor 2 1 0 (-1) ([[5], [6]] : List (List Int)) ≠
        Outcome.throw Exn.invalid_argument) ∧
    ((∀ row ∈ ([[5, 6]] : List (List Int)), row.length = 2) ∧
      ¬ (addInt32 1 0 > wrapInt32 (([[5, 6]] : List (List Int)).length : Int) ∨
          addInt32 1 (-1) > wrapInt32 (([5, 6] : List Int).length : Int)) ∧
      vectorAt ([[5, 6]] : List (List Int)) (addInt32 0 0) = some [5, 6] ∧
      vectorAt ([5, 6] : List Int) (-1) = none ∧
      Matrix_Data_Preprocessor 1 1 (-1) 0 ([[5, 6]] : List (List Int)) = Outcome.undefined ∧
      Matrix_Data_Preprocessor 1 1 (-1) 0 ([[5, 6]] : List (List Int)) ≠
        Outcome.throw Exn.invalid_argument) := by
  decide

/-! ## Copy construction at the level of pointers: facts -/

/-- Reading through the pointer of an object is reading its value. -/
theorem Memory.element_eq (m : Memory α) (r : Ref) (row column : Int) :
    m.element r row column = (m.value r).element row column := by
  unfold Memory.element Memory.value Memory.deref Matrix.element Matrix.index
  cases h : (m.object r).data_ with
  | none => rfl
  | some a =>
    cases h2 : m.array a with
    | none => simp [h2]
    | some d => simp [h2]

/-- A valid object points to a live array, whose cells are those of its value. -/
theorem Memory.valid_array {m : Memory α} {r : Ref} (hv : (m.value r).Valid) :
    ∃ a d, (m.object r).data_ = some a ∧ m.array a = some d ∧ (m.value r).data_ = some d := by
  obtain ⟨h1, h2, _, hsz⟩ := hv
  have hpos : 0 < (m.value r).rows_ * (m.value r).columns_ := mul_pos (by omega) (by omega)
  unfold Matrix.size at hsz
  cases ha : (m.object r).data_ with
  | none =>
    have : (m.value r).data_ = none := by simp [Memory.value, Memory.deref, ha]
    rw [this] at hsz
    simp only at hsz
    omega
  | some a =>
    cases hd : m.array a with
    | none =>
      have : (m.value r).data_ = none := by simp [Memory.value, Memory.deref, ha, hd]
      rw [this] at hsz
      simp only at hsz
      omega
    | some d =>
      exact ⟨a, d, rfl, hd, by simp [Memory.value, Memory.deref, ha, hd]⟩

/-- The copy constructor on a valid source, when the address the allocator hands out holds no
array: the new object has the dimensions of the source and points to the new array, which
holds the cells of the source; the array of the source is another one and is untouched. -/
theorem Memory.copy_construct_returns [Zero α] (m : Memory α) (self other : Ref)
    (hne : self ≠ other) (hfresh : m.array m.next = none) (hv : (m.value other).Valid) :
    ∃ a d, (m.object other).data_ = some a ∧ m.array a = some d ∧ a ≠ m.next ∧
      Memory.copy_construct m self other = Effect.returned
        { object := Function.update m.object self
            { rows_ := (m.object other).rows_, columns_ := (m.object other).columns_,
              data_ := some m.next }
          array := Function.update m.array m.next (some d)
          next := m.next + 1 } := by
  obtain ⟨a, d, ha, hd, hval⟩ := Memory.valid_array hv
  have hane : a ≠ m.next := by
    intro h
    rw [h, hfresh] at hd
    cases hd
  obtain ⟨h1, h2⟩ := copy_buffer (hv.sized).allocated
  rw [hval] at h2
  have h1' : (make_unique (toSizeT (mulInt32 (m.object other).rows_ (m.object other).columns_)) :
      Outcome (List α)) =
      Outcome.ok (List.replicate
        (mulInt32 (m.object other).rows_ (m.object other).columns_).toNat 0) := h1
  have h2' : std_copy (some d) (mulInt32 (m.object other).rows_ (m.object other).columns_)
      (List.replicate (mulInt32 (m.object other).rows_ (m.object other).columns_).toNat
        (0 : α)) = some d := h2
  refine ⟨a, d, ha, hd, hane, ?_⟩
  unfold Memory.copy_construct Memory.allocate
  rw [h1']
  simp only [Memory.copy, Memory.deref, Function.update_same, Function.update_noteq (Ne.symm hne),
    ha, Option.some_bind, Function.update_noteq hane, hd, h2', Function.update_idem]

/-- What a defined cell assignment does: it replaces one cell of the array the object points
to, and nothing else. -/
theorem Memory.element_assign_cases {m m2 : Memory α} {r : Ref} {row column : Int} {v : α}
    (h : m.element_assign r row column v = some m2) :
    ∃ a d, (m.object r).data_ = some a ∧ m.array a = some d ∧ m2.object = m.object ∧
      m2.array = Function.update m.array a
        (some (d.set (toSizeT (addInt32 (mulInt32 row (m.object r).columns_) column)) v)) := by
  unfold Memory.element_assign at h
  cases ha : (m.object r).data_ with
  | none => simp [ha] at h
  | some a =>
    cases hd : m.array a with
    | none => simp [ha, hd] at h
    | some d =>
      simp only [ha, hd] at h
      split_ifs at h
      cases h
      exact ⟨a, d, rfl, hd, rfl, rfl⟩

/-- A cell assignment through one object leaves an object that points elsewhere as it was:
its members and every cell it reads. -/
theorem Memory.element_assign_frame {m m2 : Memory α} {r q : Ref} {row column : Int} {v : α}
    (h : m.element_assign r row column v = some m2)
    (hq : (m.object q).data_ ≠ (m.object r).data_) :
    m2.object q = m.object q ∧ ∀ i j, m2.element q i j = m.element q i j := by
  obtain ⟨a, d, ha, _, hobj, harr⟩ := Memory.element_assign_cases h
  refine ⟨by rw [hobj], ?_⟩
  intro i j
  unfold Memory.element
  rw [hobj, harr]
  cases hb : (m.object q).data_ with
  | none => rfl
  | some b =>
    have hba : b ≠ a := by
      intro hba
      apply hq
      rw [hb, ha, hba]
    simp only [Function.update_noteq hba]

/-- C15: for every valid matrix `S`, in a memory where objects point to their arrays and the
allocator hands out an unused address, the copy constructor builds at another object address
an object `C` with the same `rows_` and `columns_` that reads `C(i, j) == S(i, j)` at every
position, leaving `S` as it was; `C` points to an array of its own, so every later write
`C(i, j) = v` leaves both dimensions and every element of `S` unchanged, every write
`S(i, j) = v` leaves `C` unchanged, and every in-range write to `C` is defined and is read
back from `C`.  On `S = [[1,2],[3,4]]`, after `C(0, 0) = 9` the cell `S(0, 0)` still reads
`1` and `C(0, 0)` reads `9`. -/
theorem Matrix_copy_isolated [Zero α] (m : Memory α) (c src : Ref) (hne : c ≠ src)
    (hfresh : m.array m.next = none) (hS : (m.value src).Valid) :
    (∃ m1, Memory.copy_construct m c src = Effect.returned m1 ∧
      (m1.object c).rows_ = (m.object src).rows_ ∧
      (m1.object c).columns_ = (m.object src).columns_ ∧
      (∀ i j, m1.element c i j = m.element src i j) ∧
      m1.object src = m.object src ∧ (∀ i j, m1.element src i j = m.element src i j) ∧
      (m1.object c).data_ ≠ (m1.object src).data_ ∧
      (∀ i j v m2, m1.element_assign c i j v = some m2 →
        m2.object src = m.object src ∧ ∀ i' j', m2.element src i' j' = m.element src i' j') ∧
      (∀ i j v m2, m1.element_assign src i j v = some m2 →
        m2.object c = m1.object c ∧ ∀ i' j', m2.element c i' j' = m1.element c i' j') ∧
      (∀ i j v, 0 ≤ i → i < (m.object src).rows_ → 0 ≤ j → j < (m.object src).columns_ →
        ∃ m2, m1.element_assign c i j v = some m2 ∧ m2.element c i j = some v)) ∧
    ((Memory.copy_construct exampleMemory 5 0).final.bind
        (fun m1 => m1.element_assign 5 0 0 9)).map
      (fun m2 => (m2.element 0 0 0, m2.element 5 0 0)) = some (some 1, some 9) := by
  refine ⟨?_, by decide⟩
  obtain ⟨a, d, ha, hd, hane, hcopy⟩ := Memory.copy_construct_returns m c src hne hfresh hS
  obtain ⟨a', d', ha', hd', hval⟩ := Memory.valid_array hS
  have haa : a' = a := by
    rw [ha] at ha'
    exact (Option.some.inj ha').symm
  subst haa
  rw [hd] at hd'
  cases hd'
  have hobjc : (Function.update m.object c
      ({ rows_ := (m.object src).rows_, columns_ := (m.object src).columns_,
         data_ := some m.next } : MatrixRep)) c =
      { rows_ := (m.object src).rows_, columns_ := (m.object src).columns_,
        data_ := some m.next } := Function.update_same _ _ _
  have hobjs : (Function.update m.object c
      ({ rows_ := (m.object src).rows_, columns_ := (m.object src).columns_,
         data_ := some m.next } : MatrixRep)) src = m.object src :=
    Function.update_noteq (Ne.symm hne) _ _
  have hsrc_el : ∀ i j, m.element src i j =
      d[toSizeT (addInt32 (mulInt32 i (m.object src).columns_) j)]? := by
    intro i j
    unfold Memory.element
    rw [ha]
    simp only [hd]
  refine ⟨_, hcopy, ?_, ?_, ?_, hobjs, ?_, ?_, ?_, ?_, ?_⟩
  · show (Function.update m.object c _ c).rows_ = _
    rw [hobjc]
  · show (Function.update m.object c _ c).columns_ = _
    rw [hobjc]
  · intro i j
    rw [hsrc_el]
    unfold Memory.element
    simp only [hobjc, Function.update_same]
  · intro i j
    rw [hsrc_el]
    unfold Memory.element
    simp only [hobjs, ha, Function.update_noteq hane, hd]
  · show (Function.update m.object c _ c).data_ ≠ (Function.update m.object c _ src).data_
    rw [hobjc, hobjs, ha]
    intro h
    exact hane (Option.some.inj h).symm
  · intro i j v m2 h
    obtain ⟨f1, f2⟩ := Memory.element_assign_frame (q := src) h (by
      show (Function.update m.object c _ src).data_ ≠ (Function.update m.object c _ c).data_
      rw [hobjc, hobjs, ha]
      intro h
      exact hane (Option.some.inj h))
    refine ⟨f1.trans hobjs, ?_⟩
    intro i' j'
    rw [f2, hsrc_el]
    unfold Memory.element
    simp only [hobjs, ha, Function.update_noteq hane, hd]
  · intro i j v m2 h
    exact Memory.element_assign_frame (q := c) h (by
      show (Function.update m.object c _ c).data_ ≠ (Function.update m.object c _ src).data_
      rw [hobjc, hobjs, ha]
      intro h
      exact hane (Option.some.inj h).symm)
  · intro i j v hi0 hi hj0 hj
    have hlt := Matrix.index_lt_size hS hi0 hi hj0 hj
    have hlt' : toSizeT (addInt32 (mulInt32 i (m.object src).columns_) j) < d.length := by
      unfold Matrix.size at hlt
      rw [hval] at hlt
      exact hlt
    refine ⟨{ object := Function.update m.object c
                { rows_ := (m.object src).rows_, columns_ := (m.object src).columns_,
                  data_ := some m.next }
              array := Function.update (Function.update m.array m.next (some d)) m.next
                (some (d.set (toSizeT (addInt32 (mulInt32 i (m.object src).columns_) j)) v))
              next := m.next + 1 }, ?_, ?_⟩
    · unfold Memory.element_assign
      simp only [hobjc, Function.update_same, if_pos hlt']
    · unfold Memory.element
      simp only [hobjc, Function.update_same]
      rw [List.getElem?_set_self hlt']

/-- C15, at `S = [[1,2],[3,4]]` copied to the object address 5. -/
theorem Matrix_copy_isolated_witness :
    (∃ m1, Memory.copy_construct exampleMemory 5 0 = Effect.returned m1 ∧
      (m1.object 5).rows_ = (exampleMemory.object 0).rows_ ∧
      (m1.object 5).columns_ = (exampleMemory.object 0).columns_ ∧
      (∀ i j, m1.element 5 i j = exampleMemory.element 0 i j) ∧
      m1.object 0 = exampleMemory.object 0 ∧
      (∀ i j, m1.element 0 i j = exampleMemory.element 0 i j) ∧
      (m1.object 5).data_ ≠ (m1.object 0).data_ ∧
      (∀ i j v m2, m1.element_assign 5 i j v = some m2 →
        m2.object 0 = exampleMemory.object 0 ∧
          ∀ i' j', m2.element 0 i' j' = exampleMemory.element 0 i' j') ∧
      (∀ i j v m2, m1.element_assign 0 i j v = some m2 →
        m2.object 5 = m1.object 5 ∧ ∀ i' j', m2.element 5 i' j' = m1.element 5 i' j') ∧
      (∀ i j v, 0 ≤ i → i < (exampleMemory.object 0).rows_ → 0 ≤ j →
        j < (exampleMemory.object 0).columns_ →
        ∃ m2, m1.element_assign 5 i j v = some m2 ∧ m2.element 5 i j = some v)) ∧
    ((Memory.copy_construct exampleMemory 5 0).final.bind
        (fun m1 => m1.element_assign 5 0 0 9)).map
      (fun m2 => (m2.element 0 0 0, m2.element 5 0 0)) = some (some 1, some 9) :=
  Matrix_copy_isolated exampleMemory 5 0 (by decide) (by decide) (by decide)

end MatrixLibrary
